import Mathlib

/-!
# Campus event ticketing: seat ledger and schedule conflict checker

A shallow embedding of the request handlers of `src/server.js`
(`POST /api/venues`, `POST /api/events`, `PUT /api/events/:id`,
`DELETE /api/events/:id`, `POST /api/rsvp`, `POST /api/cancel-ticket`,
`POST /api/checkin`, `GET /api/events/:id/report`)
over an explicit store holding the `venues`, `events` and `rsvps` tables, and
of the client-side checks of `src/public/script.js` that mirror them
(`validateEventTimes`, the quantity selector, the View Report button).

Modelling conventions.

* Every handler is a function from the store (and the request, the current
  time and, for bookings, the random identifiers drawn) to a response and the
  store after the request.  A handler runs in isolation: its SQL statements
  execute in the order the handler issues them and `ROLLBACK` restores the
  store found at `BEGIN TRANSACTION`.
* A `Date` is represented by its time value in milliseconds, or by `none` for
  an Invalid Date (time value `NaN`).  Comparisons involving `NaN` are false,
  as in JavaScript.  Time values are taken inside the range in which adding or
  subtracting the one hour buffer stays a valid `Date`.
* The route middleware (`isAuth`, `isAdmin`) runs before a handler and is not
  part of it; checks written inside a handler body are modelled.
* The surrogate key `rsvps.id` is never read by a handler and is left out.
  The `users` table is represented by the session user and, where a session is
  tied to the row it was built from at login, by the column `users.role` as a
  function of `users.id`.
* Figures rendered with `toFixed` from floating-point products and quotients
  (refund, revenue, rates) are not represented; the responses carry the numbers
  they are computed from.
-/

namespace EventMgmt

/-! ## Time values -/

/-- Time value of a JavaScript `Date`: milliseconds since the epoch, or `none`
for an Invalid Date (`NaN`). -/
abbrev TimeValue := Option Int

/-- The date `new Date(t.getTime() + k)`. -/
def TimeValue.plus (t : TimeValue) (k : Int) : TimeValue :=
  match t with
  | some x => some (x + k)
  | none => none

/-- JavaScript `a < b` on two dates (false when either is invalid). -/
def dateLt (a b : TimeValue) : Bool :=
  match a, b with
  | some x, some y => decide (x < y)
  | _, _ => false

/-- JavaScript `a <= b` on two dates (false when either is invalid). -/
def dateLe (a b : TimeValue) : Bool :=
  match a, b with
  | some x, some y => decide (x ≤ y)
  | _, _ => false

/-- JavaScript `a > b` on two dates (false when either is invalid). -/
def dateGt (a b : TimeValue) : Bool := dateLt b a

/-- One minute in milliseconds, `1000 * 60`. -/
def msPerMinute : Int := 1000 * 60

/-- One hour buffer in milliseconds, `60 * 60 * 1000`. -/
def bufferMs : Int := 60 * 60 * 1000

/-! ## Tables -/

/-- Column `rsvps.status`; the handlers write only these two values. -/
inductive Status where
  | purchased
  | checked_in
  deriving DecidableEq, Repr

/-- A row of table `venues`. -/
structure Venue where
  id : Nat
  name : String
  location : String
  admin_id : Nat
  deriving DecidableEq

/-- A row of table `events`.  `date` and `end_time` hold the time values that
`new Date(...)` gives for the stored strings. -/
structure Event where
  id : Nat
  title : String
  date : TimeValue
  end_time : TimeValue
  capacity : Int
  seats_left : Int
  price : Rat
  organizer_id : Nat
  venue_id : Nat
  deriving DecidableEq

/-- A row of table `rsvps` (a ticket). -/
structure Rsvp where
  user_id : Nat
  event_id : Nat
  ticket_id : String
  status : Status
  deriving DecidableEq

/-- The persistent store.  `eventSeq` is the AUTOINCREMENT counter of table
`events` (the largest event id handed out so far). -/
structure Store where
  venues : List Venue
  events : List Event
  rsvps : List Rsvp
  eventSeq : Nat
  deriving DecidableEq

/-- The user object kept in the session (`req.session.user`). -/
structure SessionUser where
  id : Nat
  username : String
  role : String
  deriving DecidableEq

/-- `SELECT ... FROM events WHERE id = ?`. -/
def findEvent (s : Store) (event_id : Nat) : Option Event :=
  s.events.find? (fun e => e.id == event_id)

/-- `SELECT COUNT(*) FROM rsvps r WHERE r.user_id = ? AND r.event_id = ?`. -/
def ticketsHeld (s : Store) (user_id event_id : Nat) : Nat :=
  s.rsvps.countP (fun r => r.user_id == user_id && r.event_id == event_id)

/-- Number of ticket rows of an event. -/
def ticketCount (s : Store) (event_id : Nat) : Nat :=
  s.rsvps.countP (fun r => r.event_id == event_id)

/-! ## POST /api/rsvp (multi-ticket booking) -/

/-- Responses of `POST /api/rsvp`, one constructor per `res.status(...)`. -/
inductive RsvpResponse where
  /-- 403 "Admins cannot get tickets." -/
  | adminsCannotGetTickets
  /-- 400 "Invalid quantity. Must be between 1 and 4." -/
  | invalidQuantity
  /-- 500 "Error checking event status." -/
  | errorCheckingEvent
  /-- 409 "You already have n ticket(s). You can only book m more". -/
  | quotaExceeded (tickets_held : Nat) (max_new_tickets : Int)
  /-- 409 "Sorry, only n seats are available." -/
  | insufficientSeats (seats_left : Int)
  /-- 500 "Error creating ticket. Please try again." -/
  | errorCreatingTicket
  /-- 201 with the generated `ticket_ids`. -/
  | created (qty : Int) (ticket_ids : List String)
  deriving DecidableEq

/-- HTTP status code of a booking response. -/
def RsvpResponse.status : RsvpResponse → Nat
  | .adminsCannotGetTickets => 403
  | .invalidQuantity => 400
  | .errorCheckingEvent => 500
  | .quotaExceeded _ _ => 409
  | .insufficientSeats _ => 409
  | .errorCreatingTicket => 500
  | .created _ _ => 201

/-- The guard `!qty || qty < 1 || qty > 4`, with `none` for `NaN`. -/
def qtyRejected (qty : Option Int) : Bool :=
  match qty with
  | none => true
  | some q => q == 0 || decide (q < 1) || decide (q > 4)

/-- `INSERT INTO rsvps (user_id, event_id, ticket_id, status) VALUES (?, ?, ?,
'purchased')`: fails (`none`) when `ticket_id` breaks the UNIQUE constraint. -/
def insertRsvp (rows : List Rsvp) (user_id event_id : Nat) (ticket_id : String) :
    Option (List Rsvp) :=
  if rows.any (fun r => r.ticket_id == ticket_id) then none
  else some (rows ++ [⟨user_id, event_id, ticket_id, Status.purchased⟩])

/-- The insert loop of the booking handler over the generated identifiers, in
the order they are generated; `none` when an insert fails. -/
def insertTickets (rows : List Rsvp) (user_id event_id : Nat) :
    List String → Option (List Rsvp)
  | [] => some rows
  | t :: ts =>
    match insertRsvp rows user_id event_id t with
    | none => none
    | some rows1 => insertTickets rows1 user_id event_id ts

/-- The row inserted for a generated identifier. -/
def newRow (user_id event_id : Nat) (ticket_id : String) : Rsvp :=
  ⟨user_id, event_id, ticket_id, Status.purchased⟩

/-- `UPDATE events SET seats_left = seats_left + delta WHERE id = ?`. -/
def addSeats (events : List Event) (event_id : Nat) (delta : Int) : List Event :=
  events.map (fun e => if e.id == event_id then { e with seats_left := e.seats_left + delta } else e)

/-- The identifiers pushed on `tickets_generated`: `rand i` is the identifier
built from the random bytes drawn at iteration `i` of the loop. -/
def ticketsGenerated (rand : Nat → String) (qty : Int) : List String :=
  (List.range qty.toNat).map rand

/-- Handler of `POST /api/rsvp`.  `quantity` is `parseInt(req.body.quantity, 10)`. -/
def postRsvp (s : Store) (user : SessionUser) (event_id : Nat) (quantity : Option Int)
    (rand : Nat → String) : RsvpResponse × Store :=
  if user.role == "admin" then (.adminsCannotGetTickets, s)
  else if qtyRejected quantity then (.invalidQuantity, s)
  else
    match quantity with
    | none => (.invalidQuantity, s)
    | some qty =>
      match findEvent s event_id with
      | none => (.errorCheckingEvent, s)
      | some e =>
        let tickets_held := ticketsHeld s user.id event_id
        let max_new_tickets : Int := 4 - (tickets_held : Int)
        if qty > max_new_tickets then (.quotaExceeded tickets_held max_new_tickets, s)
        else if e.seats_left < qty then (.insufficientSeats e.seats_left, s)
        else
          let tickets_generated := ticketsGenerated rand qty
          match insertTickets s.rsvps user.id event_id tickets_generated with
          | none => (.errorCreatingTicket, s)
          | some rows =>
            (.created qty tickets_generated,
              { s with rsvps := rows, events := addSeats s.events event_id (-qty) })

/-! ## POST /api/cancel-ticket -/

/-- Responses of `POST /api/cancel-ticket`.  The success body carries
`refund`, a function of the ticket price alone (`(ticket.price * 0.9).toFixed(2)`),
and `eventTitle`; the constructor records the price and the title. -/
inductive CancelResponse where
  /-- 404 "Ticket not found or already cancelled/checked-in." -/
  | ticketNotFound
  /-- 400 "Cancellation not allowed. ..." -/
  | cancellationNotAllowed
  /-- 200 "Ticket cancelled successfully!" -/
  | cancelled (price : Rat) (eventTitle : String)
  deriving DecidableEq

/-- HTTP status code of a cancellation response. -/
def CancelResponse.status : CancelResponse → Nat
  | .ticketNotFound => 404
  | .cancellationNotAllowed => 400
  | .cancelled _ _ => 200

/-- The lookup `SELECT r.*, e.date, e.price, e.title FROM rsvps r JOIN events e
ON r.event_id = e.id WHERE r.ticket_id = ? AND r.user_id = ? AND r.status =
'purchased'`, first row. -/
def getTicket (s : Store) (ticket_id : String) (user_id : Nat) : Option (Rsvp × Event) :=
  s.rsvps.findSome? (fun r =>
    if r.ticket_id == ticket_id && r.user_id == user_id && r.status == Status.purchased then
      match findEvent s r.event_id with
      | some e => some (r, e)
      | none => none
    else none)

/-- The value `eventStart - now` in milliseconds (`none` for `NaN`). -/
def timeDiff (eventStart : TimeValue) (now : Int) : Option Int :=
  match eventStart with
  | some d => some (d - now)
  | none => none

/-- The test `minutesUntilEvent < m` where `minutesUntilEvent = timeDiff /
(1000 * 60)`; the division by the positive constant is monotone, so the test is
taken on the milliseconds.  False for `NaN`. -/
def minutesUntilEventLt (td : Option Int) (m : Int) : Bool :=
  match td with
  | some d => decide (d < m * msPerMinute)
  | none => false

/-- The test `minutesUntilEvent > m`.  False for `NaN`. -/
def minutesUntilEventGt (td : Option Int) (m : Int) : Bool :=
  match td with
  | some d => decide (d > m * msPerMinute)
  | none => false

/-- `DELETE FROM rsvps WHERE ticket_id = ? AND user_id = ?`. -/
def deleteTicket (rows : List Rsvp) (ticket_id : String) (user_id : Nat) : List Rsvp :=
  rows.filter (fun r => !(r.ticket_id == ticket_id && r.user_id == user_id))

/-- Handler of `POST /api/cancel-ticket`. -/
def postCancelTicket (s : Store) (user : SessionUser) (ticket_id : String) (now : Int) :
    CancelResponse × Store :=
  match getTicket s ticket_id user.id with
  | none => (.ticketNotFound, s)
  | some (ticket, e) =>
    if minutesUntilEventLt (timeDiff e.date now) 30 then (.cancellationNotAllowed, s)
    else
      (.cancelled e.price e.title,
        { s with rsvps := deleteTicket s.rsvps ticket_id user.id,
                 events := addSeats s.events ticket.event_id 1 })

/-! ## POST /api/checkin -/

/-- Responses of `POST /api/checkin`. -/
inductive CheckinResponse where
  /-- 404 "Ticket not found." -/
  | ticketNotFound
  /-- 400 "Check-in not yet available. ..." -/
  | notYetAvailable
  /-- 404 "Ticket not found or already checked in." -/
  | notFoundOrAlreadyCheckedIn
  /-- 200 "Attendee checked in successfully." -/
  | checkedIn
  deriving DecidableEq

/-- HTTP status code of a check-in response. -/
def CheckinResponse.status : CheckinResponse → Nat
  | .ticketNotFound => 404
  | .notYetAvailable => 400
  | .notFoundOrAlreadyCheckedIn => 404
  | .checkedIn => 200

/-- The lookup `SELECT e.date, e.title FROM rsvps r JOIN events e ON r.event_id
= e.id WHERE r.ticket_id = ?`, first row. -/
def getTicketEvent (s : Store) (ticket_id : String) : Option Event :=
  s.rsvps.findSome? (fun r =>
    if r.ticket_id == ticket_id then findEvent s r.event_id else none)

/-- `UPDATE rsvps SET status = 'checked_in' WHERE ticket_id = ? AND status =
'purchased'`. -/
def markCheckedIn (rows : List Rsvp) (ticket_id : String) : List Rsvp :=
  rows.map (fun r =>
    if r.ticket_id == ticket_id && r.status == Status.purchased then
      { r with status := Status.checked_in }
    else r)

/-- The number of rows the check-in UPDATE changes (`this.changes`). -/
def checkinChanges (rows : List Rsvp) (ticket_id : String) : Nat :=
  rows.countP (fun r => r.ticket_id == ticket_id && r.status == Status.purchased)

/-- Handler of `POST /api/checkin`. -/
def postCheckin (s : Store) (ticket_id : String) (now : Int) : CheckinResponse × Store :=
  match getTicketEvent s ticket_id with
  | none => (.ticketNotFound, s)
  | some e =>
    if minutesUntilEventGt (timeDiff e.date now) 25 then (.notYetAvailable, s)
    else if checkinChanges s.rsvps ticket_id == 0 then (.notFoundOrAlreadyCheckedIn, s)
    else (.checkedIn, { s with rsvps := markCheckedIn s.rsvps ticket_id })

/-! ## POST /api/events and PUT /api/events/:id -/

/-- The fields of the request body of create-event and edit-event.  `date` and
`end_time` are the time values of `new Date(date)` and `new Date(end_time)`. -/
structure EventForm where
  title : String
  date : TimeValue
  end_time : TimeValue
  capacity : Int
  price : Rat
  venue_id : Nat
  deriving DecidableEq

/-- Responses of create-event and edit-event. -/
inductive EventResponse where
  /-- 400 "End time must be after the start time." -/
  | endNotAfterStart
  /-- 400 "Event must be at least 15 minutes long. ..." -/
  | tooShort
  /-- 400 "Event start time must be in the future. ..." -/
  | startNotInFuture
  /-- 400 "Event duration cannot exceed 8 hours. ..." -/
  | tooLong
  /-- 403 "Event not found or you do not have permission." (edit only) -/
  | notFoundOrNoPermission
  /-- 409 "Conflict: ..." naming the colliding event. -/
  | conflict (existing : Event)
  /-- 400 "Cannot reduce capacity below n (already booked seats)." (edit only) -/
  | capacityTooLow (currentBooked : Int)
  /-- 500 "Insert error: ..." or "Update error: ...". -/
  | storageError
  /-- 201 "Event created successfully!" with `eventId`. -/
  | created (eventId : Nat)
  /-- 200 "Event updated successfully!" -/
  | updated
  deriving DecidableEq

/-- HTTP status code of an event response. -/
def EventResponse.status : EventResponse → Nat
  | .endNotAfterStart => 400
  | .tooShort => 400
  | .startNotInFuture => 400
  | .tooLong => 400
  | .notFoundOrNoPermission => 403
  | .conflict _ => 409
  | .capacityTooLow _ => 400
  | .storageError => 500
  | .created _ => 201
  | .updated => 200

/-- The four time checks of `POST /api/events` (lines 198-222), in order;
`none` when none of them rejects. -/
def createValidation (startTime endTime : TimeValue) (now : Int) : Option EventResponse :=
  if dateLe endTime startTime then some .endNotAfterStart
  else if dateLt endTime (startTime.plus (15 * 60 * 1000)) then some .tooShort
  else if dateLe startTime (some now) then some .startNotInFuture
  else if dateGt endTime (startTime.plus (8 * 60 * 60 * 1000)) then some .tooLong
  else none

/-- The four time checks of `PUT /api/events/:id` (lines 328-352), in order;
`none` when none of them rejects. -/
def editValidation (startTime endTime : TimeValue) (now : Int) : Option EventResponse :=
  if dateLe endTime startTime then some .endNotAfterStart
  else if dateLt endTime (startTime.plus (15 * 60 * 1000)) then some .tooShort
  else if dateLe startTime (some now) then some .startNotInFuture
  else if dateGt endTime (startTime.plus (8 * 60 * 60 * 1000)) then some .tooLong
  else none

/-- The value `hasOverlap` of the create-event loop (lines 224-244). -/
def hasOverlapCreate (startTime endTime : TimeValue) (existing : Event) : Bool :=
  let newStartWithBuffer := startTime.plus (-bufferMs)
  let newEndWithBuffer := endTime.plus bufferMs
  let existingStartWithBuffer := existing.date.plus (-bufferMs)
  let existingEndWithBuffer := existing.end_time.plus bufferMs
  dateLt newStartWithBuffer existingEndWithBuffer &&
    dateGt newEndWithBuffer existingStartWithBuffer

/-- The value `hasOverlap` of the edit-event loop (lines 360-380). -/
def hasOverlapEdit (startTime endTime : TimeValue) (existing : Event) : Bool :=
  let newStartWithBuffer := startTime.plus (-bufferMs)
  let newEndWithBuffer := endTime.plus bufferMs
  let existingStartWithBuffer := existing.date.plus (-bufferMs)
  let existingEndWithBuffer := existing.end_time.plus bufferMs
  dateLt newStartWithBuffer existingEndWithBuffer &&
    dateGt newEndWithBuffer existingStartWithBuffer

/-- The conflict loop of create-event: the first existing event that overlaps. -/
def createConflict (startTime endTime : TimeValue) : List Event → Option Event
  | [] => none
  | existing :: rest =>
    if hasOverlapCreate startTime endTime existing then some existing
    else createConflict startTime endTime rest

/-- The conflict loop of edit-event: the first existing event that overlaps. -/
def editConflict (startTime endTime : TimeValue) : List Event → Option Event
  | [] => none
  | existing :: rest =>
    if hasOverlapEdit startTime endTime existing then some existing
    else editConflict startTime endTime rest

/-- `SELECT id, title, date, end_time FROM events WHERE venue_id = ?`. -/
def eventsAtVenue (s : Store) (venue_id : Nat) : List Event :=
  s.events.filter (fun e => e.venue_id == venue_id)

/-- `SELECT id, title, date, end_time FROM events WHERE venue_id = ? AND id != ?`. -/
def otherEventsAtVenue (s : Store) (venue_id event_id : Nat) : List Event :=
  s.events.filter (fun e => e.venue_id == venue_id && e.id != event_id)

/-- Foreign key `events.venue_id REFERENCES venues (id)`. -/
def venueExists (s : Store) (venue_id : Nat) : Bool :=
  s.venues.any (fun v => v.id == venue_id)

/-- Handler of `POST /api/events`. -/
def postEvents (s : Store) (user : SessionUser) (form : EventForm) (now : Int) :
    EventResponse × Store :=
  match createValidation form.date form.end_time now with
  | some err => (err, s)
  | none =>
    match createConflict form.date form.end_time (eventsAtVenue s form.venue_id) with
    | some existing => (.conflict existing, s)
    | none =>
      if venueExists s form.venue_id then
        let lastID := s.eventSeq + 1
        (.created lastID,
          { s with
            events := s.events ++ [⟨lastID, form.title, form.date, form.end_time,
              form.capacity, form.capacity, form.price, user.id, form.venue_id⟩],
            eventSeq := lastID })
      else (.storageError, s)

/-- `UPDATE events SET title = ?, date = ?, end_time = ?, capacity = ?,
seats_left = ?, price = ?, venue_id = ? WHERE id = ? AND organizer_id = ?`. -/
def updateEvent (events : List Event) (form : EventForm) (newSeatsLeft : Int)
    (event_id organizer_id : Nat) : List Event :=
  events.map (fun e =>
    if e.id == event_id && e.organizer_id == organizer_id then
      { e with title := form.title, date := form.date, end_time := form.end_time,
               capacity := form.capacity, seats_left := newSeatsLeft,
               price := form.price, venue_id := form.venue_id }
    else e)

/-- Handler of `PUT /api/events/:id`. -/
def putEvents (s : Store) (user : SessionUser) (event_id : Nat) (form : EventForm)
    (now : Int) : EventResponse × Store :=
  match editValidation form.date form.end_time now with
  | some err => (err, s)
  | none =>
    match s.events.find? (fun e => e.id == event_id && e.organizer_id == user.id) with
    | none => (.notFoundOrNoPermission, s)
    | some event =>
      match editConflict form.date form.end_time
          (otherEventsAtVenue s form.venue_id event_id) with
      | some existing => (.conflict existing, s)
      | none =>
        let currentBooked := event.capacity - event.seats_left
        let newSeatsLeft := form.capacity - currentBooked
        if newSeatsLeft < 0 then (.capacityTooLow currentBooked, s)
        else if venueExists s form.venue_id then
          (.updated,
            { s with events := updateEvent s.events form newSeatsLeft event_id user.id })
        else (.storageError, s)

/-! ## Sequences of ledger operations -/

/-- A call of one of the three ticket operations, with everything the handler
reads from outside the store. -/
inductive LedgerOp where
  | reserve (user : SessionUser) (event_id : Nat) (quantity : Option Int) (rand : Nat → String)
  | release (user : SessionUser) (ticket_id : String) (now : Int)
  | checkIn (ticket_id : String) (now : Int)

/-- The store after one ticket operation. -/
def LedgerOp.apply (s : Store) : LedgerOp → Store
  | .reserve user event_id quantity rand => (postRsvp s user event_id quantity rand).2
  | .release user ticket_id now => (postCancelTicket s user ticket_id now).2
  | .checkIn ticket_id now => (postCheckin s ticket_id now).2

/-- The store after a sequence of ticket operations, in order. -/
def runOps (s : Store) : List LedgerOp → Store
  | [] => s
  | op :: ops => runOps (op.apply s) ops

/-! ## Store constraints and invariants -/

/-- The schema constraints of the store the proofs rely on: `events.id` is a
primary key handed out by the AUTOINCREMENT counter, `rsvps.ticket_id` is UNIQUE
and `rsvps.event_id` references an event. -/
def Store.WF (s : Store) : Prop :=
  (s.events.map (fun e => e.id)).Nodup ∧
  (s.rsvps.map (fun r => r.ticket_id)).Nodup ∧
  (∀ r ∈ s.rsvps, ∃ e ∈ s.events, e.id = r.event_id) ∧
  (∀ e ∈ s.events, e.id ≤ s.eventSeq)

instance (s : Store) : Decidable s.WF := by
  unfold Store.WF; infer_instance

/-- Seat accounting: every event has `seats_left = capacity - count(tickets of
the event)`. -/
def SeatInv (s : Store) : Prop :=
  ∀ e ∈ s.events, e.seats_left = e.capacity - (ticketCount s e.id : Int)

instance (s : Store) : Decidable (SeatInv s) := by
  unfold SeatInv; infer_instance

/-- Per-user cap: every (user, event) pair holds at most 4 tickets. -/
def CapInv (s : Store) : Prop :=
  ∀ user_id event_id : Nat, ticketsHeld s user_id event_id ≤ 4

/-! ## Concrete stores and requests used in the examples -/

/-- A student session. -/
def alice : SessionUser := ⟨7, "alice", "student"⟩

/-- An admin session. -/
def root : SessionUser := ⟨1, "root", "admin"⟩

/-- One venue, one event starting at 02:00 and ending at 03:00 (milliseconds
after time 0) with 10 seats of which one is sold to user 7. -/
def demoStore : Store :=
  { venues := [⟨1, "Hall", "Main campus", 1⟩],
    events := [⟨1, "Concert", some 7200000, some 10800000, 10, 9, 20, 1, 1⟩],
    rsvps := [⟨7, 1, "TKT-0000AAAA", Status.purchased⟩],
    eventSeq := 1 }

/-- A source of fresh identifiers. -/
def demoRand : Nat → String
  | 0 => "TKT-00000001"
  | 1 => "TKT-00000002"
  | 2 => "TKT-00000003"
  | _ => "TKT-00000004"

/-- A create-event form for 05:00 to 06:00 at venue 1. -/
def demoForm : EventForm := ⟨"Lecture", some 18000000, some 21600000, 50, 5, 1⟩

/-- A store whose only event is sold out. -/
def soldOutStore : Store :=
  { venues := [⟨1, "Hall", "Main campus", 1⟩],
    events := [⟨1, "Concert", some 7200000, some 10800000, 1, 0, 20, 1, 1⟩],
    rsvps := [⟨8, 1, "TKT-0000000A", Status.purchased⟩],
    eventSeq := 1 }

/-- A random source that draws an identifier already stored in `demoStore`. -/
def collidingRand : Nat → String := fun _ => "TKT-0000AAAA"

/-- A second student session. -/
def bob : SessionUser := ⟨9, "bob", "student"⟩

/-- Event A of the conflict examples: 10:00 to 11:00 (milliseconds after
midnight) at venue 1. -/
def eventA : Event := ⟨1, "A", some 36000000, some 39600000, 10, 10, 20, 1, 1⟩

/-- A store holding venue 1 and event A only. -/
def storeA : Store :=
  { venues := [⟨1, "Hall", "Main campus", 1⟩], events := [eventA], rsvps := [], eventSeq := 1 }

/-- Candidate D: 12:00 to 13:00 at venue 1, starting exactly 60 minutes after
event A ends. -/
def formD : EventForm := ⟨"D", some 43200000, some 46800000, 10, 20, 1⟩

/-- A create-event body whose `date` and `end_time` do not parse (for example
empty strings): both are Invalid Dates. -/
def invalidDateForm : EventForm := ⟨"Ghost", none, none, 50, 5, 1⟩

/-- A store with one ticket already checked in and one still purchased. -/
def mixedStore : Store :=
  { venues := [⟨1, "Hall", "Main campus", 1⟩],
    events := [⟨1, "Concert", some 7200000, some 10800000, 10, 8, 20, 1, 1⟩],
    rsvps := [⟨7, 1, "TKT-0000AAAA", Status.checked_in⟩,
      ⟨9, 1, "TKT-0000BBBB", Status.purchased⟩],
    eventSeq := 1 }

/-! ## Sequences of event and ticket operations -/

/-- A call of create-event, edit-event, reserve or release, with everything the
handler reads from outside the store. -/
inductive SystemOp where
  | create (user : SessionUser) (form : EventForm) (now : Int)
  | edit (user : SessionUser) (event_id : Nat) (form : EventForm) (now : Int)
  | reserve (user : SessionUser) (event_id : Nat) (quantity : Option Int) (rand : Nat → String)
  | release (user : SessionUser) (ticket_id : String) (now : Int)

/-- The store after one operation. -/
def SystemOp.apply (s : Store) : SystemOp → Store
  | .create user form now => (postEvents s user form now).2
  | .edit user event_id form now => (putEvents s user event_id form now).2
  | .reserve user event_id quantity rand => (postRsvp s user event_id quantity rand).2
  | .release user ticket_id now => (postCancelTicket s user ticket_id now).2

/-- The store after a sequence of operations, in order. -/
def runSystem (s : Store) : List SystemOp → Store
  | [] => s
  | op :: ops => runSystem (op.apply s) ops

/-- The operation is not a create-event with a negative capacity. -/
def SystemOp.capacityNonneg : SystemOp → Prop
  | .create _ form _ => 0 ≤ form.capacity
  | _ => True

/-- The store right after the tables are created: no event, no ticket; the
venues table is filled by `POST /api/venues`, which touches nothing else. -/
def emptyStore (venues : List Venue) : Store :=
  { venues := venues, events := [], rsvps := [], eventSeq := 0 }

/-- Every event has `0 <= seats_left <= capacity`. -/
def SeatBounds (s : Store) : Prop :=
  ∀ e ∈ s.events, 0 ≤ e.seats_left ∧ e.seats_left ≤ e.capacity

instance (s : Store) : Decidable (SeatBounds s) := by
  unfold SeatBounds; infer_instance

/-- A create-event form for 05:00 to 06:00 at venue 1 with capacity -5. -/
def negativeCapacityForm : EventForm := ⟨"Lecture", some 18000000, some 21600000, -5, 5, 1⟩

/-! ## Request parsing: `parseInt(quantity, 10)` -/

/-- The characters `parseInt` skips at the start of its input (ECMAScript
StrWhiteSpaceChar: white space and line terminators). -/
def isStrWhiteSpace (c : Char) : Bool :=
  c.toNat == 0x09 || c.toNat == 0x0A || c.toNat == 0x0B || c.toNat == 0x0C ||
  c.toNat == 0x0D || c.toNat == 0x20 || c.toNat == 0xA0 || c.toNat == 0x1680 ||
  (decide (0x2000 ≤ c.toNat) && decide (c.toNat ≤ 0x200A)) ||
  c.toNat == 0x2028 || c.toNat == 0x2029 || c.toNat == 0x202F || c.toNat == 0x205F ||
  c.toNat == 0x3000 || c.toNat == 0xFEFF

/-- The decimal digits at the start of a character list, as numbers. -/
def leadingDigits : List Char → List Nat
  | [] => []
  | c :: cs =>
    if decide (48 ≤ c.toNat) && decide (c.toNat ≤ 57) then (c.toNat - 48) :: leadingDigits cs
    else []

/-- The number written by a list of decimal digits. -/
def digitsValue (ds : List Nat) : Nat :=
  ds.foldl (fun acc d => 10 * acc + d) 0

/-- `parseInt(input, 10)` on a string: leading white space is skipped, one
sign is read, then the longest run of decimal digits; `none` (`NaN`) when that
run is empty.  The value is kept exact (JavaScript rounds it to a double,
which does not change it below 2^53 nor the outcome of the range guard). -/
def parseInt10 (input : String) : Option Int :=
  let trimmed := input.toList.dropWhile isStrWhiteSpace
  match trimmed with
  | '-' :: rest =>
    if (leadingDigits rest).isEmpty then none
    else some (-(digitsValue (leadingDigits rest) : Int))
  | '+' :: rest =>
    if (leadingDigits rest).isEmpty then none
    else some (digitsValue (leadingDigits rest) : Int)
  | _ =>
    if (leadingDigits trimmed).isEmpty then none
    else some (digitsValue (leadingDigits trimmed) : Int)

/-! ## GET /api/events/:id/report -/

/-- The numbers a report is made of.  The JSON body also carries
`pricePerTicket`, `totalRevenue`, `potentialRevenue`, `attendanceRate` and
`sellThroughRate`, which are floating-point renderings (`toFixed`) of these
numbers and are not represented. -/
structure ReportData where
  eventTitle : String
  eventEndTime : TimeValue
  price : Rat
  capacity : Int
  totalTicketsSold : Nat
  totalCheckedIn : Nat
  deriving DecidableEq

/-- Responses of `GET /api/events/:id/report`. -/
inductive ReportResponse where
  /-- 404 "Event not found or you do not have permission." -/
  | notFoundOrNoPermission
  /-- 400 "Report is not available until the event has finished on ..." -/
  | notAvailable
  /-- 200 with the report. -/
  | report (data : ReportData)
  deriving DecidableEq

/-- HTTP status code of a report response. -/
def ReportResponse.status : ReportResponse → Nat
  | .notFoundOrNoPermission => 404
  | .notAvailable => 400
  | .report _ => 200

/-- `SELECT status FROM rsvps WHERE event_id = ?`. -/
def eventRsvps (s : Store) (event_id : Nat) : List Rsvp :=
  s.rsvps.filter (fun r => r.event_id == event_id)

/-- Handler of `GET /api/events/:id/report` (it does not change the store). -/
def getReport (s : Store) (user : SessionUser) (event_id : Nat) (now : Int) : ReportResponse :=
  match s.events.find? (fun e => e.id == event_id && e.organizer_id == user.id) with
  | none => .notFoundOrNoPermission
  | some event =>
    if dateGt event.end_time (some now) then .notAvailable
    else
      let rsvps := eventRsvps s event_id
      let totalTicketsSold := rsvps.length
      let totalCheckedIn := (rsvps.filter (fun r => r.status == Status.checked_in)).length
      .report ⟨event.title, event.end_time, event.price, event.capacity,
        totalTicketsSold, totalCheckedIn⟩

/-! ## Client side (`public/script.js`) -/

/-- The test `endDate < now` under which `fetchAndRenderAdminEvents` renders an
enabled View Report button (script.js lines 628-636). -/
def reportButtonEnabled (event : Event) (now : Int) : Bool :=
  dateLt event.end_time (some now)

/-- Result of the client-side `validateEventTimes`: `{ valid: true }` or
`{ valid: false, message }`.  The four messages are the texts the server sends
with its four 400 responses; a message is named by that response. -/
inductive ClientValidation where
  | valid
  | invalid (message : EventResponse)
  deriving DecidableEq

/-- The function `validateEventTimes` of script.js (lines 22-58); `startTime` and
`endTime` are the time values of `new Date(startDateStr)` and `new
Date(endDateStr)`, `now` the one of `new Date()`. -/
def validateEventTimes (startTime endTime : TimeValue) (now : Int) : ClientValidation :=
  if dateLe endTime startTime then .invalid .endNotAfterStart
  else if dateLt endTime (startTime.plus (15 * 60 * 1000)) then .invalid .tooShort
  else if dateLe startTime (some now) then .invalid .startNotInFuture
  else if dateGt endTime (startTime.plus (8 * 60 * 60 * 1000)) then .invalid .tooLong
  else .valid

/-- The helper `isEventActive` of server.js (lines 19-23), which fills the
`isActive` field of the events sent to the student dashboard. -/
def isEventActive (event : Event) (now : Int) : Bool :=
  decide (event.seats_left > 0) && dateGt event.date (some now)

/-- The values of the quantity selector that `fetchAndRenderStudentEvents`
renders on an event card (script.js lines 196-224); empty when the card shows
a disabled button instead. -/
def qtyOptions (isActive : Bool) (tickets_held seats_left : Int) : List Int :=
  let max_tickets_to_buy := 4 - tickets_held
  if !isActive then []
  else if tickets_held ≥ 4 then []
  else if seats_left ≤ 0 then []
  else
    let max_possible := min max_tickets_to_buy seats_left
    (List.range max_possible.toNat).map (fun (i : Nat) => (i : Int) + 1)

/-! ## Further example data -/

/-- A store whose event 1 (owned by user 1) ended at time 1000 with two tickets
sold, one of them checked in. -/
def finishedStore : Store :=
  { venues := [⟨1, "Hall", "Main campus", 1⟩],
    events := [⟨1, "Concert", some 100, some 1000, 10, 8, 20, 1, 1⟩],
    rsvps := [⟨7, 1, "TKT-0000AAAA", Status.checked_in⟩,
      ⟨9, 1, "TKT-0000BBBB", Status.purchased⟩],
    eventSeq := 1 }

/-- A store whose event 1 has a single seat left and no ticket. -/
def lastSeatStore : Store :=
  { venues := [⟨1, "Hall", "Main campus", 1⟩],
    events := [⟨1, "Concert", some 7200000, some 10800000, 1, 1, 20, 1, 1⟩],
    rsvps := [],
    eventSeq := 1 }

/-! ## POST /api/venues and DELETE /api/events/:id -/

/-- Responses of `POST /api/venues`. -/
inductive VenueResponse where
  /-- 409 "Venue name already exists." -/
  | nameExists
  /-- 201 "Venue created successfully!" with the `id` of the new row. -/
  | created (id : Nat)
  deriving DecidableEq

/-- The id an insert into `venues` receives.  No statement of the program
deletes a venue, so the AUTOINCREMENT counter is the largest id of the table. -/
def nextVenueId (s : Store) : Nat :=
  (s.venues.map (fun v => v.id)).foldr max 0 + 1

/-- Handler of `POST /api/venues`: `INSERT INTO venues (name, location,
admin_id) VALUES (?, ?, ?)`, which fails when `name` breaks the UNIQUE
constraint. -/
def postVenues (s : Store) (user : SessionUser) (name location : String) :
    VenueResponse × Store :=
  if s.venues.any (fun v => v.name == name) then (.nameExists, s)
  else
    (.created (nextVenueId s),
      { s with venues := s.venues ++ [⟨nextVenueId s, name, location, user.id⟩] })

/-- Responses of `DELETE /api/events/:id`. -/
inductive DeleteResponse where
  /-- 403 "Event not found or you do not have permission." (`this.changes === 0`) -/
  | notFoundOrNoPermission
  /-- 200 "Event deleted successfully." -/
  | deleted
  deriving DecidableEq

/-- Handler of `DELETE /api/events/:id`: `DELETE FROM events WHERE id = ? AND
organizer_id = ?`.  Foreign keys are enforced (`PRAGMA foreign_keys = ON`), so
the tickets of a deleted event go with it (`rsvps.event_id ... ON DELETE
CASCADE`). -/
def deleteEvents (s : Store) (user : SessionUser) (event_id : Nat) : DeleteResponse × Store :=
  if s.events.any (fun e => e.id == event_id && e.organizer_id == user.id) then
    (.deleted,
      { s with
        events := s.events.filter (fun e => !(e.id == event_id && e.organizer_id == user.id)),
        rsvps := s.rsvps.filter (fun r => !(r.event_id == event_id)) })
  else (.notFoundOrNoPermission, s)

/-! ## Sessions and the stores the program can reach -/

/-- The session object is the one `POST /api/login` builds from a row of
`users`: its `role` is the column `users.role` of the row with its `id`.
`roles` is that column as a function of `users.id`; a row of `users` is written
once, by `POST /api/register`, and no statement updates or deletes it. -/
def SessionUser.loggedIn (roles : Nat → String) (user : SessionUser) : Prop :=
  user.role = roles user.id

instance (roles : Nat → String) (user : SessionUser) : Decidable (user.loggedIn roles) := by
  unfold SessionUser.loggedIn; infer_instance

/-- A request to one of the handlers that write the store, with everything the
handler reads from outside the store. -/
inductive Request where
  | venue (user : SessionUser) (name location : String)
  | create (user : SessionUser) (form : EventForm) (now : Int)
  | edit (user : SessionUser) (event_id : Nat) (form : EventForm) (now : Int)
  | delete (user : SessionUser) (event_id : Nat)
  | reserve (user : SessionUser) (event_id : Nat) (quantity : Option Int) (rand : Nat → String)
  | release (user : SessionUser) (ticket_id : String) (now : Int)
  | checkIn (ticket_id : String) (now : Int)

/-- The store after one request. -/
def Request.apply (s : Store) : Request → Store
  | .venue user name location => (postVenues s user name location).2
  | .create user form now => (postEvents s user form now).2
  | .edit user event_id form now => (putEvents s user event_id form now).2
  | .delete user event_id => (deleteEvents s user event_id).2
  | .reserve user event_id quantity rand => (postRsvp s user event_id quantity rand).2
  | .release user ticket_id now => (postCancelTicket s user ticket_id now).2
  | .checkIn ticket_id now => (postCheckin s ticket_id now).2

/-- The store after a sequence of requests, in order. -/
def runRequests (s : Store) : List Request → Store
  | [] => s
  | req :: reqs => runRequests (req.apply s) reqs

/-- The session of the request, where the handler reads it, comes from a login. -/
def Request.loggedIn (roles : Nat → String) : Request → Prop
  | .venue user _ _ => user.loggedIn roles
  | .create user _ _ => user.loggedIn roles
  | .edit user _ _ _ => user.loggedIn roles
  | .delete user _ => user.loggedIn roles
  | .reserve user _ _ _ => user.loggedIn roles
  | .release user _ _ => user.loggedIn roles
  | .checkIn _ _ => True

instance (roles : Nat → String) (req : Request) : Decidable (req.loggedIn roles) := by
  cases req <;> unfold Request.loggedIn <;> infer_instance

/-- No ticket belongs to a user whose role is admin. -/
def NoAdminTickets (roles : Nat → String) (s : Store) : Prop :=
  ∀ r ∈ s.rsvps, roles r.user_id ≠ "admin"

/-- The column `users.role` of the examples: user 1 is the admin, everybody
else is a student. -/
def demoRoles : Nat → String := fun id => if id = 1 then "admin" else "student"

/-- The admin creates venue 1 and event 1 on it, then `alice` books three
tickets of the event. -/
def demoRequests : List Request :=
  [.venue root "Hall" "Main campus", .create root demoForm 0,
   .reserve alice 1 (some 3) demoRand]

/-! ## Auxiliary facts on the table operations -/

theorem insertTickets_eq (user_id event_id : Nat) :
    ∀ (ids : List String) (rows rows1 : List Rsvp),
      insertTickets rows user_id event_id ids = some rows1 →
      rows1 = rows ++ ids.map (newRow user_id event_id) := by
  intro ids
  induction ids with
  | nil =>
    intro rows rows1 h
    simp [insertTickets] at h
    simp [h]
  | cons t ts ih =>
    intro rows rows1 h
    simp only [insertTickets, insertRsvp] at h
    split at h
    · simp at h
    · rename_i rows2 hins
      split at hins
      · simp at hins
      · simp only [Option.some.injEq] at hins
        subst hins
        have := ih _ _ h
        simp [this, newRow]

theorem insertTickets_fresh (user_id event_id : Nat) :
    ∀ (ids : List String) (rows : List Rsvp),
      ids.Nodup → (∀ t ∈ ids, ∀ r ∈ rows, r.ticket_id ≠ t) →
      insertTickets rows user_id event_id ids =
        some (rows ++ ids.map (newRow user_id event_id)) := by
  intro ids
  induction ids with
  | nil => intro rows _ _; simp [insertTickets]
  | cons t ts ih =>
    intro rows hnd hfresh
    have hnd1 := List.nodup_cons.mp hnd
    have hany : rows.any (fun r => r.ticket_id == t) = false := by
      rw [List.any_eq_false]
      intro r hr
      simpa using hfresh t (List.mem_cons_self _ _) r hr
    simp only [insertTickets, insertRsvp, hany]
    simp only [Bool.false_eq_true, if_false]
    rw [ih _ hnd1.2]
    · simp [newRow]
    · intro u hu r hr
      rcases List.mem_append.mp hr with hr | hr
      · exact hfresh u (List.mem_cons_of_mem _ hu) r hr
      · simp only [List.mem_singleton] at hr
        subst hr
        intro heq
        simp only at heq
        subst heq
        exact hnd1.1 hu

theorem insertTickets_collision (user_id event_id : Nat) (rows : List Rsvp)
    (t : String) (ts : List String) (h : ∃ r ∈ rows, r.ticket_id = t) :
    insertTickets rows user_id event_id (t :: ts) = none := by
  have hany : rows.any (fun r => r.ticket_id == t) = true := by
    rw [List.any_eq_true]
    obtain ⟨r, hr, he⟩ := h
    exact ⟨r, hr, by simp [he]⟩
  simp [insertTickets, insertRsvp, hany]

theorem ticketsGenerated_length (rand : Nat → String) (qty : Int) (h : 0 ≤ qty) :
    ((ticketsGenerated rand qty).length : Int) = qty := by
  simp [ticketsGenerated, Int.toNat_of_nonneg h]

theorem mem_addSeats {events : List Event} {event_id : Nat} {delta : Int} {e1 : Event}
    (h : e1 ∈ addSeats events event_id delta) :
    ∃ e ∈ events, e1.id = e.id ∧ e1.capacity = e.capacity ∧
      e1.seats_left = e.seats_left + (if e.id = event_id then delta else 0) := by
  simp only [addSeats, List.mem_map] at h
  obtain ⟨e, he, rfl⟩ := h
  refine ⟨e, he, ?_⟩
  by_cases hid : e.id = event_id <;> simp [hid]

theorem qtyRejected_false {quantity : Option Int} (h : qtyRejected quantity = false) :
    ∃ qty, quantity = some qty ∧ 1 ≤ qty ∧ qty ≤ 4 := by
  cases quantity with
  | none => simp [qtyRejected] at h
  | some q =>
    simp only [qtyRejected, Bool.or_eq_false_iff, decide_eq_false_iff_not] at h
    exact ⟨q, rfl, by omega, by omega⟩

theorem qtyRejected_of_range {qty : Int} (h1 : 1 ≤ qty) (h4 : qty ≤ 4) :
    qtyRejected (some qty) = false := by
  simp only [qtyRejected, Bool.or_eq_false_iff, decide_eq_false_iff_not]
  refine ⟨⟨?_, by omega⟩, by omega⟩
  simp only [beq_eq_false_iff_ne, ne_eq]
  omega

/-- What a successful booking has checked and what it leaves in the store. -/
theorem postRsvp_created {s : Store} {user : SessionUser} {event_id : Nat}
    {quantity : Option Int} {rand : Nat → String} {qty : Int} {ids : List String}
    (h : (postRsvp s user event_id quantity rand).1 = .created qty ids) :
    ∃ e, quantity = some qty ∧ 1 ≤ qty ∧ qty ≤ 4 ∧ findEvent s event_id = some e ∧
      (ticketsHeld s user.id event_id : Int) + qty ≤ 4 ∧ qty ≤ e.seats_left ∧
      ids = ticketsGenerated rand qty ∧
      (postRsvp s user event_id quantity rand).2 =
        { s with rsvps := s.rsvps ++ ids.map (newRow user.id event_id),
                 events := addSeats s.events event_id (-qty) } := by
  unfold postRsvp at h ⊢
  split at h
  · simp at h
  · rename_i hrole
    split at h
    · simp at h
    · rename_i hq
      simp only [Bool.not_eq_true] at hq
      obtain ⟨q, rfl, h1, h4⟩ := qtyRejected_false hq
      simp only at h
      split at h
      · simp at h
      · rename_i e he
        split at h
        · simp at h
        · rename_i hquota
          split at h
          · simp at h
          · rename_i hseats
            split at h
            · simp at h
            · rename_i rows hrows
              simp only [RsvpResponse.created.injEq] at h
              obtain ⟨hqq, hids⟩ := h
              subst hqq
              have hrows1 := insertTickets_eq _ _ _ _ _ hrows
              refine ⟨e, rfl, h1, h4, he, by omega, by omega, hids.symm, ?_⟩
              simp only [hrole, hq, he, hquota, hseats, hrows, if_false]
              rw [hrows1, hids]
              simp

theorem findEvent_some {s : Store} {event_id : Nat} {e : Event}
    (h : findEvent s event_id = some e) : e ∈ s.events ∧ e.id = event_id := by
  unfold findEvent at h
  refine ⟨List.mem_of_find?_eq_some h, ?_⟩
  have := List.find?_some h
  simpa using this

theorem getTicket_some {s : Store} {ticket_id : String} {user_id : Nat} {r : Rsvp} {e : Event}
    (h : getTicket s ticket_id user_id = some (r, e)) :
    r ∈ s.rsvps ∧ r.ticket_id = ticket_id ∧ r.user_id = user_id ∧
      r.status = Status.purchased ∧ findEvent s r.event_id = some e := by
  unfold getTicket at h
  obtain ⟨a, ha, hfa⟩ := List.exists_of_findSome?_eq_some h
  split at hfa
  · rename_i hc
    simp only [Bool.and_eq_true, beq_iff_eq] at hc
    split at hfa
    · rename_i e1 he1
      simp only [Option.some.injEq, Prod.mk.injEq] at hfa
      obtain ⟨rfl, rfl⟩ := hfa
      exact ⟨ha, hc.1.1, hc.1.2, hc.2, he1⟩
    · simp at hfa
  · simp at hfa

theorem deleteTicket_of_not_mem (rows : List Rsvp) (ticket_id : String) (user_id : Nat)
    (h : ticket_id ∉ rows.map (fun r => r.ticket_id)) :
    deleteTicket rows ticket_id user_id = rows := by
  unfold deleteTicket
  rw [List.filter_eq_self]
  intro r hr
  have : r.ticket_id ≠ ticket_id := by
    intro heq
    exact h (List.mem_map.mpr ⟨r, hr, heq⟩)
  simp [this]

/-- Deleting a stored ticket removes exactly its row when identifiers are unique. -/
theorem countP_deleteTicket (p : Rsvp → Bool) (r : Rsvp) :
    ∀ rows : List Rsvp, (rows.map (fun x => x.ticket_id)).Nodup → r ∈ rows →
      (deleteTicket rows r.ticket_id r.user_id).countP p + (if p r = true then 1 else 0) =
        rows.countP p := by
  intro rows
  induction rows with
  | nil => intro _ hr; simp at hr
  | cons x xs ih =>
    intro hnd hr
    simp only [List.map_cons, List.nodup_cons] at hnd
    rcases List.mem_cons.mp hr with hrx | hrx
    · subst hrx
      have hxs := deleteTicket_of_not_mem xs r.ticket_id r.user_id hnd.1
      have hdel : deleteTicket (r :: xs) r.ticket_id r.user_id = xs := by
        have : deleteTicket (r :: xs) r.ticket_id r.user_id =
            deleteTicket xs r.ticket_id r.user_id := by
          simp [deleteTicket]
        rw [this, hxs]
      rw [hdel, List.countP_cons]
    · have hne : x.ticket_id ≠ r.ticket_id := by
        intro heq
        exact hnd.1 (List.mem_map.mpr ⟨r, hrx, heq.symm⟩)
      have hdel : deleteTicket (x :: xs) r.ticket_id r.user_id =
          x :: deleteTicket xs r.ticket_id r.user_id := by
        simp [deleteTicket, hne]
      rw [hdel, List.countP_cons, List.countP_cons]
      have := ih hnd.2 hrx
      omega

/-- What a successful cancellation has checked and what it leaves in the store. -/
theorem postCancelTicket_cancelled {s : Store} {user : SessionUser} {ticket_id : String}
    {now : Int} {price : Rat} {title : String}
    (h : (postCancelTicket s user ticket_id now).1 = .cancelled price title) :
    ∃ r e, getTicket s ticket_id user.id = some (r, e) ∧
      minutesUntilEventLt (timeDiff e.date now) 30 = false ∧
      price = e.price ∧ title = e.title ∧
      (postCancelTicket s user ticket_id now).2 =
        { s with rsvps := deleteTicket s.rsvps ticket_id user.id,
                 events := addSeats s.events r.event_id 1 } := by
  unfold postCancelTicket at h ⊢
  split at h
  · simp at h
  · rename_i r e hget
    split at h
    · simp at h
    · rename_i hlate
      simp only [Bool.not_eq_true] at hlate
      simp only [CancelResponse.cancelled.injEq] at h
      refine ⟨r, e, hget, hlate, h.1.symm, h.2.symm, ?_⟩
      simp [hget, hlate]

/-- What a successful create-event has checked and what it leaves in the store. -/
theorem postEvents_created {s : Store} {user : SessionUser} {form : EventForm} {now : Int}
    {eventId : Nat} (h : (postEvents s user form now).1 = .created eventId) :
    createValidation form.date form.end_time now = none ∧
      createConflict form.date form.end_time (eventsAtVenue s form.venue_id) = none ∧
      venueExists s form.venue_id = true ∧ eventId = s.eventSeq + 1 ∧
      (postEvents s user form now).2 =
        { s with
          events := s.events ++ [⟨eventId, form.title, form.date, form.end_time,
            form.capacity, form.capacity, form.price, user.id, form.venue_id⟩],
          eventSeq := eventId } := by
  unfold postEvents at h ⊢
  split at h
  · rename_i err herr
    -- a validation response is never `created`
    exfalso
    unfold createValidation at herr
    simp only at h
    subst h
    split at herr
    · simp at herr
    · split at herr
      · simp at herr
      · split at herr
        · simp at herr
        · split at herr <;> simp at herr
  · rename_i hval
    split at h
    · simp at h
    · rename_i hconf
      split at h
      · rename_i hven
        simp only [EventResponse.created.injEq] at h
        subst h
        refine ⟨hval, hconf, hven, rfl, ?_⟩
        simp [hval, hconf, hven]
      · simp at h

/-! ## Seat accounting -/

theorem seatInv_postRsvp {s : Store} (hinv : SeatInv s) {user : SessionUser}
    {event_id : Nat} {quantity : Option Int} {rand : Nat → String} {qty : Int}
    {ids : List String}
    (h : (postRsvp s user event_id quantity rand).1 = .created qty ids) :
    SeatInv (postRsvp s user event_id quantity rand).2 := by
  obtain ⟨e, _, h1, _, _, _, _, hids, hst⟩ := postRsvp_created h
  rw [hst]
  intro e1 he1
  obtain ⟨e0, he0, hid, hcap, hseats⟩ := mem_addSeats he1
  have hold := hinv e0 he0
  have hlen : (ids.length : Int) = qty := by
    rw [hids]; exact ticketsGenerated_length rand qty (by omega)
  have hcount : ticketCount
      { s with rsvps := s.rsvps ++ ids.map (newRow user.id event_id),
               events := addSeats s.events event_id (-qty) } e1.id =
      ticketCount s e0.id + (if e0.id = event_id then ids.length else 0) := by
    simp only [ticketCount, List.countP_append, hid]
    congr 1
    by_cases hc : e0.id = event_id
    · simp only [hc, if_true]
      rw [List.countP_eq_length.mpr]
      · simp
      · intro r hr
        obtain ⟨t, _, rfl⟩ := List.mem_map.mp hr
        simp [newRow]
    · simp only [hc, if_false]
      rw [List.countP_eq_zero]
      intro r hr
      obtain ⟨t, _, rfl⟩ := List.mem_map.mp hr
      simp only [newRow, beq_iff_eq]
      exact fun heq => hc heq.symm
  rw [hcount, hseats, hcap, hold]
  by_cases hc : e0.id = event_id
  · simp only [hc, if_true]
    push_cast
    omega
  · simp only [hc, if_false]
    push_cast
    omega

theorem seatInv_postCancelTicket {s : Store} (hwf : s.WF) (hinv : SeatInv s)
    {user : SessionUser} {ticket_id : String} {now : Int} {price : Rat} {title : String}
    (h : (postCancelTicket s user ticket_id now).1 = .cancelled price title) :
    SeatInv (postCancelTicket s user ticket_id now).2 := by
  obtain ⟨r, e, hget, _, _, _, hst⟩ := postCancelTicket_cancelled h
  obtain ⟨hr, htid, huid, _, _⟩ := getTicket_some hget
  rw [hst]
  intro e1 he1
  obtain ⟨e0, he0, hid, hcap, hseats⟩ := mem_addSeats he1
  have hold := hinv e0 he0
  have hdel := countP_deleteTicket (fun x => x.event_id == e0.id) r s.rsvps hwf.2.1 hr
  rw [htid, huid] at hdel
  have hcount : ticketCount
      { s with rsvps := deleteTicket s.rsvps ticket_id user.id,
               events := addSeats s.events r.event_id 1 } e1.id =
      (deleteTicket s.rsvps ticket_id user.id).countP (fun x => x.event_id == e0.id) := by
    simp only [ticketCount, hid]
  have hold1 : ticketCount s e0.id = s.rsvps.countP (fun x => x.event_id == e0.id) := rfl
  rw [hcount, hseats, hcap, hold, hold1]
  by_cases hc : e0.id = r.event_id
  · have hc1 : (r.event_id == e0.id) = true := by simp [hc]
    simp only [hc1, if_true] at hdel
    simp only [hc, if_true]
    rw [hc] at hdel
    omega
  · have hc1 : (r.event_id == e0.id) = false := by
      simp only [beq_eq_false_iff_ne, ne_eq]
      exact fun heq => hc heq.symm
    simp only [hc1, Bool.false_eq_true, if_false, Nat.add_zero] at hdel
    simp only [hc, if_false]
    omega

theorem ticketCount_fresh_event {s : Store} (hwf : s.WF) {event_id : Nat}
    (h : s.eventSeq < event_id) : ticketCount s event_id = 0 := by
  unfold ticketCount
  rw [List.countP_eq_zero]
  intro r hr
  obtain ⟨e, he, heid⟩ := hwf.2.2.1 r hr
  have := hwf.2.2.2 e he
  simp only [beq_iff_eq]
  omega

theorem seatInv_postEvents {s : Store} (hwf : s.WF) (hinv : SeatInv s)
    {user : SessionUser} {form : EventForm} {now : Int} {eventId : Nat}
    (h : (postEvents s user form now).1 = .created eventId) :
    SeatInv (postEvents s user form now).2 ∧
      ∃ e ∈ (postEvents s user form now).2.events, e.id = eventId ∧
        e.seats_left = e.capacity ∧ ticketCount (postEvents s user form now).2 eventId = 0 := by
  obtain ⟨_, _, _, hid, hst⟩ := postEvents_created h
  have hzero : ticketCount s eventId = 0 := ticketCount_fresh_event hwf (by omega)
  rw [hst]
  constructor
  · intro e he
    simp only [List.mem_append, List.mem_singleton] at he
    rcases he with he | he
    · exact hinv e he
    · subst he
      have : ticketCount
          { s with
            events := s.events ++ [⟨eventId, form.title, form.date, form.end_time,
              form.capacity, form.capacity, form.price, user.id, form.venue_id⟩],
            eventSeq := eventId } eventId = ticketCount s eventId := rfl
      simp only [this, hzero]
      simp
  · refine ⟨⟨eventId, form.title, form.date, form.end_time,
      form.capacity, form.capacity, form.price, user.id, form.venue_id⟩, ?_, rfl, rfl, hzero⟩
    simp

/-- C1. Seat accounting invariant: from a store that satisfies the schema
constraints and in which every event has `seats_left = capacity - (number of
its ticket rows)`, every successful reserve (`POST /api/rsvp`) and every
successful release (`POST /api/cancel-ticket`) leaves a store in which every
event satisfies the same equation, and a successful create-event adds an event
with `seats_left = capacity` and no ticket, again satisfying it. -/
theorem C1_seat_accounting_invariant (s : Store) (hwf : s.WF) (hinv : SeatInv s) :
    (∀ (user : SessionUser) (event_id : Nat) (quantity : Option Int)
        (rand : Nat → String) (qty : Int) (ids : List String),
        (postRsvp s user event_id quantity rand).1 = .created qty ids →
        SeatInv (postRsvp s user event_id quantity rand).2) ∧
    (∀ (user : SessionUser) (ticket_id : String) (now : Int) (price : Rat) (title : String),
        (postCancelTicket s user ticket_id now).1 = .cancelled price title →
        SeatInv (postCancelTicket s user ticket_id now).2) ∧
    (∀ (user : SessionUser) (form : EventForm) (now : Int) (eventId : Nat),
        (postEvents s user form now).1 = .created eventId →
        SeatInv (postEvents s user form now).2 ∧
          ∃ e ∈ (postEvents s user form now).2.events, e.id = eventId ∧
            e.seats_left = e.capacity ∧
            ticketCount (postEvents s user form now).2 eventId = 0) :=
  ⟨fun _ _ _ _ _ _ h => seatInv_postRsvp hinv h,
   fun _ _ _ _ _ h => seatInv_postCancelTicket hwf hinv h,
   fun _ _ _ _ h => seatInv_postEvents hwf hinv h⟩

theorem C1_seat_accounting_invariant_witness :
    demoStore.WF ∧ SeatInv demoStore ∧
    (postRsvp demoStore alice 1 (some 2) demoRand).1 =
      .created 2 ["TKT-00000001", "TKT-00000002"] ∧
    SeatInv (postRsvp demoStore alice 1 (some 2) demoRand).2 ∧
    (postCancelTicket demoStore alice "TKT-0000AAAA" 0).1 = .cancelled 20 "Concert" ∧
    SeatInv (postCancelTicket demoStore alice "TKT-0000AAAA" 0).2 ∧
    (postEvents demoStore root demoForm 0).1 = .created 2 ∧
    SeatInv (postEvents demoStore root demoForm 0).2 :=
  ⟨by decide, by decide, by decide,
   (C1_seat_accounting_invariant demoStore (by decide) (by decide)).1 alice 1 (some 2)
     demoRand 2 ["TKT-00000001", "TKT-00000002"] (by decide),
   by decide,
   (C1_seat_accounting_invariant demoStore (by decide) (by decide)).2.1 alice
     "TKT-0000AAAA" 0 20 "Concert" (by decide),
   by decide,
   ((C1_seat_accounting_invariant demoStore (by decide) (by decide)).2.2 root demoForm 0 2
     (by decide)).1⟩

/-! ## Per-user cap -/

theorem postRsvp_store (s : Store) (user : SessionUser) (event_id : Nat)
    (quantity : Option Int) (rand : Nat → String) :
    (postRsvp s user event_id quantity rand).2 = s ∨
      ∃ qty ids, (postRsvp s user event_id quantity rand).1 = .created qty ids := by
  unfold postRsvp
  dsimp only
  repeat' split
  all_goals first | exact Or.inl rfl | exact Or.inr ⟨_, _, rfl⟩

theorem capInv_postRsvp {s : Store} (hcap : CapInv s) (user : SessionUser)
    (event_id : Nat) (quantity : Option Int) (rand : Nat → String) :
    CapInv (postRsvp s user event_id quantity rand).2 := by
  rcases postRsvp_store s user event_id quantity rand with hs | ⟨qty, ids, h⟩
  · rw [hs]; exact hcap
  · obtain ⟨e, _, h1, _, _, hquota, _, hids, hst⟩ := postRsvp_created h
    rw [hst]
    intro u ev
    have hlen : (ids.length : Int) = qty := by
      rw [hids]; exact ticketsGenerated_length rand qty (by omega)
    have hold := hcap u ev
    simp only [ticketsHeld, List.countP_append] at hold ⊢
    by_cases hc : user.id = u ∧ event_id = ev
    · obtain ⟨rfl, rfl⟩ := hc
      have hnew : (ids.map (newRow user.id event_id)).countP
          (fun r => r.user_id == user.id && r.event_id == event_id) ≤ ids.length := by
        have := List.countP_le_length (fun r : Rsvp => r.user_id == user.id && r.event_id == event_id)
          (l := ids.map (newRow user.id event_id))
        simpa using this
      simp only [ticketsHeld] at hquota
      omega
    · have hnew : (ids.map (newRow user.id event_id)).countP
          (fun r => r.user_id == u && r.event_id == ev) = 0 := by
        rw [List.countP_eq_zero]
        intro r hr
        obtain ⟨t, _, rfl⟩ := List.mem_map.mp hr
        simp only [newRow, Bool.and_eq_true, beq_iff_eq]
        exact hc
      omega

theorem capInv_postCancelTicket {s : Store} (hcap : CapInv s) (user : SessionUser)
    (ticket_id : String) (now : Int) :
    CapInv (postCancelTicket s user ticket_id now).2 := by
  unfold postCancelTicket
  split
  · exact hcap
  · split
    · exact hcap
    · intro u ev
      have hold := hcap u ev
      simp only [ticketsHeld] at hold ⊢
      have hsub : (deleteTicket s.rsvps ticket_id user.id).Sublist s.rsvps := by
        unfold deleteTicket
        exact List.filter_sublist _
      have := hsub.countP_le (fun r => r.user_id == u && r.event_id == ev)
      omega

theorem countP_markCheckedIn (p : Rsvp → Bool) (ticket_id : String)
    (hp : ∀ r : Rsvp, p { r with status := Status.checked_in } = p r) :
    ∀ rows : List Rsvp, (markCheckedIn rows ticket_id).countP p = rows.countP p := by
  intro rows
  induction rows with
  | nil => rfl
  | cons x xs ih =>
    have hcons : markCheckedIn (x :: xs) ticket_id =
        (if x.ticket_id == ticket_id && x.status == Status.purchased then
          { x with status := Status.checked_in } else x) :: markCheckedIn xs ticket_id := rfl
    rw [hcons, List.countP_cons, List.countP_cons, ih]
    split
    · rw [hp]
    · rfl

theorem capInv_postCheckin {s : Store} (hcap : CapInv s) (ticket_id : String) (now : Int) :
    CapInv (postCheckin s ticket_id now).2 := by
  unfold postCheckin
  split
  · exact hcap
  · split
    · exact hcap
    · split
      · exact hcap
      · intro u ev
        have hold := hcap u ev
        simp only [ticketsHeld] at hold ⊢
        rw [countP_markCheckedIn (fun r => r.user_id == u && r.event_id == ev) ticket_id
          (fun _ => rfl)]
        exact hold

theorem capInv_apply {s : Store} (hcap : CapInv s) (op : LedgerOp) : CapInv (op.apply s) := by
  cases op with
  | reserve user event_id quantity rand => exact capInv_postRsvp hcap user event_id quantity rand
  | release user ticket_id now => exact capInv_postCancelTicket hcap user ticket_id now
  | checkIn ticket_id now => exact capInv_postCheckin hcap ticket_id now

/-- C2. Per-user cap invariant: from a store in which every (user, event) pair
holds at most 4 tickets, after any sequence of reserve, release and checkIn
calls (whatever their arguments and outcomes) every (user, event) pair still
holds at most 4 tickets. -/
theorem C2_per_user_cap_invariant (s : Store) (hcap : CapInv s) (ops : List LedgerOp) :
    CapInv (runOps s ops) := by
  induction ops generalizing s with
  | nil => exact hcap
  | cons op ops ih => exact ih (op.apply s) (capInv_apply hcap op)

theorem capInv_demoStore : CapInv demoStore := by
  intro u ev
  have := List.countP_le_length (fun r : Rsvp => r.user_id == u && r.event_id == ev)
    (l := demoStore.rsvps)
  have hlen : demoStore.rsvps.length = 1 := rfl
  simp only [ticketsHeld]
  omega

theorem C2_per_user_cap_invariant_witness :
    CapInv demoStore ∧
    CapInv (runOps demoStore
      [.reserve alice 1 (some 3) demoRand, .checkIn "TKT-00000001" 6000000,
       .release alice "TKT-00000002" 0, .reserve alice 1 (some 2) demoRand]) ∧
    ticketsHeld (runOps demoStore
      [.reserve alice 1 (some 3) demoRand, .checkIn "TKT-00000001" 6000000,
       .release alice "TKT-00000002" 0, .reserve alice 1 (some 2) demoRand]) 7 1 = 3 :=
  ⟨capInv_demoStore, C2_per_user_cap_invariant demoStore capInv_demoStore _, by decide⟩

/-! ## The guards of the booking handler -/

/-- The booking handler once the role guard, the quantity guard and the event
lookup have passed. -/
theorem postRsvp_eval {s : Store} {user : SessionUser} {event_id : Nat} {qty : Int}
    (rand : Nat → String) {e : Event} (hrole : user.role ≠ "admin") (h1 : 1 ≤ qty)
    (h4 : qty ≤ 4) (he : findEvent s event_id = some e) :
    postRsvp s user event_id (some qty) rand =
      if qty > 4 - (ticketsHeld s user.id event_id : Int) then
        (.quotaExceeded (ticketsHeld s user.id event_id)
          (4 - (ticketsHeld s user.id event_id : Int)), s)
      else if e.seats_left < qty then (.insufficientSeats e.seats_left, s)
      else
        match insertTickets s.rsvps user.id event_id (ticketsGenerated rand qty) with
        | none => (.errorCreatingTicket, s)
        | some rows =>
          (.created qty (ticketsGenerated rand qty),
            { s with rsvps := rows, events := addSeats s.events event_id (-qty) }) := by
  have hr : (user.role == "admin") = false := by simpa using hrole
  unfold postRsvp
  simp only [hr, qtyRejected_of_range h1 h4, he, Bool.false_eq_true, if_false]

/-- The quota guard for a caller who is not an admin, on any store. -/
theorem postRsvp_quota {s : Store} {user : SessionUser} {event_id : Nat} {qty : Int}
    (rand : Nat → String) {e : Event} (hrole : user.role ≠ "admin") (h1 : 1 ≤ qty)
    (h4 : qty ≤ 4) (he : findEvent s event_id = some e)
    (hq : (ticketsHeld s user.id event_id : Int) + qty > 4) :
    postRsvp s user event_id (some qty) rand =
      (.quotaExceeded (ticketsHeld s user.id event_id)
        (4 - (ticketsHeld s user.id event_id : Int)), s) := by
  rw [postRsvp_eval rand hrole h1 h4 he]
  have : qty > 4 - (ticketsHeld s user.id event_id : Int) := by omega
  simp only [this, if_true]

/-- Within the quota the response is never the quota error, on any store and
for any caller. -/
theorem postRsvp_within_quota {s : Store} {user : SessionUser} {event_id : Nat} {qty : Int}
    (rand : Nat → String) {e : Event} (h1 : 1 ≤ qty) (h4 : qty ≤ 4)
    (he : findEvent s event_id = some e)
    (hq : (ticketsHeld s user.id event_id : Int) + qty ≤ 4) (held : Nat) (more : Int) :
    (postRsvp s user event_id (some qty) rand).1 ≠ .quotaExceeded held more := by
  by_cases hrole : user.role = "admin"
  · have hr : (user.role == "admin") = true := by simpa using hrole
    unfold postRsvp
    simp [hr]
  · rw [postRsvp_eval rand hrole h1 h4 he]
    have : ¬ (qty > 4 - (ticketsHeld s user.id event_id : Int)) := by omega
    simp only [this, if_false]
    split
    · simp
    · split <;> simp

/-- A booking that creates tickets was made by a caller who is not an admin. -/
theorem postRsvp_created_role {s : Store} {user : SessionUser} {event_id : Nat}
    {quantity : Option Int} {rand : Nat → String} {qty : Int} {ids : List String}
    (h : (postRsvp s user event_id quantity rand).1 = .created qty ids) :
    user.role ≠ "admin" := by
  intro hc
  have hr : (user.role == "admin") = true := by simpa using hc
  unfold postRsvp at h
  simp [hr] at h

theorem noAdminTickets_postRsvp {roles : Nat → String} {s : Store}
    (hinv : NoAdminTickets roles s) {user : SessionUser} (hu : user.loggedIn roles)
    (event_id : Nat) (quantity : Option Int) (rand : Nat → String) :
    NoAdminTickets roles (postRsvp s user event_id quantity rand).2 := by
  rcases postRsvp_store s user event_id quantity rand with hs | ⟨qty, ids, h⟩
  · rw [hs]; exact hinv
  · have hrole := postRsvp_created_role h
    obtain ⟨_, _, _, _, _, _, _, _, hst⟩ := postRsvp_created h
    rw [hst]
    intro r hr
    simp only [List.mem_append, List.mem_map] at hr
    rcases hr with hr | ⟨t, _, rfl⟩
    · exact hinv r hr
    · unfold SessionUser.loggedIn at hu
      simp only [newRow]
      rw [← hu]; exact hrole

theorem noAdminTickets_postCancelTicket {roles : Nat → String} {s : Store}
    (hinv : NoAdminTickets roles s) (user : SessionUser) (ticket_id : String) (now : Int) :
    NoAdminTickets roles (postCancelTicket s user ticket_id now).2 := by
  unfold postCancelTicket
  split
  · exact hinv
  · split
    · exact hinv
    · intro r hr
      exact hinv r (List.mem_filter.1 hr).1

theorem noAdminTickets_postCheckin {roles : Nat → String} {s : Store}
    (hinv : NoAdminTickets roles s) (ticket_id : String) (now : Int) :
    NoAdminTickets roles (postCheckin s ticket_id now).2 := by
  unfold postCheckin
  split
  · exact hinv
  · split
    · exact hinv
    · split
      · exact hinv
      · intro r hr
        simp only [markCheckedIn, List.mem_map] at hr
        obtain ⟨x, hx, rfl⟩ := hr
        split
        · exact hinv x hx
        · exact hinv x hx

theorem noAdminTickets_postEvents {roles : Nat → String} {s : Store}
    (hinv : NoAdminTickets roles s) (user : SessionUser) (form : EventForm) (now : Int) :
    NoAdminTickets roles (postEvents s user form now).2 := by
  unfold postEvents
  split
  · exact hinv
  · split
    · exact hinv
    · split
      · exact hinv
      · exact hinv

theorem noAdminTickets_putEvents {roles : Nat → String} {s : Store}
    (hinv : NoAdminTickets roles s) (user : SessionUser) (event_id : Nat) (form : EventForm)
    (now : Int) : NoAdminTickets roles (putEvents s user event_id form now).2 := by
  unfold putEvents
  split
  · exact hinv
  · split
    · exact hinv
    · split
      · exact hinv
      · dsimp only
        split
        · exact hinv
        · split
          · exact hinv
          · exact hinv

theorem noAdminTickets_deleteEvents {roles : Nat → String} {s : Store}
    (hinv : NoAdminTickets roles s) (user : SessionUser) (event_id : Nat) :
    NoAdminTickets roles (deleteEvents s user event_id).2 := by
  unfold deleteEvents
  split
  · intro r hr
    exact hinv r (List.mem_filter.1 hr).1
  · exact hinv

theorem noAdminTickets_postVenues {roles : Nat → String} {s : Store}
    (hinv : NoAdminTickets roles s) (user : SessionUser) (name location : String) :
    NoAdminTickets roles (postVenues s user name location).2 := by
  unfold postVenues
  split
  · exact hinv
  · exact hinv

/-- Every request of a logged-in session keeps the tickets with the users who
are not admins. -/
theorem noAdminTickets_apply {roles : Nat → String} {s : Store}
    (hinv : NoAdminTickets roles s) (req : Request) (hreq : req.loggedIn roles) :
    NoAdminTickets roles (req.apply s) := by
  cases req with
  | venue user name location => exact noAdminTickets_postVenues hinv user name location
  | create user form now => exact noAdminTickets_postEvents hinv user form now
  | edit user event_id form now => exact noAdminTickets_putEvents hinv user event_id form now
  | delete user event_id => exact noAdminTickets_deleteEvents hinv user event_id
  | reserve user event_id quantity rand =>
    exact noAdminTickets_postRsvp hinv hreq event_id quantity rand
  | release user ticket_id now => exact noAdminTickets_postCancelTicket hinv user ticket_id now
  | checkIn ticket_id now => exact noAdminTickets_postCheckin hinv ticket_id now

/-- Starting without tickets, no sequence of requests of logged-in sessions
gives a ticket to an admin. -/
theorem noAdminTickets_run {roles : Nat → String} {s : Store}
    (hinv : NoAdminTickets roles s) (reqs : List Request)
    (hreqs : ∀ req ∈ reqs, req.loggedIn roles) :
    NoAdminTickets roles (runRequests s reqs) := by
  induction reqs generalizing s with
  | nil => exact hinv
  | cons req reqs ih =>
    exact ih (noAdminTickets_apply hinv req (hreqs req (List.mem_cons_self _ _)))
      (fun r hr => hreqs r (List.mem_cons_of_mem _ hr))

/-- An admin holds no ticket of any event. -/
theorem ticketsHeld_admin {roles : Nat → String} {s : Store}
    (hinv : NoAdminTickets roles s) {user_id : Nat} (hadmin : roles user_id = "admin")
    (event_id : Nat) : ticketsHeld s user_id event_id = 0 := by
  unfold ticketsHeld
  rw [List.countP_eq_zero]
  intro r hr hp
  simp only [Bool.and_eq_true, beq_iff_eq] at hp
  exact hinv r hr (hp.1 ▸ hadmin)

/-- C3. Take any store the program reaches from a store without tickets by
requests of logged-in sessions (create venue, create, edit and delete event,
reserve, release, check in), and any logged-in caller, admin or not.  For every
reserve call with `1 <= quantity <= 4` on an existing event: when `tickets_held
+ quantity > 4` the call fails with the quota error whatever `seats_left` is,
and the store is unchanged (no ticket created, `seats_left` unchanged); when
`tickets_held + quantity <= 4` the call never fails with the quota error. -/
theorem C3_quota_guard (roles : Nat → String) (s0 : Store) (reqs : List Request)
    (user : SessionUser) (event_id : Nat) (qty : Int) (rand : Nat → String) (e : Event)
    (h0 : s0.rsvps = []) (hreqs : ∀ req ∈ reqs, req.loggedIn roles)
    (huser : user.loggedIn roles) (h1 : 1 ≤ qty) (h4 : qty ≤ 4)
    (he : findEvent (runRequests s0 reqs) event_id = some e) :
    ((ticketsHeld (runRequests s0 reqs) user.id event_id : Int) + qty > 4 →
      postRsvp (runRequests s0 reqs) user event_id (some qty) rand =
        (.quotaExceeded (ticketsHeld (runRequests s0 reqs) user.id event_id)
          (4 - (ticketsHeld (runRequests s0 reqs) user.id event_id : Int)),
         runRequests s0 reqs)) ∧
    ((ticketsHeld (runRequests s0 reqs) user.id event_id : Int) + qty ≤ 4 →
      ∀ held more, (postRsvp (runRequests s0 reqs) user event_id (some qty) rand).1 ≠
        .quotaExceeded held more) := by
  have hinv0 : NoAdminTickets roles s0 := by
    intro r hr
    rw [h0] at hr
    exact absurd hr (List.not_mem_nil r)
  have hinv := noAdminTickets_run hinv0 reqs hreqs
  constructor
  · intro hq
    have hrole : user.role ≠ "admin" := by
      intro hc
      have hadmin : roles user.id = "admin" := by
        unfold SessionUser.loggedIn at huser
        rw [← huser]; exact hc
      have hz := ticketsHeld_admin hinv hadmin event_id
      rw [hz] at hq
      simp only [Nat.cast_zero, zero_add] at hq
      omega
    exact postRsvp_quota rand hrole h1 h4 he hq
  · intro hq held more
    exact postRsvp_within_quota rand h1 h4 he hq held more

theorem C3_quota_guard_witness :
    (postRsvp (runRequests (emptyStore []) demoRequests) alice 1 (some 2) demoRand =
      (.quotaExceeded 3 1, runRequests (emptyStore []) demoRequests)) ∧
    (∀ held more,
      (postRsvp (runRequests (emptyStore []) demoRequests) alice 1 (some 1) demoRand).1 ≠
        .quotaExceeded held more) ∧
    (∀ held more,
      (postRsvp (runRequests (emptyStore []) demoRequests) root 1 (some 4) demoRand).1 ≠
        .quotaExceeded held more) :=
  ⟨(C3_quota_guard demoRoles (emptyStore []) demoRequests alice 1 2 demoRand
      ⟨1, "Lecture", some 18000000, some 21600000, 50, 47, 5, 1, 1⟩
      (by decide) (by decide) (by decide) (by decide) (by decide) (by decide)).1 (by decide),
   (C3_quota_guard demoRoles (emptyStore []) demoRequests alice 1 1 demoRand
      ⟨1, "Lecture", some 18000000, some 21600000, 50, 47, 5, 1, 1⟩
      (by decide) (by decide) (by decide) (by decide) (by decide) (by decide)).2 (by decide),
   (C3_quota_guard demoRoles (emptyStore []) demoRequests root 1 4 demoRand
      ⟨1, "Lecture", some 18000000, some 21600000, 50, 47, 5, 1, 1⟩
      (by decide) (by decide) (by decide) (by decide) (by decide) (by decide)).2 (by decide)⟩

/-- C4 as stated fails: an admin session holding no ticket asks for one seat of
a sold-out existing event; `tickets_held + quantity <= 4` and `seats_left <
quantity`, yet the response is the 403 of the role guard, not the
insufficient-seats error. -/
theorem C4_stated_counterexample :
    (1 : Int) ≤ 1 ∧ (1 : Int) ≤ 4 ∧
    findEvent soldOutStore 1 =
      some ⟨1, "Concert", some 7200000, some 10800000, 1, 0, 20, 1, 1⟩ ∧
    (ticketsHeld soldOutStore root.id 1 : Int) + 1 ≤ 4 ∧ (0 : Int) < 1 ∧
    (postRsvp soldOutStore root 1 (some 1) demoRand).1 = .adminsCannotGetTickets ∧
    ¬ ∃ n, (postRsvp soldOutStore root 1 (some 1) demoRand).1 = .insufficientSeats n := by
  refine ⟨by decide, by decide, by decide, by decide, by decide, by decide, ?_⟩
  have h : (postRsvp soldOutStore root 1 (some 1) demoRand).1 =
      .adminsCannotGetTickets := by decide
  rw [h]
  rintro ⟨n, hc⟩
  cases hc

/-- C4 (amended). For every reserve call by a non-admin user with `1 <=
quantity <= 4` on an existing event with `tickets_held + quantity <= 4`, the
call fails with the insufficient-seats error exactly when `seats_left <
quantity`, and on that failure the store is unchanged (no ticket created,
`seats_left` unchanged). -/
theorem C4_insufficient_seats_guard (s : Store) (user : SessionUser) (event_id : Nat)
    (qty : Int) (rand : Nat → String) (e : Event) (hrole : user.role ≠ "admin")
    (h1 : 1 ≤ qty) (h4 : qty ≤ 4) (he : findEvent s event_id = some e)
    (hq : (ticketsHeld s user.id event_id : Int) + qty ≤ 4) :
    ((∃ n, (postRsvp s user event_id (some qty) rand).1 = .insufficientSeats n) ↔
      e.seats_left < qty) ∧
    (e.seats_left < qty →
      postRsvp s user event_id (some qty) rand = (.insufficientSeats e.seats_left, s)) := by
  have hnq : ¬ (qty > 4 - (ticketsHeld s user.id event_id : Int)) := by omega
  rw [postRsvp_eval rand hrole h1 h4 he]
  simp only [hnq, if_false]
  constructor
  · constructor
    · rintro ⟨n, hn⟩
      by_contra hs
      simp only [hs, if_false] at hn
      split at hn <;> simp at hn
    · intro hs
      exact ⟨e.seats_left, by simp only [hs, if_true]⟩
  · intro hs
    simp only [hs, if_true]

theorem C4_insufficient_seats_guard_witness :
    ((∃ n, (postRsvp soldOutStore alice 1 (some 1) demoRand).1 = .insufficientSeats n) ↔
      (0 : Int) < 1) ∧
    postRsvp soldOutStore alice 1 (some 1) demoRand = (.insufficientSeats 0, soldOutStore) :=
  ⟨(C4_insufficient_seats_guard soldOutStore alice 1 1 demoRand
      ⟨1, "Concert", some 7200000, some 10800000, 1, 0, 20, 1, 1⟩
      (by decide) (by decide) (by decide) (by decide) (by decide)).1,
   (C4_insufficient_seats_guard soldOutStore alice 1 1 demoRand
      ⟨1, "Concert", some 7200000, some 10800000, 1, 0, 20, 1, 1⟩
      (by decide) (by decide) (by decide) (by decide) (by decide)).2 (by decide)⟩

/-- C5 as stated fails: a non-admin user asks for one ticket, holds none, nine
seats are left, but the identifier drawn is already stored; the insert breaks
the UNIQUE constraint and the response is the 500 "Error creating ticket", not
a success. -/
theorem C5_stated_counterexample :
    bob.role ≠ "admin" ∧ (1 : Int) ≤ 1 ∧ (1 : Int) ≤ 4 ∧
    findEvent demoStore 1 =
      some ⟨1, "Concert", some 7200000, some 10800000, 10, 9, 20, 1, 1⟩ ∧
    (ticketsHeld demoStore bob.id 1 : Int) + 1 ≤ 4 ∧ (9 : Int) ≥ 1 ∧
    postRsvp demoStore bob 1 (some 1) collidingRand = (.errorCreatingTicket, demoStore) ∧
    ¬ ∃ qty ids, (postRsvp demoStore bob 1 (some 1) collidingRand).1 = .created qty ids := by
  refine ⟨by decide, by decide, by decide, by decide, by decide, by decide, by decide, ?_⟩
  have h : (postRsvp demoStore bob 1 (some 1) collidingRand).1 =
      .errorCreatingTicket := by decide
  rw [h]
  rintro ⟨qty, ids, hc⟩
  cases hc

/-- C5 (amended). For every reserve call by a non-admin user with `1 <=
quantity <= 4`, `tickets_held + quantity <= 4` and `seats_left >= quantity`,
provided the identifiers generated for the call are pairwise distinct and
differ from every stored ticket identifier, the call succeeds: exactly
`quantity` rows are added, each owned by the caller, referencing the requested
event, with status purchased; the events table changes only in the `seats_left`
of the requested event, which decreases by `quantity`; all stored tickets and
the venues are unchanged; the returned `ticket_ids` has length `quantity` and
lists exactly the identifiers of the new rows. -/
theorem C5_reserve_success (s : Store) (user : SessionUser) (event_id : Nat) (qty : Int)
    (rand : Nat → String) (e : Event) (hrole : user.role ≠ "admin")
    (h1 : 1 ≤ qty) (h4 : qty ≤ 4) (he : findEvent s event_id = some e)
    (hq : (ticketsHeld s user.id event_id : Int) + qty ≤ 4) (hseats : e.seats_left ≥ qty)
    (hnd : (ticketsGenerated rand qty).Nodup)
    (hfresh : ∀ t ∈ ticketsGenerated rand qty, ∀ r ∈ s.rsvps, r.ticket_id ≠ t) :
    ∃ ids : List String,
      (postRsvp s user event_id (some qty) rand).1 = .created qty ids ∧
      (ids.length : Int) = qty ∧
      (postRsvp s user event_id (some qty) rand).2.rsvps =
        s.rsvps ++ ids.map (fun t => ⟨user.id, event_id, t, Status.purchased⟩) ∧
      (postRsvp s user event_id (some qty) rand).2.events =
        s.events.map (fun x =>
          if x.id = event_id then { x with seats_left := x.seats_left - qty } else x) ∧
      (postRsvp s user event_id (some qty) rand).2.venues = s.venues ∧
      (postRsvp s user event_id (some qty) rand).2.eventSeq = s.eventSeq := by
  have hnq : ¬ (qty > 4 - (ticketsHeld s user.id event_id : Int)) := by omega
  have hns : ¬ (e.seats_left < qty) := by omega
  have hpost : postRsvp s user event_id (some qty) rand =
      (.created qty (ticketsGenerated rand qty),
        { s with
          rsvps := s.rsvps ++ (ticketsGenerated rand qty).map (newRow user.id event_id),
          events := addSeats s.events event_id (-qty) }) := by
    rw [postRsvp_eval rand hrole h1 h4 he]
    simp only [hnq, hns, if_false, insertTickets_fresh user.id event_id _ _ hnd hfresh]
  rw [hpost]
  refine ⟨ticketsGenerated rand qty, rfl, ticketsGenerated_length rand qty (by omega),
    rfl, ?_, rfl, rfl⟩
  simp only [addSeats]
  apply List.map_congr_left
  intro x _
  by_cases hx : x.id = event_id
  · simp [hx, Int.sub_eq_add_neg]
  · simp [hx]

theorem C5_reserve_success_witness :
    ∃ ids : List String,
      (postRsvp demoStore alice 1 (some 2) demoRand).1 = .created 2 ids ∧
      (ids.length : Int) = 2 ∧
      (postRsvp demoStore alice 1 (some 2) demoRand).2.rsvps =
        demoStore.rsvps ++ ids.map (fun t => ⟨alice.id, 1, t, Status.purchased⟩) ∧
      (postRsvp demoStore alice 1 (some 2) demoRand).2.events =
        demoStore.events.map (fun x =>
          if x.id = 1 then { x with seats_left := x.seats_left - 2 } else x) ∧
      (postRsvp demoStore alice 1 (some 2) demoRand).2.venues = demoStore.venues ∧
      (postRsvp demoStore alice 1 (some 2) demoRand).2.eventSeq = demoStore.eventSeq :=
  C5_reserve_success demoStore alice 1 2 demoRand
    ⟨1, "Concert", some 7200000, some 10800000, 10, 9, 20, 1, 1⟩
    (by decide) (by decide) (by decide) (by decide) (by decide) (by decide) (by decide)
    (by decide)

/-! ## The schema constraints are kept by the handlers -/

theorem addSeats_ids (events : List Event) (event_id : Nat) (delta : Int) :
    (addSeats events event_id delta).map (fun e => e.id) = events.map (fun e => e.id) := by
  simp only [addSeats, List.map_map]
  apply List.map_congr_left
  intro e _
  simp only [Function.comp]
  split <;> rfl

theorem mem_ids_of_mem {events : List Event} {e : Event} (he : e ∈ events) :
    e.id ∈ events.map (fun x => x.id) :=
  List.mem_map.mpr ⟨e, he, rfl⟩

theorem exists_of_mem_ids {events : List Event} {n : Nat}
    (h : n ∈ events.map (fun x => x.id)) : ∃ e ∈ events, e.id = n := by
  obtain ⟨e, he, hid⟩ := List.mem_map.mp h
  exact ⟨e, he, hid⟩

theorem insertTickets_nodup (user_id event_id : Nat) :
    ∀ (ids : List String) (rows rows1 : List Rsvp),
      insertTickets rows user_id event_id ids = some rows1 →
      (rows.map (fun r => r.ticket_id)).Nodup → (rows1.map (fun r => r.ticket_id)).Nodup := by
  intro ids
  induction ids with
  | nil =>
    intro rows rows1 h hnd
    simp only [insertTickets, Option.some.injEq] at h
    rw [← h]; exact hnd
  | cons t ts ih =>
    intro rows rows1 h hnd
    simp only [insertTickets, insertRsvp] at h
    split at h
    · simp at h
    · rename_i rows2 hins
      split at hins
      · simp at hins
      · rename_i hany
        simp only [Option.some.injEq] at hins
        subst hins
        apply ih _ _ h
        simp only [List.map_append, List.map_cons, List.map_nil]
        rw [List.nodup_append]
        refine ⟨hnd, List.nodup_singleton _, ?_⟩
        intro a ha hb
        simp only [List.mem_singleton] at hb
        subst hb
        apply hany
        obtain ⟨r, hr, hrt⟩ := List.mem_map.mp ha
        rw [List.any_eq_true]
        exact ⟨r, hr, by simp [hrt]⟩

theorem wf_postRsvp {s : Store} (hwf : s.WF) (user : SessionUser) (event_id : Nat)
    (quantity : Option Int) (rand : Nat → String) :
    (postRsvp s user event_id quantity rand).2.WF := by
  rcases postRsvp_store s user event_id quantity rand with hs | ⟨qty, ids, h⟩
  · rw [hs]; exact hwf
  · obtain ⟨e, hq, h1, h4, he, _, _, hids, hst⟩ := postRsvp_created h
    obtain ⟨hemem, heid⟩ := findEvent_some he
    -- the insert loop succeeded on the generated identifiers
    have hins : ∃ rows, insertTickets s.rsvps user.id event_id ids = some rows := by
      subst hq
      have hr : (user.role == "admin") = false := by
        by_contra hc
        simp only [Bool.not_eq_false] at hc
        unfold postRsvp at h
        simp [hc] at h
      have hrole : user.role ≠ "admin" := by simpa using hr
      rw [postRsvp_eval rand hrole h1 h4 he] at h
      rw [hids]
      split at h
      · simp at h
      · split at h
        · simp at h
        · split at h
          · simp at h
          · rename_i rows hrows
            exact ⟨rows, hrows⟩
    obtain ⟨rows, hrows⟩ := hins
    have hrows1 := insertTickets_eq _ _ _ _ _ hrows
    have hnd := insertTickets_nodup _ _ _ _ _ hrows hwf.2.1
    rw [hst]
    refine ⟨?_, ?_, ?_, ?_⟩
    · simp only [addSeats_ids]; exact hwf.1
    · simp only; rw [← hrows1]; exact hnd
    · intro r hr
      simp only [List.mem_append, List.mem_map] at hr
      have hidm : ∀ n, n ∈ s.events.map (fun x => x.id) →
          ∃ e1 ∈ addSeats s.events event_id (-qty), e1.id = n := by
        intro n hn
        rw [← addSeats_ids s.events event_id (-qty)] at hn
        exact exists_of_mem_ids hn
      rcases hr with hr | ⟨t, _, rfl⟩
      · obtain ⟨e0, he0, he0id⟩ := hwf.2.2.1 r hr
        exact hidm _ (he0id ▸ mem_ids_of_mem he0)
      · exact hidm _ (heid ▸ mem_ids_of_mem hemem)
    · intro e1 he1
      obtain ⟨e0, he0, hid, _, _⟩ := mem_addSeats he1
      have := hwf.2.2.2 e0 he0
      simp only
      omega

theorem wf_postCancelTicket {s : Store} (hwf : s.WF) (user : SessionUser)
    (ticket_id : String) (now : Int) : (postCancelTicket s user ticket_id now).2.WF := by
  unfold postCancelTicket
  split
  · exact hwf
  · rename_i r e hget
    split
    · exact hwf
    · have hsub : (deleteTicket s.rsvps ticket_id user.id).Sublist s.rsvps := by
        unfold deleteTicket
        exact List.filter_sublist _
      refine ⟨?_, ?_, ?_, ?_⟩
      · simp only [addSeats_ids]; exact hwf.1
      · exact (hsub.map _).nodup hwf.2.1
      · intro r1 hr1
        obtain ⟨e0, he0, he0id⟩ := hwf.2.2.1 r1 (hsub.subset hr1)
        have hn : r1.event_id ∈ (addSeats s.events r.event_id 1).map (fun x => x.id) := by
          rw [addSeats_ids]
          exact he0id ▸ mem_ids_of_mem he0
        exact exists_of_mem_ids hn
      · intro e1 he1
        obtain ⟨e0, he0, hid, _, _⟩ := mem_addSeats he1
        have := hwf.2.2.2 e0 he0
        simp only
        omega

theorem markCheckedIn_ticket_ids (rows : List Rsvp) (ticket_id : String) :
    (markCheckedIn rows ticket_id).map (fun r => r.ticket_id) =
      rows.map (fun r => r.ticket_id) := by
  simp only [markCheckedIn, List.map_map]
  apply List.map_congr_left
  intro r _
  simp only [Function.comp]
  split <;> rfl

theorem wf_postCheckin {s : Store} (hwf : s.WF) (ticket_id : String) (now : Int) :
    (postCheckin s ticket_id now).2.WF := by
  unfold postCheckin
  split
  · exact hwf
  · split
    · exact hwf
    · split
      · exact hwf
      · refine ⟨hwf.1, ?_, ?_, hwf.2.2.2⟩
        · simp only [markCheckedIn_ticket_ids]; exact hwf.2.1
        · intro r1 hr1
          simp only [markCheckedIn, List.mem_map] at hr1
          obtain ⟨r0, hr0, rfl⟩ := hr1
          obtain ⟨e0, he0, he0id⟩ := hwf.2.2.1 r0 hr0
          refine ⟨e0, he0, ?_⟩
          rw [he0id]
          split <;> rfl

theorem wf_postEvents {s : Store} (hwf : s.WF) (user : SessionUser) (form : EventForm)
    (now : Int) : (postEvents s user form now).2.WF := by
  unfold postEvents
  split
  · exact hwf
  · split
    · exact hwf
    · split
      · refine ⟨?_, hwf.2.1, ?_, ?_⟩
        · simp only [List.map_append, List.map_cons, List.map_nil]
          rw [List.nodup_append]
          refine ⟨hwf.1, List.nodup_singleton _, ?_⟩
          intro a ha hb
          simp only [List.mem_singleton] at hb
          obtain ⟨e0, he0, he0id⟩ := exists_of_mem_ids ha
          have := hwf.2.2.2 e0 he0
          omega
        · intro r hr
          obtain ⟨e0, he0, he0id⟩ := hwf.2.2.1 r hr
          exact ⟨e0, List.mem_append_left _ he0, he0id⟩
        · intro e1 he1
          simp only [List.mem_append, List.mem_singleton] at he1
          rcases he1 with he1 | he1
          · have := hwf.2.2.2 e1 he1
            simp only
            omega
          · subst he1
            simp only
            omega
      · exact hwf

/-! ## Schedule conflict test -/

theorem hasOverlapCreate_valid (ns ne es ee : Int) (existing : Event)
    (hs : existing.date = some es) (he : existing.end_time = some ee) :
    hasOverlapCreate (some ns) (some ne) existing = true ↔
      ns - 3600000 < ee + 3600000 ∧ ne + 3600000 > es - 3600000 := by
  simp only [hasOverlapCreate, hs, he, TimeValue.plus, dateLt, dateGt, bufferMs,
    Bool.and_eq_true, decide_eq_true_eq]
  constructor <;> intro h <;> constructor <;> omega

theorem hasOverlapEdit_valid (ns ne es ee : Int) (existing : Event)
    (hs : existing.date = some es) (he : existing.end_time = some ee) :
    hasOverlapEdit (some ns) (some ne) existing = true ↔
      ns - 3600000 < ee + 3600000 ∧ ne + 3600000 > es - 3600000 := by
  simp only [hasOverlapEdit, hs, he, TimeValue.plus, dateLt, dateGt, bufferMs,
    Bool.and_eq_true, decide_eq_true_eq]
  constructor <;> intro h <;> constructor <;> omega

/-- C6. The conflict test of create-event and the one of edit-event declare a
candidate window `[start, end)` in conflict with an existing window exactly
when `start - 60min < existingEnd + 60min` and `end + 60min > existingStart -
60min` (times in milliseconds, 60 min = 3600000); each loop reports its first
list element exactly when that test holds for it. -/
theorem C6_buffered_overlap_test (ns ne es ee : Int) (existing : Event)
    (rest : List Event) :
    (hasOverlapCreate (some ns) (some ne)
        { existing with date := some es, end_time := some ee } = true ↔
      ns - 3600000 < ee + 3600000 ∧ ne + 3600000 > es - 3600000) ∧
    (hasOverlapEdit (some ns) (some ne)
        { existing with date := some es, end_time := some ee } = true ↔
      ns - 3600000 < ee + 3600000 ∧ ne + 3600000 > es - 3600000) ∧
    (createConflict (some ns) (some ne)
        ({ existing with date := some es, end_time := some ee } :: rest) =
        some { existing with date := some es, end_time := some ee } ↔
      ns - 3600000 < ee + 3600000 ∧ ne + 3600000 > es - 3600000) ∧
    (editConflict (some ns) (some ne)
        ({ existing with date := some es, end_time := some ee } :: rest) =
        some { existing with date := some es, end_time := some ee } ↔
      ns - 3600000 < ee + 3600000 ∧ ne + 3600000 > es - 3600000) := by
  have hc := hasOverlapCreate_valid ns ne es ee
    { existing with date := some es, end_time := some ee } rfl rfl
  have hed := hasOverlapEdit_valid ns ne es ee
    { existing with date := some es, end_time := some ee } rfl rfl
  refine ⟨hc, hed, ?_, ?_⟩
  · rw [← hc]
    simp only [createConflict]
    constructor
    · intro h
      by_contra hno
      simp only [hno, Bool.false_eq_true, if_false] at h
      -- the scan went past the head, so the head does not overlap; but the
      -- event found equals the head
      have hmem : hasOverlapCreate (some ns) (some ne)
          { existing with date := some es, end_time := some ee } = true := by
        clear hno hc hed
        induction rest with
        | nil => simp [createConflict] at h
        | cons x xs ih =>
          simp only [createConflict] at h
          split at h
          · rename_i hx
            simp only [Option.some.injEq] at h
            rw [← h]; exact hx
          · exact ih h
      exact hno hmem
    · intro h
      simp only [h, if_true]
  · rw [← hed]
    simp only [editConflict]
    constructor
    · intro h
      by_contra hno
      simp only [hno, Bool.false_eq_true, if_false] at h
      have hmem : hasOverlapEdit (some ns) (some ne)
          { existing with date := some es, end_time := some ee } = true := by
        clear hno hc hed
        induction rest with
        | nil => simp [editConflict] at h
        | cons x xs ih =>
          simp only [editConflict] at h
          split at h
          · rename_i hx
            simp only [Option.some.injEq] at h
            rw [← h]; exact hx
          · exact ih h
      exact hno hmem
    · intro h
      simp only [h, if_true]

/-- C7 as stated fails: candidate D (12:00 to 13:00) starts exactly 60 minutes
after event A (10:00 to 11:00) ends, so the gap is not less than 60 minutes,
yet create-event, called at midnight, answers 409 with A as the colliding
event. -/
theorem C7_stated_counterexample :
    eventA.end_time = some 39600000 ∧ formD.date = some 43200000 ∧
    (39600000 : Int) ≤ 43200000 ∧ ¬ ((43200000 : Int) - 39600000 < 60 * 60000) ∧
    hasOverlapCreate formD.date formD.end_time eventA = true ∧
    createConflict formD.date formD.end_time (eventsAtVenue storeA formD.venue_id) =
      some eventA ∧
    postEvents storeA root formD 0 = (.conflict eventA, storeA) := by
  decide

/-- C7 (amended). For every existing event `[es, ee]` and every candidate
window `[ns, ne]` that starts at or after the existing event ends, the conflict
check of create-event reports a conflict if and only if the gap `ns - ee` is
less than 120 minutes (7200000 ms). -/
theorem C7_gap_rule (existing : Event) (es ee ns ne : Int)
    (hs : existing.date = some es) (he : existing.end_time = some ee)
    (hwin : es ≤ ee) (hcand : ns ≤ ne) (hafter : ee ≤ ns) :
    (hasOverlapCreate (some ns) (some ne) existing = true ↔ ns - ee < 7200000) ∧
    (createConflict (some ns) (some ne) [existing] = some existing ↔ ns - ee < 7200000) := by
  have hov : hasOverlapCreate (some ns) (some ne) existing = true ↔ ns - ee < 7200000 := by
    rw [hasOverlapCreate_valid ns ne es ee existing hs he]
    constructor
    · intro h; omega
    · intro h; constructor <;> omega
  refine ⟨hov, ?_⟩
  rw [← hov]
  simp only [createConflict]
  constructor
  · intro h
    by_contra hno
    simp [hno] at h
  · intro h
    simp only [h, if_true]

/-- With event A at 10:00 to 11:00: B at 11:30 to 12:30, C at 12:01 to 13:00
and D at 12:00 to 13:00 conflict; a candidate at 13:00 to 14:00 does not. -/
theorem C7_gap_rule_witness :
    createConflict (some 41400000) (some 45000000) [eventA] = some eventA ∧
    createConflict (some 43260000) (some 46800000) [eventA] = some eventA ∧
    createConflict (some 43200000) (some 46800000) [eventA] = some eventA ∧
    createConflict (some 46800000) (some 50400000) [eventA] ≠ some eventA :=
  ⟨(C7_gap_rule eventA 36000000 39600000 41400000 45000000 rfl rfl
      (by decide) (by decide) (by decide)).2.mpr (by decide),
   (C7_gap_rule eventA 36000000 39600000 43260000 46800000 rfl rfl
      (by decide) (by decide) (by decide)).2.mpr (by decide),
   (C7_gap_rule eventA 36000000 39600000 43200000 46800000 rfl rfl
      (by decide) (by decide) (by decide)).2.mpr (by decide),
   fun h => absurd ((C7_gap_rule eventA 36000000 39600000 46800000 50400000 rfl rfl
      (by decide) (by decide) (by decide)).2.mp h) (by decide)⟩

/-! ## Time validation of create-event -/

/-- On valid dates the four checks of create-event accept exactly the windows
with `e > s`, `e - s >= 15 min`, `s > now` and `e - s <= 8 h`. -/
theorem createValidation_valid_iff (st en now : Int) :
    createValidation (some st) (some en) now = none ↔
      en > st ∧ en - st ≥ 15 * 60000 ∧ st > now ∧ en - st ≤ 8 * 3600000 := by
  unfold createValidation
  simp only [dateLe, dateLt, dateGt, TimeValue.plus]
  by_cases h1 : en ≤ st
  · simp only [h1, decide_True, if_true]
    constructor
    · intro h; cases h
    · intro h; omega
  · by_cases h2 : en < st + 15 * 60 * 1000
    · simp only [h1, h2, decide_True, decide_False, Bool.false_eq_true, if_true, if_false]
      constructor
      · intro h; cases h
      · intro h; omega
    · by_cases h3 : st ≤ now
      · simp only [h1, h2, h3, decide_True, decide_False, Bool.false_eq_true, if_true,
          if_false]
        constructor
        · intro h; cases h
        · intro h; omega
      · by_cases h4 : st + 8 * 60 * 60 * 1000 < en
        · simp only [h1, h2, h3, h4, decide_True, decide_False, Bool.false_eq_true,
            if_true, if_false]
          constructor
          · intro h; cases h
          · intro h; omega
        · simp only [h1, h2, h3, h4, decide_False, Bool.false_eq_true, if_false, true_iff]
          omega

/-- C8 at the failing input: with an unparsable `date` and `end_time` none of
the four checks rejects, the conflict scan finds nothing, and create-event
answers 201 and stores an event whose start and end are Invalid Dates (so it
has neither `end_time > start_time` nor a duration in `[15 min, 8 h]` nor a
start in the future). -/
theorem C8_invalid_dates_are_accepted :
    createValidation invalidDateForm.date invalidDateForm.end_time 0 = none ∧
    (postEvents demoStore root invalidDateForm 0).1 = .created 2 ∧
    (⟨2, "Ghost", none, none, 50, 50, 5, 1, 1⟩ : Event) ∈
      (postEvents demoStore root invalidDateForm 0).2.events ∧
    dateGt invalidDateForm.end_time invalidDateForm.date = false ∧
    dateGt invalidDateForm.date (some 0) = false := by
  decide

/-! ## Release: lookup and time gate -/

theorem findEvent_isSome_of_mem {s : Store} {e : Event} (he : e ∈ s.events) :
    ∃ e1, findEvent s e.id = some e1 := by
  have h : (findEvent s e.id).isSome = true := by
    unfold findEvent
    rw [List.find?_isSome]
    exact ⟨e, he, by simp⟩
  exact Option.isSome_iff_exists.mp h

theorem getTicket_none_iff (s : Store) (ticket_id : String) (user_id : Nat) :
    getTicket s ticket_id user_id = none ↔
      ∀ r ∈ s.rsvps, r.ticket_id = ticket_id → r.user_id = user_id →
        r.status = Status.purchased → findEvent s r.event_id = none := by
  unfold getTicket
  rw [List.findSome?_eq_none_iff]
  constructor
  · intro h r hr ht hu hst
    have := h r hr
    simp only [ht, hu, hst, beq_self_eq_true, Bool.and_self, if_true] at this
    split at this
    · simp at this
    · assumption
  · intro h r hr
    split
    · rename_i hc
      simp only [Bool.and_eq_true, beq_iff_eq] at hc
      rw [h r hr hc.1.1 hc.1.2 hc.2]
    · rfl

/-- The cancellation handler answers 404 exactly when the lookup finds no row. -/
theorem postCancelTicket_notFound_iff (s : Store) (user : SessionUser) (ticket_id : String)
    (now : Int) :
    (postCancelTicket s user ticket_id now).1 = .ticketNotFound ↔
      getTicket s ticket_id user.id = none := by
  unfold postCancelTicket
  split
  · rename_i h
    simp [h]
  · rename_i r e h
    simp only [h]
    split <;> simp

/-- C9. On a store satisfying the schema constraints, release fails with
NotFound and leaves the store unchanged (nothing deleted, every `seats_left`
unchanged) whenever no ticket row has that `ticket_id`, or the row with that
`ticket_id` belongs to another user, or its status is not purchased (so a
checked-in ticket is never released); and it does not fail with NotFound when
a row with that `ticket_id`, that user and status purchased exists. -/
theorem C9_release_not_found (s : Store) (hwf : s.WF) (user : SessionUser)
    (ticket_id : String) (now : Int) :
    (((∀ r ∈ s.rsvps, r.ticket_id ≠ ticket_id) ∨
        (∃ r ∈ s.rsvps, r.ticket_id = ticket_id ∧ r.user_id ≠ user.id) ∨
        (∃ r ∈ s.rsvps, r.ticket_id = ticket_id ∧ r.status ≠ Status.purchased)) →
      postCancelTicket s user ticket_id now = (.ticketNotFound, s)) ∧
    ((∃ r ∈ s.rsvps, r.ticket_id = ticket_id ∧ r.user_id = user.id ∧
        r.status = Status.purchased) →
      (postCancelTicket s user ticket_id now).1 ≠ .ticketNotFound) := by
  have huniq := List.inj_on_of_nodup_map hwf.2.1
  constructor
  · intro h
    have hnone : getTicket s ticket_id user.id = none := by
      rw [getTicket_none_iff]
      intro r hr ht hu hst
      exfalso
      rcases h with h | ⟨r1, hr1, ht1, hu1⟩ | ⟨r1, hr1, ht1, hst1⟩
      · exact h r hr ht
      · have : r1 = r := huniq hr1 hr (by simp only [ht1, ht])
        subst this
        exact hu1 hu
      · have : r1 = r := huniq hr1 hr (by simp only [ht1, ht])
        subst this
        exact hst1 hst
    unfold postCancelTicket
    simp only [hnone]
  · rintro ⟨r, hr, ht, hu, hst⟩ hnf
    rw [postCancelTicket_notFound_iff, getTicket_none_iff] at hnf
    have hfind := hnf r hr ht hu hst
    obtain ⟨e, he, heid⟩ := hwf.2.2.1 r hr
    obtain ⟨e1, he1⟩ := findEvent_isSome_of_mem he
    rw [heid, hfind] at he1
    cases he1

theorem C9_release_not_found_witness :
    postCancelTicket mixedStore alice "TKT-0000FFFF" 0 = (.ticketNotFound, mixedStore) ∧
    postCancelTicket mixedStore alice "TKT-0000BBBB" 0 = (.ticketNotFound, mixedStore) ∧
    postCancelTicket mixedStore alice "TKT-0000AAAA" 0 = (.ticketNotFound, mixedStore) ∧
    (postCancelTicket mixedStore bob "TKT-0000BBBB" 0).1 ≠ .ticketNotFound :=
  ⟨(C9_release_not_found mixedStore (by decide) alice "TKT-0000FFFF" 0).1
      (Or.inl (by decide)),
   (C9_release_not_found mixedStore (by decide) alice "TKT-0000BBBB" 0).1
      (Or.inr (Or.inl (by decide))),
   (C9_release_not_found mixedStore (by decide) alice "TKT-0000AAAA" 0).1
      (Or.inr (Or.inr (by decide))),
   (C9_release_not_found mixedStore (by decide) bob "TKT-0000BBBB" 0).2 (by decide)⟩

/-- C10. For every release call whose ticket is found by the lookup (owned by
the caller, status purchased), the call fails with TooLate exactly when the
event start minus the current time is less than 30 minutes (1800000 ms); on
TooLate the store is unchanged (ticket kept, `seats_left` unchanged); with the
event starting in exactly 30 minutes the cancellation succeeds, with 29
minutes remaining it fails with TooLate. -/
theorem C10_release_too_late (s : Store) (user : SessionUser) (ticket_id : String)
    (now : Int) (r : Rsvp) (e : Event)
    (hget : getTicket s ticket_id user.id = some (r, e)) :
    ((postCancelTicket s user ticket_id now).1 = .cancellationNotAllowed ↔
      ∃ d, e.date = some d ∧ d - now < 30 * 60000) ∧
    ((postCancelTicket s user ticket_id now).1 = .cancellationNotAllowed →
      (postCancelTicket s user ticket_id now).2 = s) ∧
    (e.date = some (now + 30 * 60000) →
      (postCancelTicket s user ticket_id now).1 = .cancelled e.price e.title) ∧
    (e.date = some (now + 29 * 60000) →
      (postCancelTicket s user ticket_id now).1 = .cancellationNotAllowed) := by
  have hgate : minutesUntilEventLt (timeDiff e.date now) 30 = true ↔
      ∃ d, e.date = some d ∧ d - now < 30 * 60000 := by
    cases hd : e.date with
    | none => simp [timeDiff, minutesUntilEventLt]
    | some d => simp [timeDiff, minutesUntilEventLt, msPerMinute]
  have hiff : (postCancelTicket s user ticket_id now).1 = .cancellationNotAllowed ↔
      minutesUntilEventLt (timeDiff e.date now) 30 = true := by
    unfold postCancelTicket
    simp only [hget]
    split
    · rename_i h; simp [h]
    · rename_i h; simp [h]
  refine ⟨hiff.trans hgate, ?_, ?_, ?_⟩
  · intro h
    have hl := hiff.mp h
    unfold postCancelTicket
    simp only [hget, hl, if_true]
  · intro hd
    have hl : ¬ minutesUntilEventLt (timeDiff e.date now) 30 = true := by
      rw [hgate]
      rintro ⟨d, hd1, hlt⟩
      rw [hd] at hd1
      simp only [Option.some.injEq] at hd1
      omega
    unfold postCancelTicket
    simp only [hget, hl, Bool.false_eq_true, if_false]
  · intro hd
    rw [hiff, hgate]
    exact ⟨_, hd, by omega⟩

theorem C10_release_too_late_witness :
    (postCancelTicket demoStore alice "TKT-0000AAAA" 5400000).1 = .cancelled 20 "Concert" ∧
    (postCancelTicket demoStore alice "TKT-0000AAAA" 5460000).1 = .cancellationNotAllowed ∧
    (postCancelTicket demoStore alice "TKT-0000AAAA" 5460000).2 = demoStore :=
  ⟨(C10_release_too_late demoStore alice "TKT-0000AAAA" 5400000
      ⟨7, 1, "TKT-0000AAAA", Status.purchased⟩
      ⟨1, "Concert", some 7200000, some 10800000, 10, 9, 20, 1, 1⟩ (by decide)).2.2.1
      (by decide),
   (C10_release_too_late demoStore alice "TKT-0000AAAA" 5460000
      ⟨7, 1, "TKT-0000AAAA", Status.purchased⟩
      ⟨1, "Concert", some 7200000, some 10800000, 10, 9, 20, 1, 1⟩ (by decide)).2.2.2
      (by decide),
   (C10_release_too_late demoStore alice "TKT-0000AAAA" 5460000
      ⟨7, 1, "TKT-0000AAAA", Status.purchased⟩
      ⟨1, "Concert", some 7200000, some 10800000, 10, 9, 20, 1, 1⟩ (by decide)).2.1
      (by decide)⟩

/-! ## Release: effect on the store -/

/-- Rows with unique identifiers: the DELETE of the cancellation handler
removes exactly the row found by the lookup. -/
theorem deleteTicket_eq_filter {rows : List Rsvp} {r : Rsvp}
    (hnd : (rows.map (fun x => x.ticket_id)).Nodup) (hr : r ∈ rows) :
    deleteTicket rows r.ticket_id r.user_id = rows.filter (fun x => decide (x ≠ r)) := by
  unfold deleteTicket
  apply List.filter_congr
  intro x hx
  by_cases hxr : x = r
  · subst hxr
    simp
  · have hne : x.ticket_id ≠ r.ticket_id := fun heq =>
      hxr (List.inj_on_of_nodup_map hnd hx hr heq)
    simp [hxr, hne]

theorem addSeats_one_eq (events : List Event) (event_id : Nat) :
    addSeats events event_id 1 =
      events.map (fun x =>
        if x.id = event_id then { x with seats_left := x.seats_left + 1 } else x) := by
  simp only [addSeats]
  apply List.map_congr_left
  intro x _
  by_cases hx : x.id = event_id <;> simp [hx]

/-- What a successful cancellation does to the store when identifiers are unique. -/
theorem release_frame {s : Store} (hwf : s.WF) {user : SessionUser}
    {ticket_id : String} {now : Int} {price : Rat} {title : String}
    (h : (postCancelTicket s user ticket_id now).1 = .cancelled price title) :
    ∃ r ∈ s.rsvps, r.ticket_id = ticket_id ∧ r.user_id = user.id ∧
      r.status = Status.purchased ∧
      (postCancelTicket s user ticket_id now).2.rsvps =
        s.rsvps.filter (fun x => decide (x ≠ r)) ∧
      (postCancelTicket s user ticket_id now).2.rsvps.length + 1 = s.rsvps.length ∧
      (∀ x ∈ (postCancelTicket s user ticket_id now).2.rsvps, x.ticket_id ≠ ticket_id) ∧
      (postCancelTicket s user ticket_id now).2.events =
        s.events.map (fun x =>
          if x.id = r.event_id then { x with seats_left := x.seats_left + 1 } else x) ∧
      (∃ e ∈ s.events, e.id = r.event_id ∧ ∀ x ∈ s.events, x.id = r.event_id → x = e) ∧
      (postCancelTicket s user ticket_id now).2.venues = s.venues ∧
      (postCancelTicket s user ticket_id now).2.eventSeq = s.eventSeq := by
  obtain ⟨r, e, hget, _, _, _, hst⟩ := postCancelTicket_cancelled h
  obtain ⟨hr, htid, huid, hstat, hfind⟩ := getTicket_some hget
  obtain ⟨hemem, heid⟩ := findEvent_some hfind
  have hdel : deleteTicket s.rsvps ticket_id user.id =
      s.rsvps.filter (fun x => decide (x ≠ r)) := by
    rw [← htid, ← huid]; exact deleteTicket_eq_filter hwf.2.1 hr
  have hlen := countP_deleteTicket (fun _ => true) r s.rsvps hwf.2.1 hr
  rw [htid, huid] at hlen
  simp only [List.countP_true, if_true] at hlen
  rw [hst]
  refine ⟨r, hr, htid, huid, hstat, hdel, hlen, ?_, addSeats_one_eq _ _, ?_, rfl, rfl⟩
  · intro x hx
    simp only [hdel, List.mem_filter, decide_eq_true_eq] at hx
    intro hxt
    exact hx.2 (List.inj_on_of_nodup_map hwf.2.1 hx.1 hr (by rw [hxt, htid]))
  · refine ⟨e, hemem, heid, ?_⟩
    intro x hx hxid
    exact List.inj_on_of_nodup_map hwf.1 hx hemem (by simp only [hxid, heid])

/-- C11. For every release call that passes the NotFound and TooLate checks,
on a store satisfying the schema constraints: exactly the one row with that
`ticket_id` (a purchased row of the caller) is removed and every other ticket
row is kept unchanged; the one event that ticket references gets `seats_left +
1` with every other field unchanged; every other event, the venues and the
event counter are unchanged. -/
theorem C11_release_frame (s : Store) (hwf : s.WF) (user : SessionUser)
    (ticket_id : String) (now : Int) (price : Rat) (title : String)
    (h : (postCancelTicket s user ticket_id now).1 = .cancelled price title) :
    ∃ r ∈ s.rsvps, r.ticket_id = ticket_id ∧ r.user_id = user.id ∧
      r.status = Status.purchased ∧
      (postCancelTicket s user ticket_id now).2.rsvps =
        s.rsvps.filter (fun x => decide (x ≠ r)) ∧
      (postCancelTicket s user ticket_id now).2.rsvps.length + 1 = s.rsvps.length ∧
      (∀ x ∈ (postCancelTicket s user ticket_id now).2.rsvps, x.ticket_id ≠ ticket_id) ∧
      (postCancelTicket s user ticket_id now).2.events =
        s.events.map (fun x =>
          if x.id = r.event_id then { x with seats_left := x.seats_left + 1 } else x) ∧
      (∃ e ∈ s.events, e.id = r.event_id ∧ ∀ x ∈ s.events, x.id = r.event_id → x = e) ∧
      (postCancelTicket s user ticket_id now).2.venues = s.venues ∧
      (postCancelTicket s user ticket_id now).2.eventSeq = s.eventSeq :=
  release_frame hwf h

theorem C11_release_frame_witness :
    ∃ r ∈ mixedStore.rsvps, r.ticket_id = "TKT-0000BBBB" ∧ r.user_id = bob.id ∧
      r.status = Status.purchased ∧
      (postCancelTicket mixedStore bob "TKT-0000BBBB" 0).2.rsvps =
        mixedStore.rsvps.filter (fun x => decide (x ≠ r)) ∧
      (postCancelTicket mixedStore bob "TKT-0000BBBB" 0).2.rsvps.length + 1 =
        mixedStore.rsvps.length ∧
      (∀ x ∈ (postCancelTicket mixedStore bob "TKT-0000BBBB" 0).2.rsvps,
        x.ticket_id ≠ "TKT-0000BBBB") ∧
      (postCancelTicket mixedStore bob "TKT-0000BBBB" 0).2.events =
        mixedStore.events.map (fun x =>
          if x.id = r.event_id then { x with seats_left := x.seats_left + 1 } else x) ∧
      (∃ e ∈ mixedStore.events, e.id = r.event_id ∧
        ∀ x ∈ mixedStore.events, x.id = r.event_id → x = e) ∧
      (postCancelTicket mixedStore bob "TKT-0000BBBB" 0).2.venues = mixedStore.venues ∧
      (postCancelTicket mixedStore bob "TKT-0000BBBB" 0).2.eventSeq = mixedStore.eventSeq :=
  C11_release_frame mixedStore (by decide) bob "TKT-0000BBBB" 0 20 "Concert" (by decide)

/-! ## Check-in -/

theorem findSome?_of_unique {α β : Type} (f : α → Option β) (r : α) :
    ∀ l : List α, r ∈ l → (∀ x ∈ l, x ≠ r → f x = none) → l.findSome? f = f r := by
  intro l
  induction l with
  | nil => intro hr; simp at hr
  | cons a as ih =>
    intro hr hothers
    by_cases har : a = r
    · subst har
      cases hfa : f a with
      | some b => simp [List.findSome?, hfa]
      | none =>
        simp only [List.findSome?, hfa]
        rw [List.findSome?_eq_none_iff]
        intro x hx
        by_cases hxa : x = a
        · rw [hxa]; exact hfa
        · exact hothers x (List.mem_cons_of_mem _ hx) hxa
    · have hra : r ∈ as := by
        rcases List.mem_cons.mp hr with h | h
        · exact absurd h.symm har
        · exact h
      have hfa : f a = none := hothers a (List.mem_cons_self _ _) har
      simp only [List.findSome?, hfa]
      exact ih hra (fun x hx hxr => hothers x (List.mem_cons_of_mem _ hx) hxr)

/-- With unique identifiers the check-in lookup returns the event of the row
that carries the identifier. -/
theorem getTicketEvent_of_row {s : Store} (hwf : s.WF) {r : Rsvp} (hr : r ∈ s.rsvps) :
    getTicketEvent s r.ticket_id = findEvent s r.event_id := by
  unfold getTicketEvent
  rw [findSome?_of_unique _ r s.rsvps hr]
  · simp
  · intro x hx hxr
    have hne : x.ticket_id ≠ r.ticket_id := fun heq =>
      hxr (List.inj_on_of_nodup_map hwf.2.1 hx hr heq)
    simp [hne]

theorem getTicketEvent_none {s : Store} {ticket_id : String}
    (h : ∀ r ∈ s.rsvps, r.ticket_id ≠ ticket_id) : getTicketEvent s ticket_id = none := by
  unfold getTicketEvent
  rw [List.findSome?_eq_none_iff]
  intro x hx
  simp [h x hx]

/-- The check-in handler once the lookup has found the event. -/
theorem postCheckin_eval {s : Store} {ticket_id : String} (now : Int) {e : Event}
    (hget : getTicketEvent s ticket_id = some e) :
    postCheckin s ticket_id now =
      if minutesUntilEventGt (timeDiff e.date now) 25 then (.notYetAvailable, s)
      else if checkinChanges s.rsvps ticket_id == 0 then (.notFoundOrAlreadyCheckedIn, s)
      else (.checkedIn, { s with rsvps := markCheckedIn s.rsvps ticket_id }) := by
  unfold postCheckin
  simp only [hget]

theorem minutesUntilEventGt_iff (date : TimeValue) (now m : Int) :
    minutesUntilEventGt (timeDiff date now) m = true ↔
      ∃ d, date = some d ∧ d - now > m * 60000 := by
  cases date with
  | none => simp [timeDiff, minutesUntilEventGt]
  | some d => simp [timeDiff, minutesUntilEventGt, msPerMinute]

/-- C13. For every checkIn call whose ticket is found by the lookup, the call
fails with TooEarly exactly when the event start minus the current time is
more than 25 minutes (1500000 ms); on TooEarly the store is unchanged (the
ticket status is unchanged); with the event starting in exactly 25 minutes the
call is not rejected as too early, with 26 minutes remaining it is. -/
theorem C13_checkin_too_early (s : Store) (ticket_id : String) (now : Int) (e : Event)
    (hget : getTicketEvent s ticket_id = some e) :
    ((postCheckin s ticket_id now).1 = .notYetAvailable ↔
      ∃ d, e.date = some d ∧ d - now > 25 * 60000) ∧
    ((postCheckin s ticket_id now).1 = .notYetAvailable →
      (postCheckin s ticket_id now).2 = s) ∧
    (e.date = some (now + 25 * 60000) →
      (postCheckin s ticket_id now).1 ≠ .notYetAvailable) ∧
    (e.date = some (now + 26 * 60000) →
      (postCheckin s ticket_id now).1 = .notYetAvailable) := by
  have hgate := minutesUntilEventGt_iff e.date now 25
  have hiff : (postCheckin s ticket_id now).1 = .notYetAvailable ↔
      minutesUntilEventGt (timeDiff e.date now) 25 = true := by
    rw [postCheckin_eval now hget]
    split
    · rename_i h; simp [h]
    · rename_i h
      split <;> simp [h]
  refine ⟨hiff.trans hgate, ?_, ?_, ?_⟩
  · intro h
    have hl := hiff.mp h
    rw [postCheckin_eval now hget]
    simp only [hl, if_true]
  · intro hd hc
    obtain ⟨d, hd1, hgt⟩ := (hiff.trans hgate).mp hc
    rw [hd] at hd1
    simp only [Option.some.injEq] at hd1
    omega
  · intro hd
    rw [hiff, hgate]
    exact ⟨_, hd, by omega⟩

theorem C13_checkin_too_early_witness :
    (postCheckin demoStore "TKT-0000AAAA" 5700000).1 ≠ .notYetAvailable ∧
    (postCheckin demoStore "TKT-0000AAAA" 5700000).1 = .checkedIn ∧
    (postCheckin demoStore "TKT-0000AAAA" 5640000).1 = .notYetAvailable ∧
    (postCheckin demoStore "TKT-0000AAAA" 5640000).2 = demoStore :=
  ⟨(C13_checkin_too_early demoStore "TKT-0000AAAA" 5700000
      ⟨1, "Concert", some 7200000, some 10800000, 10, 9, 20, 1, 1⟩ (by decide)).2.2.1
      (by decide),
   by decide,
   (C13_checkin_too_early demoStore "TKT-0000AAAA" 5640000
      ⟨1, "Concert", some 7200000, some 10800000, 10, 9, 20, 1, 1⟩ (by decide)).2.2.2
      (by decide),
   (C13_checkin_too_early demoStore "TKT-0000AAAA" 5640000
      ⟨1, "Concert", some 7200000, some 10800000, 10, 9, 20, 1, 1⟩ (by decide)).2.1
      (by decide)⟩

theorem markCheckedIn_eq_map {rows : List Rsvp} {r : Rsvp}
    (hnd : (rows.map (fun x => x.ticket_id)).Nodup) (hr : r ∈ rows)
    (hst : r.status = Status.purchased) :
    markCheckedIn rows r.ticket_id =
      rows.map (fun x => if x = r then { x with status := Status.checked_in } else x) := by
  unfold markCheckedIn
  apply List.map_congr_left
  intro x hx
  by_cases hxr : x = r
  · subst hxr
    simp [hst]
  · have hne : x.ticket_id ≠ r.ticket_id := fun heq =>
      hxr (List.inj_on_of_nodup_map hnd hx hr heq)
    simp [hxr, hne]

theorem checkinChanges_pos {rows : List Rsvp} {r : Rsvp} (hr : r ∈ rows)
    (hst : r.status = Status.purchased) : checkinChanges rows r.ticket_id ≠ 0 := by
  unfold checkinChanges
  intro h
  rw [List.countP_eq_zero] at h
  have := h r hr
  simp [hst] at this

theorem checkinChanges_zero {rows : List Rsvp} {ticket_id : String}
    (h : ∀ x ∈ rows, x.ticket_id = ticket_id → x.status = Status.checked_in) :
    checkinChanges rows ticket_id = 0 := by
  unfold checkinChanges
  rw [List.countP_eq_zero]
  intro x hx
  by_cases hxt : x.ticket_id = ticket_id
  · simp [hxt, h x hx hxt]
  · simp [hxt]

/-- C15. On a store satisfying the schema constraints, for every checkIn call
on a stored ticket with status purchased whose event starts no more than 25
minutes (1500000 ms) after the current time, the call succeeds; afterwards the
store differs only in that this one row has status checked_in: no row is added
or removed, every other row is unchanged, and the events (so every
`seats_left`), the venues and the event counter are unchanged. -/
theorem C15_checkin_success (s : Store) (hwf : s.WF) (r : Rsvp) (hr : r ∈ s.rsvps)
    (hst : r.status = Status.purchased) (now : Int) (e : Event)
    (he : findEvent s r.event_id = some e) (d : Int) (hd : e.date = some d)
    (hle : d - now ≤ 25 * 60000) :
    postCheckin s r.ticket_id now =
      (.checkedIn,
        { s with rsvps := s.rsvps.map (fun x =>
            if x = r then { x with status := Status.checked_in } else x) }) ∧
    (postCheckin s r.ticket_id now).2.rsvps.length = s.rsvps.length ∧
    ({ r with status := Status.checked_in } : Rsvp) ∈ (postCheckin s r.ticket_id now).2.rsvps ∧
    (postCheckin s r.ticket_id now).2.events = s.events := by
  have hget : getTicketEvent s r.ticket_id = some e := by
    rw [getTicketEvent_of_row hwf hr, he]
  have hgate : ¬ minutesUntilEventGt (timeDiff e.date now) 25 = true := by
    rw [minutesUntilEventGt_iff]
    rintro ⟨d1, hd1, hgt⟩
    rw [hd] at hd1
    simp only [Option.some.injEq] at hd1
    omega
  have hch : (checkinChanges s.rsvps r.ticket_id == 0) = false := by
    simpa using checkinChanges_pos hr hst
  have hpost : postCheckin s r.ticket_id now =
      (.checkedIn,
        { s with rsvps := s.rsvps.map (fun x =>
            if x = r then { x with status := Status.checked_in } else x) }) := by
    rw [postCheckin_eval now hget]
    simp only [hgate, hch, Bool.false_eq_true, if_false]
    rw [markCheckedIn_eq_map hwf.2.1 hr hst]
  rw [hpost]
  refine ⟨rfl, by simp, ?_, rfl⟩
  simp only [List.mem_map]
  exact ⟨r, hr, by simp⟩

theorem C15_checkin_success_witness :
    postCheckin mixedStore "TKT-0000BBBB" 5700000 =
      (.checkedIn,
        { mixedStore with rsvps := mixedStore.rsvps.map (fun x =>
            if x = ⟨9, 1, "TKT-0000BBBB", Status.purchased⟩ then
              { x with status := Status.checked_in } else x) }) ∧
    (postCheckin mixedStore "TKT-0000BBBB" 5700000).2.rsvps =
      [⟨7, 1, "TKT-0000AAAA", Status.checked_in⟩, ⟨9, 1, "TKT-0000BBBB", Status.checked_in⟩] :=
  ⟨(C15_checkin_success mixedStore (by decide) ⟨9, 1, "TKT-0000BBBB", Status.purchased⟩
      (by decide) rfl 5700000 ⟨1, "Concert", some 7200000, some 10800000, 10, 8, 20, 1, 1⟩
      (by decide) 7200000 rfl (by decide)).1,
   by decide⟩

theorem getTicketEvent_markCheckedIn (s : Store) (ticket_id t : String) :
    getTicketEvent { s with rsvps := markCheckedIn s.rsvps t } ticket_id =
      getTicketEvent s ticket_id := by
  have hfind : ∀ n, findEvent { s with rsvps := markCheckedIn s.rsvps t } n = findEvent s n :=
    fun _ => rfl
  unfold getTicketEvent
  simp only [hfind]
  generalize s.rsvps = rows
  induction rows with
  | nil => rfl
  | cons x xs ih =>
    have hcons : markCheckedIn (x :: xs) t =
        (if x.ticket_id == t && x.status == Status.purchased then
          { x with status := Status.checked_in } else x) :: markCheckedIn xs t := rfl
    rw [hcons]
    simp only [List.findSome?]
    have hhead : (if (if x.ticket_id == t && x.status == Status.purchased then
          ({ x with status := Status.checked_in } : Rsvp) else x).ticket_id == ticket_id then
          findEvent s (if x.ticket_id == t && x.status == Status.purchased then
            ({ x with status := Status.checked_in } : Rsvp) else x).event_id else none) =
        (if x.ticket_id == ticket_id then findEvent s x.event_id else none) := by
      split <;> rfl
    rw [hhead, ih]

theorem checkinChanges_markCheckedIn (rows : List Rsvp) (ticket_id : String) :
    checkinChanges (markCheckedIn rows ticket_id) ticket_id = 0 := by
  apply checkinChanges_zero
  intro x hx hxt
  simp only [markCheckedIn, List.mem_map] at hx
  obtain ⟨y, _, rfl⟩ := hx
  split
  · rfl
  · rename_i hc
    split at hxt
    · rename_i hc1; exact absurd hc1 hc
    · cases hy : y.status with
      | checked_in => rfl
      | purchased =>
        exfalso
        apply hc
        simp [hxt, hy]

/-- C14 as stated fails: a check-in of an unknown identifier and a check-in of
a ticket that is already checked in (20 minutes before the start, so the time
gate passes) are both answered with HTTP status 404; the second answer is the
combined "Ticket not found or already checked in.", not an error kind of its
own. -/
theorem C14_stated_counterexample :
    (∀ r ∈ mixedStore.rsvps, r.ticket_id ≠ "TKT-0000FFFF") ∧
    postCheckin mixedStore "TKT-0000FFFF" 6000000 = (.ticketNotFound, mixedStore) ∧
    (⟨7, 1, "TKT-0000AAAA", Status.checked_in⟩ : Rsvp) ∈ mixedStore.rsvps ∧
    postCheckin mixedStore "TKT-0000AAAA" 6000000 =
      (.notFoundOrAlreadyCheckedIn, mixedStore) ∧
    ¬ ((postCheckin mixedStore "TKT-0000FFFF" 6000000).1.status ≠
        (postCheckin mixedStore "TKT-0000AAAA" 6000000).1.status) := by
  decide

/-- C14 (amended). On a store satisfying the schema constraints, checkIn
answers 404 "Ticket not found." when no ticket has the given `ticket_id`, and
404 "Ticket not found or already checked in." when the ticket exists, the time
gate passes and its status is already checked_in; the two answers carry the
same HTTP status and differ only in the message; in both cases the store is
unchanged, so the ticket stays checked_in, and a second checkIn after a
successful one (time gate passing) is rejected with the second answer. -/
theorem C14_checkin_failures (s : Store) (hwf : s.WF) (ticket_id : String) (now : Int) :
    ((∀ r ∈ s.rsvps, r.ticket_id ≠ ticket_id) →
      postCheckin s ticket_id now = (.ticketNotFound, s)) ∧
    (∀ r ∈ s.rsvps, r.ticket_id = ticket_id → r.status = Status.checked_in →
      ∀ e, findEvent s r.event_id = some e →
        minutesUntilEventGt (timeDiff e.date now) 25 = false →
        postCheckin s ticket_id now = (.notFoundOrAlreadyCheckedIn, s)) ∧
    (CheckinResponse.ticketNotFound.status = 404 ∧
      CheckinResponse.notFoundOrAlreadyCheckedIn.status = 404 ∧
      CheckinResponse.ticketNotFound ≠ CheckinResponse.notFoundOrAlreadyCheckedIn) ∧
    (∀ (now2 : Int) (e : Event), (postCheckin s ticket_id now).1 = .checkedIn →
      getTicketEvent s ticket_id = some e →
      minutesUntilEventGt (timeDiff e.date now2) 25 = false →
      postCheckin (postCheckin s ticket_id now).2 ticket_id now2 =
        (.notFoundOrAlreadyCheckedIn, (postCheckin s ticket_id now).2)) := by
  refine ⟨?_, ?_, ⟨rfl, rfl, by decide⟩, ?_⟩
  · intro h
    unfold postCheckin
    simp only [getTicketEvent_none h]
  · intro r hr ht hst e he hgate
    subst ht
    have hget : getTicketEvent s r.ticket_id = some e := by
      rw [getTicketEvent_of_row hwf hr, he]
    have hzero : checkinChanges s.rsvps r.ticket_id = 0 := by
      apply checkinChanges_zero
      intro x hx hxt
      have : x = r := List.inj_on_of_nodup_map hwf.2.1 hx hr hxt
      rw [this]; exact hst
    rw [postCheckin_eval now hget]
    simp [hgate, hzero]
  · intro now2 e hok hget hgate2
    have hst : (postCheckin s ticket_id now).2 =
        { s with rsvps := markCheckedIn s.rsvps ticket_id } := by
      rw [postCheckin_eval now hget] at hok ⊢
      split at hok
      · simp at hok
      · rename_i hg
        split at hok
        · simp at hok
        · rename_i hc
          simp only [hg, hc, Bool.false_eq_true, if_false]
    rw [hst]
    have hget2 : getTicketEvent { s with rsvps := markCheckedIn s.rsvps ticket_id }
        ticket_id = some e := by
      rw [getTicketEvent_markCheckedIn, hget]
    rw [postCheckin_eval now2 hget2]
    simp [hgate2, checkinChanges_markCheckedIn]

theorem C14_checkin_failures_witness :
    postCheckin mixedStore "TKT-0000FFFF" 6000000 = (.ticketNotFound, mixedStore) ∧
    postCheckin mixedStore "TKT-0000AAAA" 6000000 =
      (.notFoundOrAlreadyCheckedIn, mixedStore) ∧
    postCheckin (postCheckin mixedStore "TKT-0000BBBB" 6000000).2 "TKT-0000BBBB" 6060000 =
      (.notFoundOrAlreadyCheckedIn, (postCheckin mixedStore "TKT-0000BBBB" 6000000).2) :=
  ⟨(C14_checkin_failures mixedStore (by decide) "TKT-0000FFFF" 6000000).1 (by decide),
   (C14_checkin_failures mixedStore (by decide) "TKT-0000AAAA" 6000000).2.1
      ⟨7, 1, "TKT-0000AAAA", Status.checked_in⟩ (by decide) rfl rfl
      ⟨1, "Concert", some 7200000, some 10800000, 10, 8, 20, 1, 1⟩ (by decide) (by decide),
   (C14_checkin_failures mixedStore (by decide) "TKT-0000BBBB" 6000000).2.2.2 6060000
      ⟨1, "Concert", some 7200000, some 10800000, 10, 8, 20, 1, 1⟩ (by decide) (by decide)
      (by decide)⟩

/-! ## Ticket state machine -/

theorem wf_apply {s : Store} (hwf : s.WF) (op : LedgerOp) : (op.apply s).WF := by
  cases op with
  | reserve user event_id quantity rand => exact wf_postRsvp hwf user event_id quantity rand
  | release user ticket_id now => exact wf_postCancelTicket hwf user ticket_id now
  | checkIn ticket_id now => exact wf_postCheckin hwf ticket_id now

theorem wf_runOps {s : Store} (hwf : s.WF) (ops : List LedgerOp) : (runOps s ops).WF := by
  induction ops generalizing s with
  | nil => exact hwf
  | cons op ops ih => exact ih (wf_apply hwf op)

/-- A booking never removes or changes a stored row. -/
theorem mem_postRsvp {s : Store} {r : Rsvp} (hr : r ∈ s.rsvps) (user : SessionUser)
    (event_id : Nat) (quantity : Option Int) (rand : Nat → String) :
    r ∈ (postRsvp s user event_id quantity rand).2.rsvps := by
  rcases postRsvp_store s user event_id quantity rand with hs | ⟨qty, ids, h⟩
  · rw [hs]; exact hr
  · obtain ⟨_, _, _, _, _, _, _, _, hst⟩ := postRsvp_created h
    rw [hst]
    exact List.mem_append_left _ hr

/-- What a cancellation does to a stored row: it stays, or it is the purchased
row of the caller with the requested identifier and no row with that
identifier is left. -/
theorem mem_postCancelTicket {s : Store} (hwf : s.WF) {r : Rsvp} (hr : r ∈ s.rsvps)
    (user : SessionUser) (ticket_id : String) (now : Int) :
    r ∈ (postCancelTicket s user ticket_id now).2.rsvps ∨
      (r.status = Status.purchased ∧ r.ticket_id = ticket_id ∧ r.user_id = user.id ∧
        ∀ x ∈ (postCancelTicket s user ticket_id now).2.rsvps, x.ticket_id ≠ r.ticket_id) := by
  cases hresp : (postCancelTicket s user ticket_id now).1 with
  | ticketNotFound =>
    left
    have : (postCancelTicket s user ticket_id now).2 = s := by
      unfold postCancelTicket at hresp ⊢
      split at hresp
      · rfl
      · split at hresp <;> simp at hresp
    rw [this]; exact hr
  | cancellationNotAllowed =>
    left
    have : (postCancelTicket s user ticket_id now).2 = s := by
      unfold postCancelTicket at hresp ⊢
      split at hresp
      · rfl
      · split at hresp
        · rename_i hl; simp only [hl, if_true]
        · simp at hresp
    rw [this]; exact hr
  | cancelled price title =>
    obtain ⟨r0, hr0, htid, huid, hstat, hrows, _, hnone, _⟩ :=
      release_frame hwf hresp
    by_cases hrr : r = r0
    · right
      subst hrr
      refine ⟨hstat, htid, huid, ?_⟩
      rw [htid]; exact hnone
    · left
      rw [hrows]
      simp only [List.mem_filter, decide_eq_true_eq]
      exact ⟨hr, hrr⟩

/-- What a check-in does to a stored row: it stays, or it was purchased, carries
the requested identifier and is now checked in. -/
theorem mem_postCheckin {s : Store} {r : Rsvp} (hr : r ∈ s.rsvps) (ticket_id : String)
    (now : Int) :
    r ∈ (postCheckin s ticket_id now).2.rsvps ∨
      (r.status = Status.purchased ∧ r.ticket_id = ticket_id ∧
        ({ r with status := Status.checked_in } : Rsvp) ∈
          (postCheckin s ticket_id now).2.rsvps) := by
  unfold postCheckin
  split
  · exact Or.inl hr
  · split
    · exact Or.inl hr
    · split
      · exact Or.inl hr
      · by_cases hc : r.ticket_id = ticket_id ∧ r.status = Status.purchased
        · right
          refine ⟨hc.2, hc.1, ?_⟩
          simp only [markCheckedIn, List.mem_map]
          exact ⟨r, hr, by simp [hc.1, hc.2]⟩
        · left
          simp only [markCheckedIn, List.mem_map]
          refine ⟨r, hr, ?_⟩
          have : (r.ticket_id == ticket_id && r.status == Status.purchased) = false := by
            simpa using hc
          simp [this]

theorem checked_in_row_kept {s : Store} (hwf : s.WF) {r : Rsvp} (hr : r ∈ s.rsvps)
    (hst : r.status = Status.checked_in) (op : LedgerOp) : r ∈ (op.apply s).rsvps := by
  cases op with
  | reserve user event_id quantity rand => exact mem_postRsvp hr user event_id quantity rand
  | release user ticket_id now =>
    rcases mem_postCancelTicket hwf hr user ticket_id now with h | ⟨hp, _⟩
    · exact h
    · rw [hst] at hp; cases hp
  | checkIn ticket_id now =>
    rcases mem_postCheckin hr ticket_id now with h | ⟨hp, _⟩
    · exact h
    · rw [hst] at hp; cases hp

theorem checked_in_row_kept_runOps {s : Store} (hwf : s.WF) {r : Rsvp} (hr : r ∈ s.rsvps)
    (hst : r.status = Status.checked_in) (ops : List LedgerOp) :
    r ∈ (runOps s ops).rsvps := by
  induction ops generalizing s with
  | nil => exact hr
  | cons op ops ih => exact ih (wf_apply hwf op) (checked_in_row_kept hwf hr hst op)

/-- C16. Ticket state machine, on a store satisfying the schema constraints.
A stored ticket with status checked_in is still stored, unchanged, after any
sequence of reserve, release and checkIn calls, and it is the only row with
its identifier (so it never returns to purchased and is never deleted).  In
one call a purchased ticket either stays as it is, or becomes checked_in and
the call is a checkIn of its identifier, or is deleted and the call is a
release of its identifier by its owner. -/
theorem C16_ticket_state_machine (s : Store) (hwf : s.WF) (r : Rsvp) (hr : r ∈ s.rsvps) :
    (r.status = Status.checked_in → ∀ ops : List LedgerOp,
      r ∈ (runOps s ops).rsvps ∧
      ∀ x ∈ (runOps s ops).rsvps, x.ticket_id = r.ticket_id → x.status = Status.checked_in) ∧
    (r.status = Status.purchased → ∀ op : LedgerOp,
      r ∈ (op.apply s).rsvps ∨
      (({ r with status := Status.checked_in } : Rsvp) ∈ (op.apply s).rsvps ∧
        ∃ now, op = .checkIn r.ticket_id now) ∨
      ((∀ x ∈ (op.apply s).rsvps, x.ticket_id ≠ r.ticket_id) ∧
        ∃ user now, op = .release user r.ticket_id now ∧ user.id = r.user_id)) := by
  constructor
  · intro hst ops
    have hmem := checked_in_row_kept_runOps hwf hr hst ops
    have hwf1 := wf_runOps hwf ops
    refine ⟨hmem, ?_⟩
    intro x hx hxt
    have : x = r := List.inj_on_of_nodup_map hwf1.2.1 hx hmem hxt
    rw [this]; exact hst
  · intro _ op
    cases op with
    | reserve user event_id quantity rand =>
      exact Or.inl (mem_postRsvp hr user event_id quantity rand)
    | release user ticket_id now =>
      rcases mem_postCancelTicket hwf hr user ticket_id now with h | ⟨_, ht, hu, hnone⟩
      · exact Or.inl h
      · right; right
        subst ht
        exact ⟨hnone, user, now, rfl, hu.symm⟩
    | checkIn ticket_id now =>
      rcases mem_postCheckin hr ticket_id now with h | ⟨_, ht, hmem⟩
      · exact Or.inl h
      · right; left
        subst ht
        exact ⟨hmem, now, rfl⟩

theorem C16_ticket_state_machine_witness :
    ((⟨7, 1, "TKT-0000AAAA", Status.checked_in⟩ : Rsvp) ∈
      (runOps mixedStore
        [.release alice "TKT-0000AAAA" 0, .checkIn "TKT-0000AAAA" 6000000,
         .reserve alice 1 (some 2) demoRand, .release bob "TKT-0000BBBB" 0]).rsvps) ∧
    (runOps mixedStore
        [.release alice "TKT-0000AAAA" 0, .checkIn "TKT-0000AAAA" 6000000,
         .reserve alice 1 (some 2) demoRand, .release bob "TKT-0000BBBB" 0]).rsvps =
      [⟨7, 1, "TKT-0000AAAA", Status.checked_in⟩, ⟨7, 1, "TKT-00000001", Status.purchased⟩,
       ⟨7, 1, "TKT-00000002", Status.purchased⟩] :=
  ⟨((C16_ticket_state_machine mixedStore (by decide)
      ⟨7, 1, "TKT-0000AAAA", Status.checked_in⟩ (by decide)).1 rfl _).1,
   by decide⟩

/-! ## Edit-event: capacity check and conflict scan -/

/-- The edit handler once validation, the ownership lookup and the conflict
scan have passed. -/
theorem putEvents_eval {s : Store} {user : SessionUser} {event_id : Nat} {form : EventForm}
    {now : Int} {event : Event}
    (hval : editValidation form.date form.end_time now = none)
    (hown : s.events.find? (fun e => e.id == event_id && e.organizer_id == user.id) =
      some event)
    (hconf : editConflict form.date form.end_time
      (otherEventsAtVenue s form.venue_id event_id) = none) :
    putEvents s user event_id form now =
      if form.capacity - (event.capacity - event.seats_left) < 0 then
        (.capacityTooLow (event.capacity - event.seats_left), s)
      else if venueExists s form.venue_id then
        (.updated,
          { s with
            events := updateEvent s.events form
              (form.capacity - (event.capacity - event.seats_left)) event_id user.id })
      else (.storageError, s) := by
  unfold putEvents
  simp only [hval, hown, hconf]

/-- C17. For every edit-event request that passes validation, the ownership
lookup and the conflict scan, the edit fails with CapacityTooLow exactly when
the new capacity is less than the number of seats already booked (old capacity
minus old `seats_left`); on that failure the store, hence the event record, is
unchanged. -/
theorem C17_capacity_too_low (s : Store) (user : SessionUser) (event_id : Nat)
    (form : EventForm) (now : Int) (event : Event)
    (hval : editValidation form.date form.end_time now = none)
    (hown : s.events.find? (fun e => e.id == event_id && e.organizer_id == user.id) =
      some event)
    (hconf : editConflict form.date form.end_time
      (otherEventsAtVenue s form.venue_id event_id) = none) :
    ((∃ n, (putEvents s user event_id form now).1 = .capacityTooLow n) ↔
      form.capacity < event.capacity - event.seats_left) ∧
    (form.capacity < event.capacity - event.seats_left →
      putEvents s user event_id form now =
        (.capacityTooLow (event.capacity - event.seats_left), s)) := by
  rw [putEvents_eval hval hown hconf]
  constructor
  · constructor
    · rintro ⟨n, hn⟩
      by_contra hc
      have hge : ¬ (form.capacity - (event.capacity - event.seats_left) < 0) := by omega
      simp only [hge, if_false] at hn
      split at hn <;> simp at hn
    · intro hlt
      have hneg : form.capacity - (event.capacity - event.seats_left) < 0 := by omega
      exact ⟨event.capacity - event.seats_left, by simp only [hneg, if_true]⟩
  · intro hlt
    have hneg : form.capacity - (event.capacity - event.seats_left) < 0 := by omega
    simp only [hneg, if_true]

theorem C17_capacity_too_low_witness :
    ((∃ n, (putEvents mixedStore root 1
        ⟨"Concert", some 7200000, some 10800000, 1, 20, 1⟩ 0).1 = .capacityTooLow n) ↔
      (1 : Int) < 10 - 8) ∧
    putEvents mixedStore root 1 ⟨"Concert", some 7200000, some 10800000, 1, 20, 1⟩ 0 =
      (.capacityTooLow 2, mixedStore) ∧
    (putEvents mixedStore root 1 ⟨"Concert", some 7200000, some 10800000, 2, 20, 1⟩ 0).1 =
      .updated :=
  ⟨(C17_capacity_too_low mixedStore root 1 ⟨"Concert", some 7200000, some 10800000, 1, 20, 1⟩
      0 ⟨1, "Concert", some 7200000, some 10800000, 10, 8, 20, 1, 1⟩
      (by decide) (by decide) (by decide)).1,
   (C17_capacity_too_low mixedStore root 1 ⟨"Concert", some 7200000, some 10800000, 1, 20, 1⟩
      0 ⟨1, "Concert", some 7200000, some 10800000, 10, 8, 20, 1, 1⟩
      (by decide) (by decide) (by decide)).2 (by decide),
   by decide⟩

/-! ## Conflict scan -/

theorem createConflict_eq_find (startTime endTime : TimeValue) (l : List Event) :
    createConflict startTime endTime l = l.find? (hasOverlapCreate startTime endTime) := by
  induction l with
  | nil => rfl
  | cons x xs ih =>
    simp only [createConflict, List.find?]
    cases hx : hasOverlapCreate startTime endTime x with
    | true => simp
    | false => simpa using ih

theorem editConflict_eq_find (startTime endTime : TimeValue) (l : List Event) :
    editConflict startTime endTime l = l.find? (hasOverlapEdit startTime endTime) := by
  induction l with
  | nil => rfl
  | cons x xs ih =>
    simp only [editConflict, List.find?]
    cases hx : hasOverlapEdit startTime endTime x with
    | true => simp
    | false => simpa using ih

theorem find?_append_first {α : Type} (p : α → Bool) (pre post : List α) (x : α)
    (hpre : ∀ y ∈ pre, p y = false) (hx : p x = true) :
    (pre ++ x :: post).find? p = some x := by
  induction pre with
  | nil => simp [List.find?, hx]
  | cons a as ih =>
    have ha : p a = false := hpre a (List.mem_cons_self _ _)
    simp only [List.cons_append, List.find?, ha]
    exact ih (fun y hy => hpre y (List.mem_cons_of_mem _ hy))

/-- C19. For every list of existing events (in stored order) and every
candidate window, the conflict scan of create-event and the one of edit-event
return the first event of the list that satisfies the overlap test: an event
preceded only by events failing the test is the one reported, whatever follows
it; a reported event is in the list and satisfies the test; and the scan
reports no conflict exactly when no event of the list satisfies the test.  The
scans are functions of the list and the candidate alone. -/
theorem C19_conflict_scan_first (startTime endTime : TimeValue) (l : List Event) :
    createConflict startTime endTime l = l.find? (hasOverlapCreate startTime endTime) ∧
    editConflict startTime endTime l = l.find? (hasOverlapEdit startTime endTime) ∧
    (∀ pre post x, l = pre ++ x :: post →
      (∀ y ∈ pre, hasOverlapCreate startTime endTime y = false) →
      hasOverlapCreate startTime endTime x = true →
      createConflict startTime endTime l = some x ∧ editConflict startTime endTime l = some x) ∧
    (∀ x, createConflict startTime endTime l = some x →
      x ∈ l ∧ hasOverlapCreate startTime endTime x = true) ∧
    (∀ x, editConflict startTime endTime l = some x →
      x ∈ l ∧ hasOverlapEdit startTime endTime x = true) ∧
    (createConflict startTime endTime l = none ↔
      ∀ x ∈ l, hasOverlapCreate startTime endTime x = false) ∧
    (editConflict startTime endTime l = none ↔
      ∀ x ∈ l, hasOverlapEdit startTime endTime x = false) := by
  have hsame : ∀ y, hasOverlapEdit startTime endTime y = hasOverlapCreate startTime endTime y :=
    fun _ => rfl
  refine ⟨createConflict_eq_find _ _ _, editConflict_eq_find _ _ _, ?_, ?_, ?_, ?_, ?_⟩
  · intro pre post x hl hpre hx
    rw [createConflict_eq_find, editConflict_eq_find, hl]
    constructor
    · exact find?_append_first _ pre post x hpre hx
    · exact find?_append_first _ pre post x (fun y hy => by rw [hsame]; exact hpre y hy)
        (by rw [hsame]; exact hx)
  · intro x hx
    rw [createConflict_eq_find] at hx
    exact ⟨List.mem_of_find?_eq_some hx, List.find?_some hx⟩
  · intro x hx
    rw [editConflict_eq_find] at hx
    exact ⟨List.mem_of_find?_eq_some hx, List.find?_some hx⟩
  · rw [createConflict_eq_find, List.find?_eq_none]
    constructor
    · intro h x hx; simpa using h x hx
    · intro h x hx; simp [h x hx]
  · rw [editConflict_eq_find, List.find?_eq_none]
    constructor
    · intro h x hx; simpa using h x hx
    · intro h x hx; simp [h x hx]

theorem editValidation_some_kinds {startTime endTime : TimeValue} {now : Int}
    {err : EventResponse} (h : editValidation startTime endTime now = some err) :
    err = .endNotAfterStart ∨ err = .tooShort ∨ err = .startNotInFuture ∨ err = .tooLong := by
  unfold editValidation at h
  split at h
  · simp only [Option.some.injEq] at h; exact Or.inl h.symm
  · split at h
    · simp only [Option.some.injEq] at h; exact Or.inr (Or.inl h.symm)
    · split at h
      · simp only [Option.some.injEq] at h; exact Or.inr (Or.inr (Or.inl h.symm))
      · split at h
        · simp only [Option.some.injEq] at h; exact Or.inr (Or.inr (Or.inr h.symm))
        · simp at h

/-- An edit answers 409 exactly when validation and the ownership lookup pass
and the scan over the other events of the requested venue finds an event. -/
theorem putEvents_conflict_iff (s : Store) (user : SessionUser) (event_id : Nat)
    (form : EventForm) (now : Int) (x : Event) :
    (putEvents s user event_id form now).1 = .conflict x ↔
      editValidation form.date form.end_time now = none ∧
      (∃ event, s.events.find? (fun e => e.id == event_id && e.organizer_id == user.id) =
        some event) ∧
      editConflict form.date form.end_time (otherEventsAtVenue s form.venue_id event_id) =
        some x := by
  unfold putEvents
  split
  · rename_i err herr
    constructor
    · intro h
      simp only at h
      subst h
      rcases editValidation_some_kinds herr with h | h | h | h <;> cases h
    · rintro ⟨hv, _⟩
      rw [hv] at herr; cases herr
  · rename_i hval
    split
    · rename_i hown
      simp [hval, hown]
    · rename_i event hown
      split
      · rename_i existing hconf
        simp [hval, hown, hconf]
      · rename_i hconf
        simp only [hval, true_and]
        constructor
        · intro h
          exfalso
          split at h
          · simp at h
          · split at h <;> simp at h
        · rintro ⟨_, hc⟩
          rw [hconf] at hc
          cases hc

theorem mem_otherEventsAtVenue {s : Store} {venue_id event_id : Nat} {x : Event} :
    x ∈ otherEventsAtVenue s venue_id event_id ↔
      x ∈ s.events ∧ x.venue_id = venue_id ∧ x.id ≠ event_id := by
  simp [otherEventsAtVenue, List.mem_filter]

/-- C20. On edit-event the edited event is left out of the conflict scan: an
event named in a 409 answer is a stored event other than the edited one, at
the requested venue, that satisfies the overlap test; when no other event at
the requested venue satisfies the test the edit is never answered 409 (in
particular when the venue holds no other event, whatever the stored window of
the edited event); and when validation and the ownership lookup pass and some
other event at the requested venue satisfies the test, the answer is a 409. -/
theorem C20_edit_scan_excludes_self (s : Store) (user : SessionUser) (event_id : Nat)
    (form : EventForm) (now : Int) :
    (∀ x, (putEvents s user event_id form now).1 = .conflict x →
      x ∈ s.events ∧ x.id ≠ event_id ∧ x.venue_id = form.venue_id ∧
        hasOverlapEdit form.date form.end_time x = true) ∧
    ((∀ x ∈ s.events, x.venue_id = form.venue_id → x.id ≠ event_id →
        hasOverlapEdit form.date form.end_time x = false) →
      ∀ x, (putEvents s user event_id form now).1 ≠ .conflict x) ∧
    (editValidation form.date form.end_time now = none →
      (∃ event, s.events.find? (fun e => e.id == event_id && e.organizer_id == user.id) =
        some event) →
      (∃ x ∈ s.events, x.venue_id = form.venue_id ∧ x.id ≠ event_id ∧
        hasOverlapEdit form.date form.end_time x = true) →
      ∃ y, (putEvents s user event_id form now).1 = .conflict y) := by
  refine ⟨?_, ?_, ?_⟩
  · intro x hx
    obtain ⟨_, _, hconf⟩ := (putEvents_conflict_iff s user event_id form now x).mp hx
    rw [editConflict_eq_find] at hconf
    have hmem := mem_otherEventsAtVenue.mp (List.mem_of_find?_eq_some hconf)
    exact ⟨hmem.1, hmem.2.2, hmem.2.1, List.find?_some hconf⟩
  · intro hnone x hx
    obtain ⟨_, _, hconf⟩ := (putEvents_conflict_iff s user event_id form now x).mp hx
    rw [editConflict_eq_find] at hconf
    have hmem := mem_otherEventsAtVenue.mp (List.mem_of_find?_eq_some hconf)
    have := hnone x hmem.1 hmem.2.1 hmem.2.2
    rw [List.find?_some hconf] at this
    cases this
  · intro hval hown ⟨x, hx, hxv, hxid, hov⟩
    have hsome : ∃ y, editConflict form.date form.end_time
        (otherEventsAtVenue s form.venue_id event_id) = some y := by
      rw [editConflict_eq_find]
      apply Option.isSome_iff_exists.mp
      rw [List.find?_isSome]
      exact ⟨x, mem_otherEventsAtVenue.mpr ⟨hx, hxv, hxid⟩, hov⟩
    obtain ⟨y, hy⟩ := hsome
    exact ⟨y, (putEvents_conflict_iff s user event_id form now y).mpr ⟨hval, hown, hy⟩⟩

/-- Re-saving event A with its stored window (no other event at venue 1) is
accepted, while the same window is a conflict for a second event at venue 1. -/
theorem C20_edit_scan_excludes_self_witness :
    (∀ x, (putEvents storeA root 1 ⟨"A", some 36000000, some 39600000, 10, 20, 1⟩ 0).1 ≠
      .conflict x) ∧
    putEvents storeA root 1 ⟨"A", some 36000000, some 39600000, 10, 20, 1⟩ 0 =
      (.updated, storeA) ∧
    (postEvents storeA root ⟨"A", some 36000000, some 39600000, 10, 20, 1⟩ 0).1 =
      .conflict eventA :=
  ⟨(C20_edit_scan_excludes_self storeA root 1 ⟨"A", some 36000000, some 39600000, 10, 20, 1⟩
      0).2.1 (by decide),
   by decide, by decide⟩

theorem mem_cancel_store (s : Store) (user : SessionUser) (ticket_id : String) (now : Int) :
    (postCancelTicket s user ticket_id now).2 = s ∨
      ∃ price title, (postCancelTicket s user ticket_id now).1 = .cancelled price title := by
  unfold postCancelTicket
  split
  · exact Or.inl rfl
  · split
    · exact Or.inl rfl
    · exact Or.inr ⟨_, _, rfl⟩

/-! ## Bounds on `seats_left` -/

theorem postEvents_store (s : Store) (user : SessionUser) (form : EventForm) (now : Int) :
    (postEvents s user form now).2 = s ∨
      ∃ eventId, (postEvents s user form now).1 = .created eventId := by
  unfold postEvents
  split
  · exact Or.inl rfl
  · split
    · exact Or.inl rfl
    · split
      · exact Or.inr ⟨_, rfl⟩
      · exact Or.inl rfl

/-- An edit leaves the store as it is or rewrites the edited event with a
non-negative `seats_left`. -/
theorem putEvents_store (s : Store) (user : SessionUser) (event_id : Nat) (form : EventForm)
    (now : Int) :
    (putEvents s user event_id form now).2 = s ∨
      ∃ event, s.events.find? (fun e => e.id == event_id && e.organizer_id == user.id) =
          some event ∧
        0 ≤ form.capacity - (event.capacity - event.seats_left) ∧
        (putEvents s user event_id form now).1 = .updated ∧
        (putEvents s user event_id form now).2 =
          { s with
            events := updateEvent s.events form
              (form.capacity - (event.capacity - event.seats_left)) event_id user.id } := by
  unfold putEvents
  split
  · exact Or.inl rfl
  · split
    · exact Or.inl rfl
    · rename_i event hown
      split
      · exact Or.inl rfl
      · dsimp only
        split
        · exact Or.inl rfl
        · rename_i hneg
          split
          · exact Or.inr ⟨event, hown, by omega, rfl, rfl⟩
          · exact Or.inl rfl

theorem mem_updateEvent {events : List Event} {form : EventForm} {newSeatsLeft : Int}
    {event_id organizer_id : Nat} {e1 : Event}
    (h : e1 ∈ updateEvent events form newSeatsLeft event_id organizer_id) :
    ∃ e ∈ events, e1.id = e.id ∧
      (e1 = e ∨ (e.id = event_id ∧ e.organizer_id = organizer_id ∧
        e1.capacity = form.capacity ∧ e1.seats_left = newSeatsLeft)) := by
  simp only [updateEvent, List.mem_map] at h
  obtain ⟨e, he, rfl⟩ := h
  refine ⟨e, he, ?_⟩
  by_cases hc : e.id = event_id ∧ e.organizer_id = organizer_id
  · simp [hc.1, hc.2]
  · have : (e.id == event_id && e.organizer_id == organizer_id) = false := by
      simpa using hc
    simp [this]

theorem updateEvent_ids (events : List Event) (form : EventForm) (newSeatsLeft : Int)
    (event_id organizer_id : Nat) :
    (updateEvent events form newSeatsLeft event_id organizer_id).map (fun e => e.id) =
      events.map (fun e => e.id) := by
  simp only [updateEvent, List.map_map]
  apply List.map_congr_left
  intro e _
  simp only [Function.comp]
  split <;> rfl

theorem wf_putEvents {s : Store} (hwf : s.WF) (user : SessionUser) (event_id : Nat)
    (form : EventForm) (now : Int) : (putEvents s user event_id form now).2.WF := by
  rcases putEvents_store s user event_id form now with hs | ⟨event, _, _, _, hst⟩
  · rw [hs]; exact hwf
  · rw [hst]
    refine ⟨?_, hwf.2.1, ?_, ?_⟩
    · simp only [updateEvent_ids]; exact hwf.1
    · intro r hr
      obtain ⟨e0, he0, he0id⟩ := hwf.2.2.1 r hr
      have hn : r.event_id ∈ (updateEvent s.events form
          (form.capacity - (event.capacity - event.seats_left)) event_id user.id).map
          (fun x => x.id) := by
        rw [updateEvent_ids]
        exact he0id ▸ mem_ids_of_mem he0
      exact exists_of_mem_ids hn
    · intro e1 he1
      obtain ⟨e0, he0, hid, _⟩ := mem_updateEvent he1
      have := hwf.2.2.2 e0 he0
      simp only
      omega

/-- A successful edit keeps the seat accounting equation. -/
theorem seatInv_putEvents {s : Store} (hwf : s.WF) (hinv : SeatInv s) (user : SessionUser)
    (event_id : Nat) (form : EventForm) (now : Int) :
    SeatInv (putEvents s user event_id form now).2 := by
  rcases putEvents_store s user event_id form now with hs | ⟨event, hown, _, _, hst⟩
  · rw [hs]; exact hinv
  · rw [hst]
    intro e1 he1
    obtain ⟨e0, he0, hid, hcase⟩ := mem_updateEvent he1
    have hold := hinv e0 he0
    have hcount : ticketCount
        { s with
          events := updateEvent s.events form
            (form.capacity - (event.capacity - event.seats_left)) event_id user.id } e1.id =
        ticketCount s e0.id := by
      simp only [ticketCount, hid]
    rw [hcount]
    rcases hcase with h | ⟨hid0, _, hcap, hseats⟩
    · rw [h]; exact hold
    · have hevm : event ∈ s.events := List.mem_of_find?_eq_some hown
      have hevid : event.id = event_id := by
        have := List.find?_some hown
        simp only [Bool.and_eq_true, beq_iff_eq] at this
        exact this.1
      have : e0 = event :=
        List.inj_on_of_nodup_map hwf.1 he0 hevm (by simp only [hid0, hevid])
      subst this
      rw [hcap, hseats]
      omega

/-- The invariant behind the bounds: schema constraints, seat accounting and
non-negative `seats_left`. -/
theorem seatBounds_step {s : Store} (hwf : s.WF) (hinv : SeatInv s)
    (hnn : ∀ e ∈ s.events, 0 ≤ e.seats_left) (op : SystemOp) (hcap : op.capacityNonneg) :
    (op.apply s).WF ∧ SeatInv (op.apply s) ∧ ∀ e ∈ (op.apply s).events, 0 ≤ e.seats_left := by
  cases op with
  | create user form now =>
    refine ⟨wf_postEvents hwf user form now, ?_, ?_⟩
    · rcases postEvents_store s user form now with hs | ⟨eventId, h⟩
      · simp only [SystemOp.apply]; rw [hs]; exact hinv
      · exact (seatInv_postEvents hwf hinv h).1
    · rcases postEvents_store s user form now with hs | ⟨eventId, h⟩
      · simp only [SystemOp.apply]; rw [hs]; exact hnn
      · obtain ⟨_, _, _, _, hst⟩ := postEvents_created h
        simp only [SystemOp.apply]
        rw [hst]
        intro e he
        simp only [List.mem_append, List.mem_singleton] at he
        rcases he with he | he
        · exact hnn e he
        · subst he
          exact hcap
  | edit user event_id form now =>
    refine ⟨wf_putEvents hwf user event_id form now,
      seatInv_putEvents hwf hinv user event_id form now, ?_⟩
    rcases putEvents_store s user event_id form now with hs | ⟨event, _, hge, _, hst⟩
    · simp only [SystemOp.apply]; rw [hs]; exact hnn
    · simp only [SystemOp.apply]
      rw [hst]
      intro e1 he1
      obtain ⟨e0, he0, _, hcase⟩ := mem_updateEvent he1
      rcases hcase with h | ⟨_, _, _, hseats⟩
      · rw [h]; exact hnn e0 he0
      · rw [hseats]; exact hge
  | reserve user event_id quantity rand =>
    refine ⟨wf_postRsvp hwf user event_id quantity rand, ?_, ?_⟩
    · rcases postRsvp_store s user event_id quantity rand with hs | ⟨qty, ids, h⟩
      · simp only [SystemOp.apply]; rw [hs]; exact hinv
      · exact seatInv_postRsvp hinv h
    · rcases postRsvp_store s user event_id quantity rand with hs | ⟨qty, ids, h⟩
      · simp only [SystemOp.apply]; rw [hs]; exact hnn
      · obtain ⟨e, _, _, _, he, _, hseats, _, hst⟩ := postRsvp_created h
        obtain ⟨hemem, heid⟩ := findEvent_some he
        simp only [SystemOp.apply]
        rw [hst]
        intro e1 he1
        obtain ⟨e0, he0, _, _, hs1⟩ := mem_addSeats he1
        rw [hs1]
        by_cases hc : e0.id = event_id
        · have : e0 = e := List.inj_on_of_nodup_map hwf.1 he0 hemem (by simp only [hc, heid])
          subst this
          simp only [hc, if_true]
          omega
        · simp only [hc, if_false]
          have := hnn e0 he0
          omega
  | release user ticket_id now =>
    refine ⟨wf_postCancelTicket hwf user ticket_id now, ?_, ?_⟩
    · cases hresp : (postCancelTicket s user ticket_id now).1 with
      | cancelled price title => exact seatInv_postCancelTicket hwf hinv hresp
      | ticketNotFound =>
        rcases mem_cancel_store s user ticket_id now with hs | ⟨p, t, h⟩
        · simp only [SystemOp.apply]; rw [hs]; exact hinv
        · rw [hresp] at h; cases h
      | cancellationNotAllowed =>
        rcases mem_cancel_store s user ticket_id now with hs | ⟨p, t, h⟩
        · simp only [SystemOp.apply]; rw [hs]; exact hinv
        · rw [hresp] at h; cases h
    · rcases mem_cancel_store s user ticket_id now with hs | ⟨p, t, h⟩
      · simp only [SystemOp.apply]; rw [hs]; exact hnn
      · obtain ⟨r, e, _, _, _, _, hst⟩ := postCancelTicket_cancelled h
        simp only [SystemOp.apply]
        rw [hst]
        intro e1 he1
        obtain ⟨e0, he0, _, _, hs1⟩ := mem_addSeats he1
        rw [hs1]
        have := hnn e0 he0
        split <;> omega

theorem seatBounds_run {s : Store} (hwf : s.WF) (hinv : SeatInv s)
    (hnn : ∀ e ∈ s.events, 0 ≤ e.seats_left) (ops : List SystemOp)
    (hcap : ∀ op ∈ ops, op.capacityNonneg) :
    (runSystem s ops).WF ∧ SeatInv (runSystem s ops) ∧
      ∀ e ∈ (runSystem s ops).events, 0 ≤ e.seats_left := by
  induction ops generalizing s with
  | nil => exact ⟨hwf, hinv, hnn⟩
  | cons op ops ih =>
    obtain ⟨h1, h2, h3⟩ := seatBounds_step hwf hinv hnn op (hcap op (List.mem_cons_self _ _))
    exact ih h1 h2 h3 (fun o ho => hcap o (List.mem_cons_of_mem _ ho))

/-- C18 as stated fails: from the empty store (venue 1 exists) one create-event
with capacity -5 and a valid future window is accepted and stores an event
with `seats_left = -5`. -/
theorem C18_stated_counterexample :
    (postEvents (emptyStore [⟨1, "Hall", "Main campus", 1⟩]) root negativeCapacityForm 0).1 =
      .created 1 ∧
    (⟨1, "Lecture", some 18000000, some 21600000, -5, -5, 5, 1, 1⟩ : Event) ∈
      (runSystem (emptyStore [⟨1, "Hall", "Main campus", 1⟩])
        [.create root negativeCapacityForm 0]).events ∧
    ¬ SeatBounds (runSystem (emptyStore [⟨1, "Hall", "Main campus", 1⟩])
        [.create root negativeCapacityForm 0]) := by
  decide

/-- C18 (amended). In every state reached from the empty store through
create-event, edit-event, reserve and release calls in which no create-event
carries a negative capacity, every event satisfies `0 <= seats_left <=
capacity`. -/
theorem C18_seat_bounds (venues : List Venue) (ops : List SystemOp)
    (hcap : ∀ op ∈ ops, op.capacityNonneg) :
    SeatBounds (runSystem (emptyStore venues) ops) := by
  have hwf : (emptyStore venues).WF := by
    refine ⟨List.nodup_nil, List.nodup_nil, ?_, ?_⟩
    · intro r hr; cases hr
    · intro e he; cases he
  have hinv : SeatInv (emptyStore venues) := by
    intro e he; cases he
  have hnn : ∀ e ∈ (emptyStore venues).events, 0 ≤ e.seats_left := by
    intro e he; cases he
  obtain ⟨_, hinv1, hnn1⟩ := seatBounds_run hwf hinv hnn ops hcap
  intro e he
  refine ⟨hnn1 e he, ?_⟩
  have := hinv1 e he
  omega

theorem C18_seat_bounds_witness :
    SeatBounds (runSystem (emptyStore [⟨1, "Hall", "Main campus", 1⟩])
      [.create root demoForm 0, .reserve alice 1 (some 3) demoRand,
       .edit root 1 ⟨"Lecture", some 18000000, some 21600000, 3, 5, 1⟩ 0,
       .release alice "TKT-00000002" 0]) ∧
    (runSystem (emptyStore [⟨1, "Hall", "Main campus", 1⟩])
      [.create root demoForm 0, .reserve alice 1 (some 3) demoRand,
       .edit root 1 ⟨"Lecture", some 18000000, some 21600000, 3, 5, 1⟩ 0,
       .release alice "TKT-00000002" 0]).events =
      [⟨1, "Lecture", some 18000000, some 21600000, 3, 1, 5, 1, 1⟩] :=
  ⟨C18_seat_bounds [⟨1, "Hall", "Main campus", 1⟩]
      [.create root demoForm 0, .reserve alice 1 (some 3) demoRand,
       .edit root 1 ⟨"Lecture", some 18000000, some 21600000, 3, 5, 1⟩ 0,
       .release alice "TKT-00000002" 0]
      (by
        intro op hop
        simp only [List.mem_cons, List.mem_singleton, List.not_mem_nil, or_false] at hop
        rcases hop with h | h | h | h <;> subst h
        · show (0 : Int) ≤ 50
          decide
        · trivial
        · trivial
        · trivial),
   by decide⟩

/-! ## Quantity validation -/

theorem qtyRejected_of_out_of_range {quantity : Option Int}
    (h : ∀ n, quantity = some n → n < 1 ∨ 4 < n) : qtyRejected quantity = true := by
  cases quantity with
  | none => rfl
  | some q =>
    rcases h q rfl with hq | hq
    · simp [qtyRejected, hq]
    · simp [qtyRejected, hq]

/-- C21 as stated fails: an admin session sends quantity "0" (which parses to
0, outside 1..4); the call is rejected by the role guard with 403 "Admins
cannot get tickets.", not as an invalid quantity. -/
theorem C21_stated_counterexample :
    parseInt10 "0" = some 0 ∧ ¬ ((1 : Int) ≤ 0 ∧ (0 : Int) ≤ 4) ∧
    postRsvp demoStore root 1 (parseInt10 "0") demoRand =
      (.adminsCannotGetTickets, demoStore) ∧
    (postRsvp demoStore root 1 (parseInt10 "0") demoRand).1 ≠ .invalidQuantity := by
  decide

/-- C21 (amended). Every reserve call by a non-admin user whose quantity does
not parse to an integer in 1..4 (no number at all, 0, negative, greater than
4) is answered 400 "Invalid quantity" with the store unchanged, whatever the
store holds (no ticket count or seat count enters the answer); and every
successful booking call, by any user, creates between 1 and 4 tickets. -/
theorem C21_quantity_validation (s : Store) (user : SessionUser) (event_id : Nat)
    (quantity : Option Int) (rand : Nat → String) :
    (user.role ≠ "admin" → (∀ n, quantity = some n → n < 1 ∨ 4 < n) →
      postRsvp s user event_id quantity rand = (.invalidQuantity, s)) ∧
    (∀ qty ids, (postRsvp s user event_id quantity rand).1 = .created qty ids →
      quantity = some qty ∧ 1 ≤ qty ∧ qty ≤ 4 ∧ (ids.length : Int) = qty ∧
      (postRsvp s user event_id quantity rand).2.rsvps.length =
        s.rsvps.length + ids.length) := by
  constructor
  · intro hrole hbad
    have hr : (user.role == "admin") = false := by simpa using hrole
    unfold postRsvp
    simp only [hr, qtyRejected_of_out_of_range hbad, Bool.false_eq_true, if_false, if_true]
  · intro qty ids h
    obtain ⟨e, hq, h1, h4, _, _, _, hids, hst⟩ := postRsvp_created h
    refine ⟨hq, h1, h4, ?_, ?_⟩
    · rw [hids]; exact ticketsGenerated_length rand qty (by omega)
    · rw [hst]; simp

theorem C21_quantity_validation_witness :
    parseInt10 "abc" = none ∧
    postRsvp demoStore alice 1 (parseInt10 "abc") demoRand = (.invalidQuantity, demoStore) ∧
    postRsvp demoStore alice 1 (parseInt10 "0") demoRand = (.invalidQuantity, demoStore) ∧
    postRsvp demoStore alice 1 (parseInt10 "-2") demoRand = (.invalidQuantity, demoStore) ∧
    postRsvp demoStore alice 1 (parseInt10 "5") demoRand = (.invalidQuantity, demoStore) ∧
    (postRsvp demoStore alice 1 (parseInt10 " 2") demoRand).1 =
      .created 2 ["TKT-00000001", "TKT-00000002"] ∧
    (postRsvp demoStore alice 1 (parseInt10 " 2") demoRand).2.rsvps.length =
      demoStore.rsvps.length + 2 :=
  ⟨by decide,
   (C21_quantity_validation demoStore alice 1 (parseInt10 "abc") demoRand).1 (by decide)
      (by decide),
   (C21_quantity_validation demoStore alice 1 (parseInt10 "0") demoRand).1 (by decide)
      (by decide),
   (C21_quantity_validation demoStore alice 1 (parseInt10 "-2") demoRand).1 (by decide)
      (by decide),
   (C21_quantity_validation demoStore alice 1 (parseInt10 "5") demoRand).1 (by decide)
      (by decide),
   by decide,
   ((C21_quantity_validation demoStore alice 1 (parseInt10 " 2") demoRand).2 2
      ["TKT-00000001", "TKT-00000002"] (by decide)).2.2.2.2⟩

/-! ## Report -/

/-- The report handler once the ownership lookup has found the event. -/
theorem getReport_eval {s : Store} {user : SessionUser} {event_id : Nat} (now : Int)
    {event : Event}
    (hown : s.events.find? (fun e => e.id == event_id && e.organizer_id == user.id) =
      some event) :
    getReport s user event_id now =
      if dateGt event.end_time (some now) then .notAvailable
      else .report ⟨event.title, event.end_time, event.price, event.capacity,
        (eventRsvps s event_id).length,
        ((eventRsvps s event_id).filter (fun r => r.status == Status.checked_in)).length⟩ := by
  unfold getReport
  simp only [hown]

theorem dateGt_some_iff (t : TimeValue) (now : Int) :
    dateGt t (some now) = true ↔ ∃ d, t = some d ∧ d > now := by
  cases t with
  | none => simp [dateGt, dateLt]
  | some d => simp [dateGt, dateLt]

theorem dateLt_some_iff (t : TimeValue) (now : Int) :
    dateLt t (some now) = true ↔ ∃ d, t = some d ∧ d < now := by
  cases t with
  | none => simp [dateLt]
  | some d => simp [dateLt]

/-- The integer figures of a report: tickets sold is the number of ticket rows
of the event, checked in the number of those with status checked_in. -/
theorem getReport_counts {s : Store} {user : SessionUser} {event_id : Nat} {now : Int}
    {data : ReportData} (h : getReport s user event_id now = .report data) :
    data.totalTicketsSold = ticketCount s event_id ∧
    data.totalCheckedIn =
      s.rsvps.countP (fun r => r.event_id == event_id && r.status == Status.checked_in) ∧
    data.totalCheckedIn ≤ data.totalTicketsSold := by
  unfold getReport at h
  split at h
  · cases h
  · split at h
    · cases h
    · simp only [ReportResponse.report.injEq] at h
      subst h
      refine ⟨?_, ?_, ?_⟩
      · simp only [eventRsvps, ticketCount, List.countP_eq_length_filter]
      · simp only [eventRsvps, List.countP_eq_length_filter, List.filter_filter]
        congr 1
        apply List.filter_congr
        intro x _
        exact Bool.and_comm _ _
      · exact List.length_filter_le _ _

/-- C23 as stated fails: for an event of the caller that ends exactly at the
current time, `end_time < now` is false, yet the server computes the report
(its gate rejects only `end_time > now`), while the dashboard button is
disabled (its test is `end_time < now`). -/
theorem C23_stated_counterexample :
    finishedStore.events.find? (fun e => e.id == 1 && e.organizer_id == root.id) =
      some ⟨1, "Concert", some 100, some 1000, 10, 8, 20, 1, 1⟩ ∧
    ¬ ((1000 : Int) < 1000) ∧
    getReport finishedStore root 1 1000 = .report ⟨"Concert", some 1000, 20, 10, 2, 1⟩ ∧
    getReport finishedStore root 1 1000 ≠ .notAvailable ∧
    reportButtonEnabled ⟨1, "Concert", some 100, some 1000, 10, 8, 20, 1, 1⟩ 1000 = false := by
  decide

/-- C23 (amended). For every event owned by the caller, getReport fails with
ReportNotReady exactly when `end_time > now` and computes the report when
`end_time <= now`; the admin dashboard enables the View Report button exactly
when `end_time < now`; so for an event whose `end_time` is a valid date other
than `now`, the button is enabled exactly when the server computes the
report. -/
theorem C23_report_gate (s : Store) (user : SessionUser) (event_id : Nat) (now : Int)
    (event : Event)
    (hown : s.events.find? (fun e => e.id == event_id && e.organizer_id == user.id) =
      some event) :
    (getReport s user event_id now = .notAvailable ↔
      ∃ d, event.end_time = some d ∧ d > now) ∧
    (∀ d, event.end_time = some d → d ≤ now →
      ∃ data, getReport s user event_id now = .report data) ∧
    (reportButtonEnabled event now = true ↔ ∃ d, event.end_time = some d ∧ d < now) ∧
    (∀ d, event.end_time = some d → d ≠ now →
      (reportButtonEnabled event now = true ↔
        ∃ data, getReport s user event_id now = .report data)) := by
  have hgate := dateGt_some_iff event.end_time now
  have hbtn : reportButtonEnabled event now = true ↔
      ∃ d, event.end_time = some d ∧ d < now := dateLt_some_iff event.end_time now
  have hna : getReport s user event_id now = .notAvailable ↔
      dateGt event.end_time (some now) = true := by
    rw [getReport_eval now hown]
    split
    · rename_i h; simp [h]
    · rename_i h; simp [h]
  have hrep : (∃ data, getReport s user event_id now = .report data) ↔
      ¬ dateGt event.end_time (some now) = true := by
    rw [getReport_eval now hown]
    split
    · rename_i h; simp [h]
    · rename_i h; simp [h]
  refine ⟨hna.trans hgate, ?_, hbtn, ?_⟩
  · intro d hd hle
    rw [hrep, hgate]
    rintro ⟨d1, hd1, hgt⟩
    rw [hd] at hd1
    simp only [Option.some.injEq] at hd1
    omega
  · intro d hd hne
    rw [hbtn, hrep, hgate]
    constructor
    · rintro ⟨d1, hd1, hlt⟩ ⟨d2, hd2, hgt⟩
      rw [hd1] at hd2
      simp only [Option.some.injEq] at hd2
      omega
    · intro hno
      refine ⟨d, hd, ?_⟩
      by_contra hge
      exact hno ⟨d, hd, by omega⟩

theorem C23_report_gate_witness :
    getReport finishedStore root 1 999 = .notAvailable ∧
    (∃ data, getReport finishedStore root 1 1001 = .report data) ∧
    reportButtonEnabled ⟨1, "Concert", some 100, some 1000, 10, 8, 20, 1, 1⟩ 1001 = true ∧
    reportButtonEnabled ⟨1, "Concert", some 100, some 1000, 10, 8, 20, 1, 1⟩ 999 = false :=
  ⟨(C23_report_gate finishedStore root 1 999
      ⟨1, "Concert", some 100, some 1000, 10, 8, 20, 1, 1⟩ (by decide)).1.mpr
      ⟨1000, rfl, by decide⟩,
   (C23_report_gate finishedStore root 1 1001
      ⟨1, "Concert", some 100, some 1000, 10, 8, 20, 1, 1⟩ (by decide)).2.1 1000 rfl
      (by decide),
   by decide, by decide⟩

/-! ## Create, edit and client validation compared -/

theorem editValidation_eq_create (startTime endTime : TimeValue) (now : Int) :
    editValidation startTime endTime now = createValidation startTime endTime now := rfl

/-- The outcome of the four checks on valid dates, rule by rule. -/
theorem createValidation_valid_cases (st en now : Int) :
    createValidation (some st) (some en) now =
      if en ≤ st then some .endNotAfterStart
      else if en - st < 15 * 60000 then some .tooShort
      else if st ≤ now then some .startNotInFuture
      else if en - st > 8 * 3600000 then some .tooLong
      else none := by
  unfold createValidation
  simp only [dateLe, dateLt, dateGt, TimeValue.plus, decide_eq_true_eq]
  split_ifs <;> first | rfl | (exfalso; omega)

/-- A valid start that is not in the future is rejected by the four checks,
whatever the end. -/
theorem createValidation_past_start (st : Int) (endTime : TimeValue) (now : Int)
    (h : st ≤ now) : createValidation (some st) endTime now ≠ none := by
  unfold createValidation
  have h3 : dateLe (some st) (some now) = true := by simp [dateLe, h]
  split
  · simp
  · split
    · simp
    · simp [h3]

/-- C24 as stated fails: there is no window and current time for which the
validation of edit-event accepts while the one of create-event rejects (with
or without `start <= now`, valid dates or not). -/
theorem C24_stated_counterexample :
    ¬ ∃ (startTime endTime : TimeValue) (now : Int),
      editValidation startTime endTime now = none ∧
      createValidation startTime endTime now ≠ none := by
  rintro ⟨startTime, endTime, now, hedit, hcreate⟩
  rw [editValidation_eq_create] at hedit
  exact hcreate hedit

/-- C24 (amended). Edit-event validation re-checks `start > now` exactly as
create-event does: for every window and current time the two validations give
the same result (same acceptance, same rejecting rule), and a window whose
start is a valid date with `start <= now` is rejected by both. -/
theorem C24_edit_validation_same_as_create (startTime endTime : TimeValue) (now : Int) :
    editValidation startTime endTime now = createValidation startTime endTime now ∧
    (∀ st : Int, startTime = some st → st ≤ now →
      editValidation startTime endTime now ≠ none ∧
      createValidation startTime endTime now ≠ none) ∧
    (∀ st en : Int, startTime = some st → endTime = some en → st ≤ now → st < en →
      15 * 60000 ≤ en - st →
      editValidation startTime endTime now = some .startNotInFuture) := by
  refine ⟨rfl, ?_, ?_⟩
  · intro st hst hle
    subst hst
    rw [editValidation_eq_create]
    exact ⟨createValidation_past_start st endTime now hle,
      createValidation_past_start st endTime now hle⟩
  · intro st en hst hen hle hlt hdur
    subst hst hen
    rw [editValidation_eq_create, createValidation_valid_cases]
    split_ifs <;> first | rfl | (exfalso; omega)

/-- C28. For every pair of start and end times (valid dates or not) and every
current time, the client-side `validateEventTimes` returns valid exactly when
the create-event validation accepts and exactly when the edit-event validation
accepts; when it rejects, its message is the one of the rule by which both
server validations reject; and on valid dates that rule is the first failing
one in the order end <= start, duration < 15 min, start <= now, duration > 8 h. -/
theorem C28_client_validation_agrees (startTime endTime : TimeValue) (now : Int) :
    (validateEventTimes startTime endTime now = .valid ↔
      createValidation startTime endTime now = none) ∧
    (validateEventTimes startTime endTime now = .valid ↔
      editValidation startTime endTime now = none) ∧
    (∀ rule, validateEventTimes startTime endTime now = .invalid rule ↔
      createValidation startTime endTime now = some rule) ∧
    (∀ rule, validateEventTimes startTime endTime now = .invalid rule ↔
      editValidation startTime endTime now = some rule) ∧
    (∀ st en : Int, startTime = some st → endTime = some en →
      validateEventTimes startTime endTime now =
        if en ≤ st then .invalid .endNotAfterStart
        else if en - st < 15 * 60000 then .invalid .tooShort
        else if st ≤ now then .invalid .startNotInFuture
        else if en - st > 8 * 3600000 then .invalid .tooLong
        else .valid) := by
  have hclient : validateEventTimes startTime endTime now =
      match createValidation startTime endTime now with
      | none => .valid
      | some rule => .invalid rule := by
    unfold validateEventTimes createValidation
    split
    · rfl
    · split
      · rfl
      · split
        · rfl
        · split <;> rfl
  have hv : validateEventTimes startTime endTime now = .valid ↔
      createValidation startTime endTime now = none := by
    rw [hclient]
    cases createValidation startTime endTime now <;> simp
  have hi : ∀ rule, validateEventTimes startTime endTime now = .invalid rule ↔
      createValidation startTime endTime now = some rule := by
    intro rule
    rw [hclient]
    cases createValidation startTime endTime now <;> simp
  refine ⟨hv, ?_, hi, ?_, ?_⟩
  · rw [editValidation_eq_create]; exact hv
  · intro rule; rw [editValidation_eq_create]; exact hi rule
  · intro st en hst hen
    subst hst hen
    rw [hclient, createValidation_valid_cases]
    split_ifs <;> rfl

/-! ## Requests whose dates do not parse -/

theorem createValidation_invalid_start (endTime : TimeValue) (now : Int) :
    createValidation none endTime now = none := by
  cases endTime <;> rfl

theorem createValidation_invalid_end (st now : Int) (h : now < st) :
    createValidation (some st) none now = none := by
  unfold createValidation
  simp [dateLe, dateLt, dateGt, TimeValue.plus, h]

theorem hasOverlapCreate_invalid (startTime endTime : TimeValue) (existing : Event)
    (h : startTime = none ∨ endTime = none) :
    hasOverlapCreate startTime endTime existing = false := by
  unfold hasOverlapCreate
  rcases h with h | h
  · subst h
    cases existing.end_time <;> simp [TimeValue.plus, dateLt]
  · subst h
    cases existing.date <;> simp [TimeValue.plus, dateLt, dateGt]

theorem createConflict_invalid (startTime endTime : TimeValue) (l : List Event)
    (h : startTime = none ∨ endTime = none) : createConflict startTime endTime l = none := by
  rw [createConflict_eq_find, List.find?_eq_none]
  intro x _
  simp [hasOverlapCreate_invalid startTime endTime x h]

theorem editConflict_invalid (startTime endTime : TimeValue) (l : List Event)
    (h : startTime = none ∨ endTime = none) : editConflict startTime endTime l = none := by
  rw [editConflict_eq_find, List.find?_eq_none]
  intro x _
  have : hasOverlapEdit startTime endTime x = false :=
    hasOverlapCreate_invalid startTime endTime x h
  simp [this]

/-- C30 as stated fails: the end string does not parse, the start is a valid
date that is not in the future (start 0, current time 1000); the third check
rejects the request with 400 "Event start time must be in the future", in
create-event, in edit-event and in the client. -/
theorem C30_stated_counterexample :
    createValidation (some 0) none 1000 = some .startNotInFuture ∧
    editValidation (some 0) none 1000 = some .startNotInFuture ∧
    validateEventTimes (some 0) none 1000 = .invalid .startNotInFuture ∧
    postEvents demoStore root ⟨"Ghost", some 0, none, 50, 5, 1⟩ 1000 =
      (.startNotInFuture, demoStore) := by
  decide

/-- C30 (amended). When the start string of a create-event or edit-event
request does not parse to a valid date, or the end string does not parse and
the start is a valid date in the future, none of the four time checks rejects
the request (in create-event, in edit-event and in the client-side
`validateEventTimes`) and the overlap test is false for every existing event,
so the request passes validation and conflict checking; create-event then
stores the event with these dates when the venue exists. -/
theorem C30_invalid_dates_pass (startTime endTime : TimeValue) (now : Int)
    (h : startTime = none ∨ (endTime = none ∧ ∃ st, startTime = some st ∧ now < st)) :
    createValidation startTime endTime now = none ∧
    editValidation startTime endTime now = none ∧
    validateEventTimes startTime endTime now = .valid ∧
    (∀ existing, hasOverlapCreate startTime endTime existing = false ∧
      hasOverlapEdit startTime endTime existing = false) ∧
    (∀ l, createConflict startTime endTime l = none ∧
      editConflict startTime endTime l = none) ∧
    (∀ (s : Store) (user : SessionUser) (title : String) (capacity : Int) (price : Rat)
        (venue_id : Nat), venueExists s venue_id = true →
      postEvents s user ⟨title, startTime, endTime, capacity, price, venue_id⟩ now =
        (.created (s.eventSeq + 1),
          { s with
            events := s.events ++ [⟨s.eventSeq + 1, title, startTime, endTime, capacity,
              capacity, price, user.id, venue_id⟩],
            eventSeq := s.eventSeq + 1 })) := by
  have hinv : startTime = none ∨ endTime = none := by
    rcases h with h | ⟨h, _⟩
    · exact Or.inl h
    · exact Or.inr h
  have hval : createValidation startTime endTime now = none := by
    rcases h with h | ⟨he, st, hs, hlt⟩
    · subst h; exact createValidation_invalid_start endTime now
    · subst he hs; exact createValidation_invalid_end st now hlt
  have hclient : validateEventTimes startTime endTime now = .valid := by
    have : validateEventTimes startTime endTime now =
        match createValidation startTime endTime now with
        | none => .valid
        | some rule => .invalid rule := by
      unfold validateEventTimes createValidation
      split_ifs <;> rfl
    rw [this, hval]
  refine ⟨hval, hval, hclient, ?_, ?_, ?_⟩
  · intro existing
    exact ⟨hasOverlapCreate_invalid startTime endTime existing hinv,
      hasOverlapCreate_invalid startTime endTime existing hinv⟩
  · intro l
    exact ⟨createConflict_invalid startTime endTime l hinv,
      editConflict_invalid startTime endTime l hinv⟩
  · intro s user title capacity price venue_id hven
    unfold postEvents
    simp only [hval, createConflict_invalid startTime endTime _ hinv, hven, if_true]

theorem C30_invalid_dates_pass_witness :
    createValidation none (some 5) 1000 = none ∧
    validateEventTimes (some 2000) none 1000 = .valid ∧
    postEvents demoStore root ⟨"Ghost", some 2000, none, 50, 5, 1⟩ 1000 =
      (.created 2,
        { demoStore with
          events := demoStore.events ++ [⟨2, "Ghost", some 2000, none, 50, 50, 5, 1, 1⟩],
          eventSeq := 2 }) :=
  ⟨(C30_invalid_dates_pass none (some 5) 1000 (Or.inl rfl)).1,
   (C30_invalid_dates_pass (some 2000) none 1000
      (Or.inr ⟨rfl, 2000, rfl, by decide⟩)).2.2.1,
   (C30_invalid_dates_pass (some 2000) none 1000
      (Or.inr ⟨rfl, 2000, rfl, by decide⟩)).2.2.2.2.2 demoStore root "Ghost" 50 5 1
      (by decide)⟩

/-! ## The effective gap of the conflict test -/

/-- C26. For every candidate window and every existing window (valid dates, in
milliseconds; 120 min = 7200000), the overlap test of create-event and the one
of edit-event are true exactly when `candidate.start < existing.end + 120 min`
and `candidate.end > existing.start - 120 min`; hence a candidate that starts
at or after the end of an existing event is free of conflict exactly when the
gap is at least 120 minutes (exactly 120 minutes is accepted, 119 minutes is a
conflict); and the test gives the same answer when the two windows are
swapped. -/
theorem C26_effective_gap (ns ne es ee : Int) (existing candidate : Event) :
    (hasOverlapCreate (some ns) (some ne)
        { existing with date := some es, end_time := some ee } = true ↔
      ns < ee + 7200000 ∧ ne > es - 7200000) ∧
    (hasOverlapEdit (some ns) (some ne)
        { existing with date := some es, end_time := some ee } = true ↔
      ns < ee + 7200000 ∧ ne > es - 7200000) ∧
    (es ≤ ee → ns ≤ ne → ee ≤ ns →
      (hasOverlapCreate (some ns) (some ne)
          { existing with date := some es, end_time := some ee } = false ↔
        ns - ee ≥ 7200000) ∧
      (hasOverlapEdit (some ns) (some ne)
          { existing with date := some es, end_time := some ee } = false ↔
        ns - ee ≥ 7200000)) ∧
    (es ≤ ee → ee + 120 * 60000 ≤ ne →
      hasOverlapCreate (some (ee + 120 * 60000)) (some ne)
        { existing with date := some es, end_time := some ee } = false) ∧
    (es ≤ ee → ee + 119 * 60000 ≤ ne →
      hasOverlapCreate (some (ee + 119 * 60000)) (some ne)
        { existing with date := some es, end_time := some ee } = true) ∧
    (hasOverlapCreate (some ns) (some ne)
        { existing with date := some es, end_time := some ee } =
      hasOverlapCreate (some es) (some ee)
        { candidate with date := some ns, end_time := some ne }) ∧
    (hasOverlapEdit (some ns) (some ne)
        { existing with date := some es, end_time := some ee } =
      hasOverlapEdit (some es) (some ee)
        { candidate with date := some ns, end_time := some ne }) := by
  have hc : ∀ (a b c d : Int) (x : Event),
      hasOverlapCreate (some a) (some b) { x with date := some c, end_time := some d } = true ↔
        a < d + 7200000 ∧ b > c - 7200000 := by
    intro a b c d x
    rw [hasOverlapCreate_valid a b c d { x with date := some c, end_time := some d } rfl rfl]
    constructor <;> intro h <;> constructor <;> omega
  have hed : ∀ (a b c d : Int) (x : Event),
      hasOverlapEdit (some a) (some b) { x with date := some c, end_time := some d } =
        hasOverlapCreate (some a) (some b) { x with date := some c, end_time := some d } :=
    fun _ _ _ _ _ => rfl
  have hfalse : ∀ (a b c d : Int) (x : Event),
      hasOverlapCreate (some a) (some b) { x with date := some c, end_time := some d } = false ↔
        ¬ (a < d + 7200000 ∧ b > c - 7200000) := by
    intro a b c d x
    rw [← hc a b c d x]
    simp
  have hsymm : hasOverlapCreate (some ns) (some ne)
        { existing with date := some es, end_time := some ee } =
      hasOverlapCreate (some es) (some ee)
        { candidate with date := some ns, end_time := some ne } := by
    rw [Bool.eq_iff_iff, hc, hc]
    constructor <;> intro h <;> constructor <;> omega
  refine ⟨hc _ _ _ _ _, ?_, ?_, ?_, ?_, hsymm, ?_⟩
  · rw [hed]; exact hc _ _ _ _ _
  · intro h1 h2 h3
    rw [hed, hfalse]
    constructor
    · constructor
      · intro h; by_contra hlt; exact h ⟨by omega, by omega⟩
      · intro h hh; omega
    · constructor
      · intro h; by_contra hlt; exact h ⟨by omega, by omega⟩
      · intro h hh; omega
  · intro h1 h2
    rw [hfalse]
    intro hh; omega
  · intro h1 h2
    rw [hc]
    constructor <;> omega
  · rw [hed, hed]; exact hsymm

/-- With event A at 10:00 to 11:00: a candidate at 13:00 (gap 120 minutes) is
free of conflict, one at 12:59 (gap 119 minutes) is not, and event A is in
conflict with a stored 12:59 event as well. -/
theorem C26_effective_gap_witness :
    hasOverlapCreate (some 46800000) (some 50400000) eventA = false ∧
    hasOverlapCreate (some 46740000) (some 50400000) eventA = true ∧
    hasOverlapCreate (some 36000000) (some 39600000)
      ⟨2, "B", some 46740000, some 50400000, 10, 10, 20, 1, 1⟩ = true :=
  ⟨(C26_effective_gap 46800000 50400000 36000000 39600000 eventA eventA).2.2.2.1
      (by decide) (by decide),
   (C26_effective_gap 46740000 50400000 36000000 39600000 eventA eventA).2.2.2.2.1
      (by decide) (by decide),
   by decide⟩

/-! ## Edit-event keeps the booked seats -/

/-- What a successful edit has checked and what it leaves in the store. -/
theorem putEvents_updated {s : Store} {user : SessionUser} {event_id : Nat}
    {form : EventForm} {now : Int}
    (h : (putEvents s user event_id form now).1 = .updated) :
    ∃ event, s.events.find? (fun e => e.id == event_id && e.organizer_id == user.id) =
        some event ∧
      0 ≤ form.capacity - (event.capacity - event.seats_left) ∧
      (putEvents s user event_id form now).2 =
        { s with
          events := updateEvent s.events form
            (form.capacity - (event.capacity - event.seats_left)) event_id user.id } := by
  unfold putEvents at h ⊢
  split at h
  · rename_i err herr
    exfalso
    simp only at h
    subst h
    rcases editValidation_some_kinds herr with h1 | h1 | h1 | h1 <;> cases h1
  · rename_i hval
    split at h
    · cases h
    · rename_i event hown
      split at h
      · cases h
      · rename_i hconf
        dsimp only at h
        split at h
        · cases h
        · rename_i hneg
          split at h
          · rename_i hven
            refine ⟨event, hown, by omega, ?_⟩
            simp only [hval, hconf, hneg, hven, if_false, if_true]
          · cases h

/-- C27. Every successful edit-event, on a store satisfying the schema
constraints, changes no ticket row and keeps the number of booked seats of
every event: each event after the edit is an event before it with the same id
and the same `capacity - seats_left`; so the relation `seats_left = capacity -
(number of tickets of the event)` still holds whenever it held before. -/
theorem C27_edit_keeps_booked_seats (s : Store) (hwf : s.WF) (user : SessionUser)
    (event_id : Nat) (form : EventForm) (now : Int)
    (h : (putEvents s user event_id form now).1 = .updated) :
    (putEvents s user event_id form now).2.rsvps = s.rsvps ∧
    (∀ e1 ∈ (putEvents s user event_id form now).2.events, ∃ e0 ∈ s.events,
      e1.id = e0.id ∧ e1.capacity - e1.seats_left = e0.capacity - e0.seats_left) ∧
    (∃ e0 ∈ s.events, e0.id = event_id ∧ e0.organizer_id = user.id ∧
      ∃ e1 ∈ (putEvents s user event_id form now).2.events, e1.id = event_id ∧
        e1.capacity = form.capacity ∧
        e1.seats_left = form.capacity - (e0.capacity - e0.seats_left)) ∧
    (SeatInv s → SeatInv (putEvents s user event_id form now).2) := by
  obtain ⟨event, hown, _, hst⟩ := putEvents_updated h
  have hevm : event ∈ s.events := List.mem_of_find?_eq_some hown
  have hevp := List.find?_some hown
  simp only [Bool.and_eq_true, beq_iff_eq] at hevp
  refine ⟨by rw [hst], ?_, ?_, ?_⟩
  · intro e1 he1
    rw [hst] at he1
    obtain ⟨e0, he0, hid, hcase⟩ := mem_updateEvent he1
    refine ⟨e0, he0, hid, ?_⟩
    rcases hcase with h1 | ⟨hid0, _, hcap, hseats⟩
    · rw [h1]
    · have : e0 = event :=
        List.inj_on_of_nodup_map hwf.1 he0 hevm (by simp only [hid0, hevp.1])
      subst this
      rw [hcap, hseats]
      omega
  · refine ⟨event, hevm, hevp.1, hevp.2, ?_⟩
    rw [hst]
    refine ⟨⟨event.id, form.title, form.date, form.end_time, form.capacity,
      form.capacity - (event.capacity - event.seats_left), form.price,
      event.organizer_id, form.venue_id⟩, ?_, hevp.1, rfl, rfl⟩
    simp only [updateEvent, List.mem_map]
    exact ⟨event, hevm, by simp [hevp.1, hevp.2]⟩
  · intro hinv
    exact seatInv_putEvents hwf hinv user event_id form now

theorem C27_edit_keeps_booked_seats_witness :
    (putEvents mixedStore root 1 ⟨"Gala", some 7200000, some 10800000, 5, 25, 1⟩ 0).1 =
      .updated ∧
    (putEvents mixedStore root 1 ⟨"Gala", some 7200000, some 10800000, 5, 25, 1⟩ 0).2.rsvps =
      mixedStore.rsvps ∧
    (putEvents mixedStore root 1 ⟨"Gala", some 7200000, some 10800000, 5, 25, 1⟩ 0).2.events =
      [⟨1, "Gala", some 7200000, some 10800000, 5, 3, 25, 1, 1⟩] ∧
    SeatInv (putEvents mixedStore root 1 ⟨"Gala", some 7200000, some 10800000, 5, 25, 1⟩ 0).2 :=
  ⟨by decide,
   (C27_edit_keeps_booked_seats mixedStore (by decide) root 1
      ⟨"Gala", some 7200000, some 10800000, 5, 25, 1⟩ 0 (by decide)).1,
   by decide,
   (C27_edit_keeps_booked_seats mixedStore (by decide) root 1
      ⟨"Gala", some 7200000, some 10800000, 5, 25, 1⟩ 0 (by decide)).2.2.2 (by decide)⟩

/-! ## The quantity selector of the student dashboard -/

theorem mem_qtyOptions (tickets_held seats_left : Int) (h4 : tickets_held < 4)
    (hs : 0 < seats_left) (q : Int) :
    q ∈ qtyOptions true tickets_held seats_left ↔
      1 ≤ q ∧ q ≤ min (4 - tickets_held) seats_left := by
  have h1 : ¬ tickets_held ≥ 4 := by omega
  have h2 : ¬ seats_left ≤ 0 := by omega
  have hopt : qtyOptions true tickets_held seats_left =
      (List.range (min (4 - tickets_held) seats_left).toNat).map
        (fun (i : Nat) => (i : Int) + 1) := by
    simp only [qtyOptions, Bool.not_true, Bool.false_eq_true, if_false, h1, h2]
  have hpos : 1 ≤ min (4 - tickets_held) seats_left := le_min (by omega) (by omega)
  rw [hopt]
  generalize min (4 - tickets_held) seats_left = m at hpos ⊢
  simp only [List.mem_map, List.mem_range]
  constructor
  · rintro ⟨i, hi, rfl⟩
    omega
  · rintro ⟨hq1, hq2⟩
    refine ⟨(q - 1).toNat, ?_, ?_⟩ <;> omega

/-- C29. For every event shown as bookable on the student dashboard (`isActive`
true, `0 <= tickets_held < 4`, `seats_left > 0`), the quantities offered in the
selector are exactly 1..min(4 - tickets_held, seats_left); the list is not
empty; and an integer quantity is offered exactly when it passes the three
reserve guards of the server on the same numbers (range 1..4, `quantity <= 4 -
tickets_held`, `seats_left >= quantity`). -/
theorem C29_selector_matches_guards (tickets_held seats_left : Int)
    (h0 : 0 ≤ tickets_held) (h4 : tickets_held < 4) (hs : 0 < seats_left) :
    (∀ q : Int, q ∈ qtyOptions true tickets_held seats_left ↔
      1 ≤ q ∧ q ≤ min (4 - tickets_held) seats_left) ∧
    qtyOptions true tickets_held seats_left ≠ [] ∧
    (∀ q : Int, q ∈ qtyOptions true tickets_held seats_left ↔
      qtyRejected (some q) = false ∧ ¬ (q > 4 - tickets_held) ∧ ¬ (seats_left < q)) := by
  have hmem := mem_qtyOptions tickets_held seats_left h4 hs
  refine ⟨hmem, ?_, ?_⟩
  · intro hnil
    have : (1 : Int) ∈ qtyOptions true tickets_held seats_left := by
      rw [hmem]; omega
    rw [hnil] at this
    cases this
  · intro q
    rw [hmem]
    constructor
    · rintro ⟨hq1, hq2⟩
      exact ⟨qtyRejected_of_range hq1 (by omega), by omega, by omega⟩
    · rintro ⟨hr, hq, hseat⟩
      obtain ⟨n, hn, hn1, _⟩ := qtyRejected_false hr
      simp only [Option.some.injEq] at hn
      subst hn
      omega

/-- The same on a store: for a non-admin user and a stored event that is
active, with the user holding fewer than 4 tickets, the offered quantities are
the ones the booking handler does not reject by one of its three guards. -/
theorem selector_matches_postRsvp {s : Store} {user : SessionUser} {e : Event}
    (now : Int) (rand : Nat → String) (hrole : user.role ≠ "admin")
    (he : findEvent s e.id = some e) (hact : isEventActive e now = true)
    (h4 : ticketsHeld s user.id e.id < 4) (q : Int) :
    q ∈ qtyOptions (isEventActive e now) (ticketsHeld s user.id e.id) e.seats_left ↔
      ((postRsvp s user e.id (some q) rand).1 ≠ .invalidQuantity ∧
        (∀ held more, (postRsvp s user e.id (some q) rand).1 ≠ .quotaExceeded held more) ∧
        (∀ n, (postRsvp s user e.id (some q) rand).1 ≠ .insufficientSeats n)) := by
  have hs : 0 < e.seats_left := by
    simp only [isEventActive, Bool.and_eq_true, decide_eq_true_eq] at hact
    exact hact.1
  rw [hact, mem_qtyOptions _ _ (by omega) hs]
  have hr : (user.role == "admin") = false := by simpa using hrole
  constructor
  · rintro ⟨hq1, hq2⟩
    have hq4 : q ≤ 4 := by omega
    rw [postRsvp_eval rand hrole hq1 hq4 he]
    have hnq : ¬ (q > 4 - (ticketsHeld s user.id e.id : Int)) := by omega
    have hns : ¬ (e.seats_left < q) := by omega
    simp only [hnq, hns, if_false]
    split <;> simp
  · rintro ⟨hinv, hquota, hseats⟩
    by_cases hrej : qtyRejected (some q) = true
    · exfalso
      apply hinv
      unfold postRsvp
      simp only [hr, hrej, Bool.false_eq_true, if_false, if_true]
    · simp only [Bool.not_eq_true] at hrej
      obtain ⟨n, hn, hq1, hq4⟩ := qtyRejected_false hrej
      simp only [Option.some.injEq] at hn
      subst hn
      rw [postRsvp_eval rand hrole hq1 hq4 he] at hquota hseats
      by_cases hnq : q > 4 - (ticketsHeld s user.id e.id : Int)
      · exfalso
        simp only [hnq, if_true] at hquota
        exact hquota _ _ rfl
      · simp only [hnq, if_false] at hseats
        by_cases hns : e.seats_left < q
        · exfalso
          simp only [hns, if_true] at hseats
          exact hseats _ rfl
        · omega

theorem C29_selector_matches_guards_witness :
    qtyOptions true 1 9 = [1, 2, 3] ∧ qtyOptions true 0 2 = [1, 2] ∧
    qtyOptions true 1 9 ≠ [] ∧
    ((2 : Int) ∈ qtyOptions true 1 9 ↔
      qtyRejected (some 2) = false ∧ ¬ ((2 : Int) > 4 - 1) ∧ ¬ ((9 : Int) < 2)) ∧
    ((4 : Int) ∈ qtyOptions true 1 9 ↔
      qtyRejected (some 4) = false ∧ ¬ ((4 : Int) > 4 - 1) ∧ ¬ ((9 : Int) < 4)) ∧
    (4 : Int) ∉ qtyOptions true 1 9 :=
  ⟨by decide, by decide,
   (C29_selector_matches_guards 1 9 (by decide) (by decide) (by decide)).2.1,
   (C29_selector_matches_guards 1 9 (by decide) (by decide) (by decide)).2.2 2,
   (C29_selector_matches_guards 1 9 (by decide) (by decide) (by decide)).2.2 4,
   by decide⟩

/-! ## Two bookings of the last seat, one after the other -/

theorem findEvent_addSeats {s : Store} {event_id : Nat} {e : Event} (rows : List Rsvp)
    (delta : Int) (he : findEvent s event_id = some e) :
    findEvent { s with rsvps := rows, events := addSeats s.events event_id delta } event_id =
      some { e with seats_left := e.seats_left + delta } := by
  unfold findEvent at he ⊢
  simp only
  generalize s.events = events at he
  induction events with
  | nil => simp at he
  | cons x xs ih =>
    by_cases hx : x.id = event_id
    · have hfound : x = e := by
        simp only [List.find?, hx, beq_self_eq_true, Option.some.injEq] at he
        exact he
      subst hfound
      simp [addSeats, List.find?, hx]
    · have hxf : (x.id == event_id) = false := by simpa using hx
      have hrest : List.find? (fun e => e.id == event_id) xs = some e := by
        simpa [List.find?, hxf] using he
      have := ih hrest
      simp only [addSeats, List.map_cons, List.find?, hx, hxf, if_false,
        Bool.false_eq_true] at this ⊢
      exact this

/-- In the model, where each handler runs to completion before the next one
starts: two requests for one seat each, by two different non-admin users
holding no ticket, on an event with one seat left.  The first succeeds, the
second is answered "only 0 seats are available", and the store then holds one
new ticket and `seats_left = 0`. -/
theorem last_seat_one_after_the_other {s : Store} {u1 u2 : SessionUser} {event_id : Nat}
    {e : Event} (rand1 rand2 : Nat → String)
    (hr1 : u1.role ≠ "admin") (hr2 : u2.role ≠ "admin") (hne : u1.id ≠ u2.id)
    (he : findEvent s event_id = some e) (hseat : e.seats_left = 1)
    (hheld1 : ticketsHeld s u1.id event_id = 0) (hheld2 : ticketsHeld s u2.id event_id = 0)
    (hfresh : ∀ r ∈ s.rsvps, r.ticket_id ≠ rand1 0) :
    postRsvp s u1 event_id (some 1) rand1 =
      (.created 1 [rand1 0],
        { s with rsvps := s.rsvps ++ [newRow u1.id event_id (rand1 0)],
                 events := addSeats s.events event_id (-1) }) ∧
    postRsvp (postRsvp s u1 event_id (some 1) rand1).2 u2 event_id (some 1) rand2 =
      (.insufficientSeats 0, (postRsvp s u1 event_id (some 1) rand1).2) ∧
    findEvent (postRsvp s u1 event_id (some 1) rand1).2 event_id =
      some { e with seats_left := 0 } := by
  have hgen : ticketsGenerated rand1 1 = [rand1 0] := rfl
  have hins : insertTickets s.rsvps u1.id event_id [rand1 0] =
      some (s.rsvps ++ [newRow u1.id event_id (rand1 0)]) := by
    have := insertTickets_fresh u1.id event_id [rand1 0] s.rsvps (List.nodup_singleton _)
      (by
        intro t ht r hr
        simp only [List.mem_singleton] at ht
        subst ht
        exact hfresh r hr)
    simpa using this
  have hfirst : postRsvp s u1 event_id (some 1) rand1 =
      (.created 1 [rand1 0],
        { s with rsvps := s.rsvps ++ [newRow u1.id event_id (rand1 0)],
                 events := addSeats s.events event_id (-1) }) := by
    rw [postRsvp_eval rand1 hr1 (by decide) (by decide) he, hheld1, hseat, hgen, hins]
    simp
  have hfind := findEvent_addSeats (s.rsvps ++ [newRow u1.id event_id (rand1 0)]) (-1) he
  have hfind0 : findEvent
      { s with rsvps := s.rsvps ++ [newRow u1.id event_id (rand1 0)],
               events := addSeats s.events event_id (-1) } event_id =
      some { e with seats_left := 0 } := by
    rw [hfind, hseat]
    rfl
  have hheld : ticketsHeld
      { s with rsvps := s.rsvps ++ [newRow u1.id event_id (rand1 0)],
               events := addSeats s.events event_id (-1) } u2.id event_id = 0 := by
    simp only [ticketsHeld, List.countP_append] at hheld2 ⊢
    rw [hheld2]
    simp [newRow, hne]
  refine ⟨hfirst, ?_, ?_⟩
  · rw [hfirst]
    rw [postRsvp_eval rand2 hr2 (by decide) (by decide) hfind0, hheld]
    simp
  · rw [hfirst]
    exact hfind0

theorem last_seat_example :
    (postRsvp lastSeatStore alice 1 (some 1) demoRand).1 = .created 1 ["TKT-00000001"] ∧
    postRsvp (postRsvp lastSeatStore alice 1 (some 1) demoRand).2 bob 1 (some 1) demoRand =
      (.insufficientSeats 0, (postRsvp lastSeatStore alice 1 (some 1) demoRand).2) := by
  decide

end EventMgmt
